import Mathlib

/-! # openair-cn-mobility: EPS bearer contexts and GUTI / TAI-list allocation

A shallow embedding of `esm_ebr_context.c` (EPS bearer context creation and
release) and of the TAI-list part of `mme_api.c`, with the properties the
specification states about them.

Conventions of the embedding.

* A C array is a list. `arr_get cap a i` is the read `a[i]` of an array of
  capacity `cap`; it is `none` when the position lies outside the array. A
  pointer slot is an `Option`: `none` is `NULL`.
* A function whose C body can abort (`AssertFatal`), dereference `NULL` or
  read outside an array returns an `Option`; `none` stands for that.
* `int` fields are integers, the small unsigned identifiers are naturals. The
  statements `+= 1` and `-= 1` on an `int` are `int_inc` and `int_dec`, which
  wrap at the ends of the 32-bit range.
-/

namespace OpenairCN

/-! ## Constants -/

/-- Modelled from the spec: BEARERS_PER_UE, the per-UE bearer maximum and the
capacity of both bearer arrays. The header that defines it is not under src;
the value is the one of the upstream header. -/
def BEARERS_PER_UE : Nat := 11

/-- Modelled from the spec: MAX_APN_PER_UE, the number of PDN connection slots
of a UE ("N = max simultaneous PDNs"). The header that defines it is not under
src; the value is the one of the upstream header. -/
def MAX_APN_PER_UE : Nat := 5

/-- Modelled from the spec: ESM_EBI_UNASSIGNED, the "unassigned" EPS bearer
identity sentinel (value 0 of the EPS bearer identity information element). -/
def ESM_EBI_UNASSIGNED : Nat := 0

/-- Modelled from the spec: NAS_TIMER_INACTIVE_ID, the timer handle that means
"no timer armed". -/
def NAS_TIMER_INACTIVE_ID : Int := -1

/-- Modelled from the spec: the status enumeration of a bearer context,
"{INACTIVE, ACTIVE, pending states}". -/
inductive esm_ebr_state where
  | ESM_EBR_INACTIVE
  | ESM_EBR_ACTIVE
  | ESM_EBR_INACTIVE_PENDING
  | ESM_EBR_MODIFY_PENDING
  | ESM_EBR_ACTIVE_PENDING
deriving DecidableEq, Repr

open esm_ebr_state

/-! ## Arrays -/

/-- Read `a[i]` of a C array of capacity `cap`. -/
def arr_get {α : Type} (cap : Nat) (a : List α) (i : Nat) : Option α :=
  if i < cap then a[i]? else none

/-- Read `a[i]` with a C `int` index. -/
def arr_get_int {α : Type} (cap : Nat) (a : List α) (i : Int) : Option α :=
  if 0 ≤ i then arr_get cap a i.toNat else none

/-! ## The C type int -/

/-- The largest value of a C `int` of 32 bits. -/
def INT_MAX : Int := 2147483647

/-- The smallest value of a C `int` of 32 bits. -/
def INT_MIN : Int := -2147483648

/-- The statement `x += 1` on an `int`: one more, and at INT_MAX the value the
compiled code leaves, INT_MIN. -/
def int_inc (x : Int) : Int := if x = INT_MAX then INT_MIN else x + 1

/-- The statement `x -= 1` on an `int`: one less, and at INT_MIN the value the
compiled code leaves, INT_MAX. -/
def int_dec (x : Int) : Int := if x = INT_MIN then INT_MAX else x - 1

namespace Esm

/-! ## Data model of the bearer context manager -/

/-- The retransmission timer handle of a bearer context (`nas_timer_t`). -/
structure nas_timer_t where
  id : Int
  sec : Int
deriving DecidableEq, Repr

/-- The ESM part of a bearer context (`esm_ebr_context_t`). The two blobs are
owned pointers; an absent blob is `none`. -/
structure esm_ebr_context_t where
  status : esm_ebr_state
  gbr_dl : Nat
  gbr_ul : Nat
  mbr_dl : Nat
  mbr_ul : Nat
  tft : Option Nat
  pco : Option Nat
  timer : nas_timer_t
deriving DecidableEq, Repr

/-- A bearer context (`bearer_context_t`), the fields the two functions use. -/
structure bearer_context_t where
  ebi : Nat
  pdn_cx_id : Nat
  transaction_identifier : Nat
  qci : Nat
  esm_ebr_context : esm_ebr_context_t
deriving DecidableEq, Repr

/-- The ESM data of a PDN connection (`esm_pdn_t`). The count `n_bearers` is a
C `int`; the code changes it with `+= 1` and `-= 1` only, which are `int_inc`
and `int_dec`. -/
structure esm_pdn_t where
  n_bearers : Int
  is_emergency : Bool
deriving DecidableEq, Repr

/-- A PDN connection (`pdn_context_t`). `bearer_contexts` is the `int` array of
the PDN: position `i` holds the index of a slot of the UE's bearer array. -/
structure pdn_context_t where
  is_active : Bool
  default_ebi : Nat
  bearer_contexts : List Int
  esm_data : esm_pdn_t
deriving DecidableEq, Repr

/-- The bearer part of a UE context (`ue_context_t`): the array of PDN
connection pointers and the array of bearer context pointers. -/
structure ue_context_t where
  pdn_contexts : List (Option pdn_context_t)
  bearer_contexts : List (Option bearer_context_t)
deriving DecidableEq, Repr

/-- The ESM context of the UE (`esm_context_t`, reached as
`emm_context->esm_ctx`). -/
structure esm_context_t where
  n_active_ebrs : Int
  is_emergency : Bool
deriving DecidableEq, Repr

/-- What the two functions work on: the EMM context's ESM data and the UE
context that `mme_ue_context_exists_mme_ue_s1ap_id` finds for its `ue_id`. -/
structure emm_data_context_t where
  esm_ctx : esm_context_t
  ue_context : ue_context_t
deriving DecidableEq, Repr

/-! ## esm_ebr_context_init -/

/-- The body of `esm_ebr_context_init` for a non-NULL argument: `memset` to
zero, then status INACTIVE and the timer disabled. -/
def esm_ebr_context_init_val : esm_ebr_context_t :=
  { status := ESM_EBR_INACTIVE, gbr_dl := 0, gbr_ul := 0, mbr_dl := 0, mbr_ul := 0,
    tft := none, pco := none, timer := { id := NAS_TIMER_INACTIVE_ID, sec := 0 } }

/-- The function `esm_ebr_context_init`: a NULL argument is left alone. -/
def esm_ebr_context_init (esm_ebr_context : Option esm_ebr_context_t) :
    Option esm_ebr_context_t :=
  match esm_ebr_context with
  | some _ => some esm_ebr_context_init_val
  | none => none

/-! ## Helpers of the bearer context manager that are not under src -/

/-- Modelled from the spec: the free-slot search of the UE context facade
("allocation of a free slot", "pool exhausted"): the lowest empty position of
the UE's bearer array. -/
def mme_app_free_bearer_slot (bcs : List (Option bearer_context_t)) : Option Nat :=
  (List.range BEARERS_PER_UE).find? (fun i => decide (arr_get BEARERS_PER_UE bcs i = some none))

/-- Modelled from the spec: mme_app_register_bearer_context
(mme_app_bearer_context.c is not under src). "Registration of the
bearer-context slot for requested_ebi under the PDN Connection ... delegated to
the Facade's allocation of a free slot; on failure (pool exhausted) fail." A
free slot of the UE's bearer array receives an initialised bearer context that
carries the identity and the PDN id, and the PDN records the slot index at the
same position of its own array, which is the form `esm_ebr_context_release`
checks. `none` is RETURNerror. -/
def mme_app_register_bearer_context (ue_context : ue_context_t) (ebi : Nat) (pid : Nat) :
    Option ue_context_t :=
  match mme_app_free_bearer_slot ue_context.bearer_contexts,
        arr_get MAX_APN_PER_UE ue_context.pdn_contexts pid with
  | some idx, some (some pdn_context) =>
    some { pdn_contexts := ue_context.pdn_contexts.set pid
             (some { pdn_context with
                       bearer_contexts := pdn_context.bearer_contexts.set idx (idx : Int) }),
           bearer_contexts := ue_context.bearer_contexts.set idx
             (some { ebi := ebi, pdn_cx_id := pid, transaction_identifier := 0, qci := 0,
                     esm_ebr_context := esm_ebr_context_init_val }) }
  | _, _ => none

/-- Modelled from the spec: mme_app_get_bearer_context
(mme_app_bearer_context.c is not under src): the slot of the UE's bearer array
that is registered under the PDN connection and carries the identity, as an
index; `none` is the NULL result. -/
def mme_app_get_bearer_context (ue_context : ue_context_t) (pdn_context : pdn_context_t)
    (ebi : Nat) : Option Nat :=
  (List.range BEARERS_PER_UE).find? (fun i =>
    decide (arr_get BEARERS_PER_UE pdn_context.bearer_contexts i = some (i : Int)) &&
    (match arr_get BEARERS_PER_UE ue_context.bearer_contexts i with
     | some (some bc) => decide (bc.ebi = ebi)
     | _ => false))

/-- Modelled from the spec: esm_ebr_set_status (esm_ebr.c is not under src),
"force its status": the bearer context of the UE that carries the identity
takes the given status. -/
def esm_ebr_set_status (bcs : List (Option bearer_context_t)) (ebi : Nat)
    (status : esm_ebr_state) : List (Option bearer_context_t) :=
  bcs.map (fun o => o.map (fun bc =>
    if bc.ebi = ebi then
      { bc with esm_ebr_context := { bc.esm_ebr_context with status := status } }
    else bc))

/-- Modelled from the spec: esm_ebr_release (esm_ebr.c is not under src),
"release its bearer resources": the retransmission timer of the bearer context
that carries the identity is disarmed ("guaranteed disarmed whenever status
becomes INACTIVE"); the blobs and the slot itself are left in place ("the
reference behavior left this incomplete"). -/
def esm_ebr_release (bcs : List (Option bearer_context_t)) (ebi : Nat) :
    List (Option bearer_context_t) :=
  bcs.map (fun o => o.map (fun bc =>
    if bc.ebi = ebi then
      { bc with esm_ebr_context :=
          { bc.esm_ebr_context with
              timer := { bc.esm_ebr_context.timer with id := NAS_TIMER_INACTIVE_ID } } }
    else bc))

/-! ## esm_ebr_context_create -/

/-- The function `esm_ebr_context_create`. The result is the returned EPS
bearer identity and the state after the call; `none` is the abort of
`AssertFatal(pdn_context)`.

The source text of the function lacks one closing brace, so the text alone does
not fix what a call with `pid >= MAX_APN_PER_UE` returns. The model reads the
final `return ESM_EBI_UNASSIGNED` as closing the function, which is what the
header of the function promises ("UNASSIGN EPS bearer value otherwise"), so
that it is reached for `pid >= MAX_APN_PER_UE` too.

Inside `pid < MAX_APN_PER_UE`: a NULL PDN connection is logged and control
falls through to `AssertFatal(pdn_context)`; else a count above
BEARERS_PER_UE returns the sentinel; then registration, the lookup of the
registered bearer, and the updates of the success branch, where both counters
take the `int` increment `int_inc`. Freeing a previous blob before the new one
is stored leaves no trace in the state. -/
def esm_ebr_context_create (emm_context : emm_data_context_t) (pti : Nat) (pid : Nat)
    (ebi : Nat) (is_default : Bool) (qci gbr_dl gbr_ul mbr_dl mbr_ul : Nat)
    (tft pco : Option Nat) : Option (Nat × emm_data_context_t) :=
  let esm_ctx := emm_context.esm_ctx
  let ue_context := emm_context.ue_context
  if pid < MAX_APN_PER_UE then
    match arr_get MAX_APN_PER_UE ue_context.pdn_contexts pid with
    | some (some _) =>
      if esm_ctx.n_active_ebrs > (BEARERS_PER_UE : Int) then
        some (ESM_EBI_UNASSIGNED, emm_context)
      else
        match mme_app_register_bearer_context ue_context ebi pid with
        | none => some (ESM_EBI_UNASSIGNED, emm_context)
        | some ue1 =>
          match arr_get MAX_APN_PER_UE ue1.pdn_contexts pid with
          | some (some pdn_context) =>
            match mme_app_get_bearer_context ue1 pdn_context ebi with
            | some bidx =>
              match arr_get BEARERS_PER_UE ue1.bearer_contexts bidx with
              | some (some bearer_context) =>
                let bc1 : bearer_context_t :=
                  { bearer_context with
                      transaction_identifier := pti,
                      qci := qci,
                      esm_ebr_context :=
                        { bearer_context.esm_ebr_context with
                            gbr_dl := gbr_dl, gbr_ul := gbr_ul,
                            mbr_dl := mbr_dl, mbr_ul := mbr_ul,
                            tft := tft, pco := pco } }
                let pdn1 : esm_pdn_t :=
                  { pdn_context.esm_data with
                      n_bearers := int_inc pdn_context.esm_data.n_bearers }
                let pc1 : pdn_context_t :=
                  if is_default then
                    { pdn_context with esm_data := pdn1, is_active := true, default_ebi := ebi }
                  else
                    { pdn_context with esm_data := pdn1 }
                let esm1 : esm_context_t :=
                  { n_active_ebrs := int_inc esm_ctx.n_active_ebrs,
                    is_emergency :=
                      if is_default && pdn1.is_emergency then true else esm_ctx.is_emergency }
                some (pc1.default_ebi,
                      { esm_ctx := esm1,
                        ue_context :=
                          { pdn_contexts := ue1.pdn_contexts.set pid (some pc1),
                            bearer_contexts := ue1.bearer_contexts.set bidx (some bc1) } })
              | _ => none
            | none => some (ESM_EBI_UNASSIGNED, { emm_context with ue_context := ue1 })
          | _ => none
    | _ => none
  else
    some (ESM_EBI_UNASSIGNED, emm_context)

/-! ## esm_ebr_context_release -/

/-- The by-identity scan of `esm_ebr_context_release`:
`for (*bid = 0; *bid < BEARERS_PER_UE; (*bid)++)`, stopping at the first
occupied slot whose identity is `ebi`. The result is that position, or `none`
when the loop runs to its end. `k` counts the positions still to visit. -/
def release_scan (bcs : List (Option bearer_context_t)) (ebi : Nat) : Nat → Nat → Option Nat
  | 0, _ => none
  | k + 1, bid =>
    match arr_get BEARERS_PER_UE bcs bid with
    | some (some bc) => if bc.ebi ≠ ebi then release_scan bcs ebi k (bid + 1) else some bid
    | _ => release_scan bcs ebi k (bid + 1)

/-- The cascade loop of `esm_ebr_context_release`,
`for (i = 1; pdn->n_bearers > 0; i++)`, over the entries
`bearer_contexts[i], bearer_contexts[i+1], ...` of the PDN's array that are
still ahead. An entry in `[0, BEARERS_PER_UE)` names a slot of the UE: its
bearer is set INACTIVE and released and the count takes the `int` decrement
`int_dec`. Running past the end of the array, or meeting an empty UE slot, is
`none`. -/
def release_cascade : List Int → List (Option bearer_context_t) → Int →
    Option (List (Option bearer_context_t) × Int)
  | [], bcs, n_bearers => if n_bearers > 0 then none else some (bcs, n_bearers)
  | idx :: rest, bcs, n_bearers =>
    if n_bearers > 0 then
      if 0 ≤ idx ∧ idx < (BEARERS_PER_UE : Int) then
        match arr_get_int BEARERS_PER_UE bcs idx with
        | some (some bc) =>
          release_cascade rest
            (esm_ebr_release (esm_ebr_set_status bcs bc.ebi ESM_EBR_INACTIVE) bc.ebi)
            (int_dec n_bearers)
        | _ => none
      else release_cascade rest bcs n_bearers
    else some (bcs, n_bearers)

/-- The result of `esm_ebr_context_release`: the returned identity, the values
left in `*pid` and `*bid`, and the state after the call. -/
structure release_result where
  ebi : Nat
  pid : Nat
  bid : Int
  emm_context : emm_data_context_t
deriving DecidableEq, Repr

/-- The part of `esm_ebr_context_release` under `if (found)`: the validity
check `bearer_contexts[*bid] != *bid`, the `int` decrement of the count, and
for `*bid == 0` the cascade and the reset of the PDN's emergency indicator. -/
def release_found (emm_context : emm_data_context_t) (ebi : Nat) (pid : Nat) (bid : Int) :
    Option release_result :=
  let ue_context := emm_context.ue_context
  match arr_get MAX_APN_PER_UE ue_context.pdn_contexts pid with
  | some (some pdn_context) =>
    match arr_get_int BEARERS_PER_UE pdn_context.bearer_contexts bid with
    | some slot =>
      if slot ≠ bid then
        some { ebi := ESM_EBI_UNASSIGNED, pid := pid, bid := bid, emm_context := emm_context }
      else
        let n1 := int_dec pdn_context.esm_data.n_bearers
        if bid = 0 then
          match release_cascade ((pdn_context.bearer_contexts.take BEARERS_PER_UE).drop 1)
                  ue_context.bearer_contexts n1 with
          | some (bcs, n2) =>
            some { ebi := ebi, pid := pid, bid := bid,
                   emm_context :=
                     { emm_context with
                         ue_context :=
                           { pdn_contexts := ue_context.pdn_contexts.set pid
                               (some { pdn_context with
                                         esm_data := { n_bearers := n2, is_emergency := false } }),
                             bearer_contexts := bcs } } }
          | none => none
        else
          some { ebi := ebi, pid := pid, bid := bid,
                 emm_context :=
                   { emm_context with
                       ue_context :=
                         { ue_context with
                             pdn_contexts := ue_context.pdn_contexts.set pid
                               (some { pdn_context with
                                         esm_data :=
                                           { pdn_context.esm_data with n_bearers := n1 } }) } } }
    | none => none
  | _ => none

/-- The function `esm_ebr_context_release`. `pid` and `bid` are the values of
`*pid` and `*bid` at the call. `none` is a NULL dereference or a read outside
an array. -/
def esm_ebr_context_release (emm_context : emm_data_context_t) (ebi : Nat) (pid : Nat)
    (bid : Int) : Option release_result :=
  let ue_context := emm_context.ue_context
  if ebi ≠ ESM_EBI_UNASSIGNED then
    match release_scan ue_context.bearer_contexts ebi BEARERS_PER_UE 0 with
    | some b =>
      match arr_get BEARERS_PER_UE ue_context.bearer_contexts b with
      | some (some bc) => release_found emm_context ebi bc.pdn_cx_id (b : Int)
      | _ => none
    | none =>
      some { ebi := ESM_EBI_UNASSIGNED, pid := pid, bid := (BEARERS_PER_UE : Int),
             emm_context := emm_context }
  else
    if pid < MAX_APN_PER_UE then
      match arr_get MAX_APN_PER_UE ue_context.pdn_contexts pid with
      | some (some pdn_context) =>
        match arr_get_int BEARERS_PER_UE pdn_context.bearer_contexts bid with
        | some slot =>
          if slot ≠ 0 then
            match arr_get_int BEARERS_PER_UE ue_context.bearer_contexts bid with
            | some (some bc) => release_found emm_context bc.ebi pid bid
            | _ => none
          else
            some { ebi := ESM_EBI_UNASSIGNED, pid := pid, bid := bid, emm_context := emm_context }
        | none => none
      | some none =>
        some { ebi := ESM_EBI_UNASSIGNED, pid := pid, bid := bid, emm_context := emm_context }
      | none => none
    else
      some { ebi := ESM_EBI_UNASSIGNED, pid := pid, bid := bid, emm_context := emm_context }

/-! ## Example states -/

/-- A PDN connection as allocated, with no bearer registered: every position
of its array holds -1. -/
def pdn_fresh : pdn_context_t :=
  { is_active := false, default_ebi := ESM_EBI_UNASSIGNED,
    bearer_contexts := List.replicate 11 (-1),
    esm_data := { n_bearers := 0, is_emergency := false } }

/-- A UE with PDN connection 0 allocated and no bearer. -/
def ue_fresh : emm_data_context_t :=
  { esm_ctx := { n_active_ebrs := 0, is_emergency := false },
    ue_context := { pdn_contexts := [some pdn_fresh, none, none, none, none],
                    bearer_contexts := List.replicate 11 none } }

/-- A bearer context with the given identity, PDN id and status. -/
def bearer_of (ebi pid : Nat) (status : esm_ebr_state) : bearer_context_t :=
  { ebi := ebi, pdn_cx_id := pid, transaction_identifier := 1, qci := 9,
    esm_ebr_context := { esm_ebr_context_init_val with status := status } }

/-- PDN 0 of the scenario of the specification: default bearer EBI 5 recorded
at position 0, dedicated bearer EBI 6 at position 1. -/
def pdn_two_bearers : pdn_context_t :=
  { is_active := true, default_ebi := 5,
    bearer_contexts := [0, 1, -1, -1, -1, -1, -1, -1, -1, -1, -1],
    esm_data := { n_bearers := 2, is_emergency := false } }

/-- The scenario of the specification: PDN 0 with default bearer EBI 5 in slot 0
and dedicated bearer EBI 6 in slot 1, both active. -/
def ue_two_bearers : emm_data_context_t :=
  { esm_ctx := { n_active_ebrs := 2, is_emergency := false },
    ue_context :=
      { pdn_contexts := [some pdn_two_bearers, none, none, none, none],
        bearer_contexts :=
          [some (bearer_of 5 0 ESM_EBR_ACTIVE), some (bearer_of 6 0 ESM_EBR_ACTIVE),
           none, none, none, none, none, none, none, none, none] } }

/-- Two PDN connections: PDN 0 with its default bearer EBI 5 in slot 0, PDN 1
with its default bearer EBI 6 in slot 1 and a dedicated bearer EBI 7 in slot 2,
all active. -/
def ue_two_pdns : emm_data_context_t :=
  { esm_ctx := { n_active_ebrs := 3, is_emergency := false },
    ue_context :=
      { pdn_contexts :=
          [some { is_active := true, default_ebi := 5,
                  bearer_contexts := [0, -1, -1, -1, -1, -1, -1, -1, -1, -1, -1],
                  esm_data := { n_bearers := 1, is_emergency := false } },
           some { is_active := true, default_ebi := 6,
                  bearer_contexts := [-1, 1, 2, -1, -1, -1, -1, -1, -1, -1, -1],
                  esm_data := { n_bearers := 2, is_emergency := false } },
           none, none, none],
        bearer_contexts :=
          [some (bearer_of 5 0 ESM_EBR_ACTIVE), some (bearer_of 6 1 ESM_EBR_ACTIVE),
           some (bearer_of 7 1 ESM_EBR_ACTIVE),
           none, none, none, none, none, none, none, none] } }

/-- PDN 0 whose dedicated bearer EBI 5 was created first (slot 0) and whose
default bearer EBI 6 came second (slot 1), both active. -/
def ue_dedicated_first : emm_data_context_t :=
  { esm_ctx := { n_active_ebrs := 2, is_emergency := false },
    ue_context :=
      { pdn_contexts :=
          [some { is_active := true, default_ebi := 6,
                  bearer_contexts := [0, 1, -1, -1, -1, -1, -1, -1, -1, -1, -1],
                  esm_data := { n_bearers := 2, is_emergency := false } },
           none, none, none, none],
        bearer_contexts :=
          [some (bearer_of 5 0 ESM_EBR_ACTIVE), some (bearer_of 6 0 ESM_EBR_ACTIVE),
           none, none, none, none, none, none, none, none, none] } }

/-- A UE whose active-bearer count is above BEARERS_PER_UE. -/
def ue_count_above_max : emm_data_context_t :=
  { ue_fresh with esm_ctx := { n_active_ebrs := 12, is_emergency := false } }

/-- A PDN connection flagged emergency, with no bearer registered. -/
def pdn_emergency : pdn_context_t :=
  { pdn_fresh with esm_data := { n_bearers := 0, is_emergency := true } }

/-- A UE whose PDN connection 0 is flagged emergency. -/
def ue_emergency : emm_data_context_t :=
  { esm_ctx := { n_active_ebrs := 0, is_emergency := false },
    ue_context := { pdn_contexts := [some pdn_emergency, none, none, none, none],
                    bearer_contexts := List.replicate 11 none } }

/-- The PDN connection `pdn_emergency` once slot 0 is registered under it. -/
def pdn_emergency_registered : pdn_context_t :=
  { pdn_emergency with bearer_contexts := [0, -1, -1, -1, -1, -1, -1, -1, -1, -1, -1] }

/-- The UE context of `ue_emergency` once EBI 5 is registered under PDN 0. -/
def ue_emergency_registered : ue_context_t :=
  { pdn_contexts := [some pdn_emergency_registered, none, none, none, none],
    bearer_contexts :=
      [some { ebi := 5, pdn_cx_id := 0, transaction_identifier := 0, qci := 0,
              esm_ebr_context := esm_ebr_context_init_val },
       none, none, none, none, none, none, none, none, none, none] }

/-- The PDN connection `pdn_fresh` once slot 0 is registered under it. -/
def pdn_fresh_registered : pdn_context_t :=
  { pdn_fresh with bearer_contexts := [0, -1, -1, -1, -1, -1, -1, -1, -1, -1, -1] }

/-- The UE context of `ue_fresh` once EBI 5 is registered under PDN 0. -/
def ue_fresh_registered : ue_context_t :=
  { pdn_contexts := [some pdn_fresh_registered, none, none, none, none],
    bearer_contexts :=
      [some { ebi := 5, pdn_cx_id := 0, transaction_identifier := 0, qci := 0,
              esm_ebr_context := esm_ebr_context_init_val },
       none, none, none, none, none, none, none, none, none, none] }

/-- The two-bearer scenario after the release of the dedicated bearer EBI 6:
the count of PDN 0 is 1 and nothing else differs. -/
def release_dedicated_result : release_result :=
  { ebi := 6, pid := 0, bid := 1,
    emm_context :=
      { esm_ctx := ue_two_bearers.esm_ctx,
        ue_context :=
          { pdn_contexts :=
              [some { pdn_two_bearers with
                        esm_data := { n_bearers := 1, is_emergency := false } },
               none, none, none, none],
            bearer_contexts := ue_two_bearers.ue_context.bearer_contexts } } }

/-- The identity and status held by each slot of the UE's bearer array. -/
def bearer_statuses (emm_context : emm_data_context_t) : List (Option (Nat × esm_ebr_state)) :=
  emm_context.ue_context.bearer_contexts.map
    (Option.map (fun bc => (bc.ebi, bc.esm_ebr_context.status)))

/-- The bearer count of each PDN connection slot of the UE. -/
def pdn_counts (emm_context : emm_data_context_t) : List (Option Int) :=
  emm_context.ue_context.pdn_contexts.map
    (Option.map (fun pdn_context => pdn_context.esm_data.n_bearers))

/-- The predicate of the specification on the two counters: the UE-wide count
equals the sum of the counts of the allocated PDN connections. -/
def ebr_count_consistent (emm_context : emm_data_context_t) : Prop :=
  emm_context.esm_ctx.n_active_ebrs =
    ((emm_context.ue_context.pdn_contexts.take MAX_APN_PER_UE).map
      (fun o => match o with
                | some pdn_context => pdn_context.esm_data.n_bearers
                | none => 0)).sum

/-- An entry of a PDN's array that names a slot of the UE: the test
`(idx >= 0) && (idx < BEARERS_PER_UE)` of the cascade. -/
def slot_in_range (idx : Int) : Prop := 0 ≤ idx ∧ idx < (BEARERS_PER_UE : Int)

instance (idx : Int) : Decidable (slot_in_range idx) := by
  unfold slot_in_range; infer_instance

instance (emm_context : emm_data_context_t) : Decidable (ebr_count_consistent emm_context) := by
  unfold ebr_count_consistent; infer_instance

/-- The entries at positions 1 and above of a PDN's array that name a slot of
the UE: the bearers the cascade of a release tears down. -/
def pdn_other_slots (pdn_context : pdn_context_t) : List Int :=
  ((pdn_context.bearer_contexts.take BEARERS_PER_UE).drop 1).filter
    (fun idx => decide (slot_in_range idx))

/-- What one round of the cascade does to a bearer context: the bearer that
carries the identity goes INACTIVE and its timer is disarmed. -/
def cascade_touch (ebi : Nat) (bc : bearer_context_t) : bearer_context_t :=
  if bc.ebi = ebi then
    { bc with esm_ebr_context :=
        { bc.esm_ebr_context with
            status := ESM_EBR_INACTIVE,
            timer := { bc.esm_ebr_context.timer with id := NAS_TIMER_INACTIVE_ID } } }
  else bc

/-- A map on bearer contexts that keeps the identity and never leaves the
INACTIVE status. -/
def keeps_inactive (G : bearer_context_t → bearer_context_t) : Prop :=
  ∀ bc, (G bc).ebi = bc.ebi ∧
    (bc.esm_ebr_context.status = ESM_EBR_INACTIVE →
      (G bc).esm_ebr_context.status = ESM_EBR_INACTIVE)

/-- The identities held by the occupied slots of the UE's bearer array. -/
def ue_bearer_ebis (emm_context : emm_data_context_t) : List Nat :=
  (emm_context.ue_context.bearer_contexts.take BEARERS_PER_UE).filterMap
    (fun o => o.map (fun bc => bc.ebi))

/-- The two-bearer scenario with the array of PDN 0 zeroed, as `calloc` leaves
it, so that its position 1 is empty. -/
def ue_zeroed_pdn : emm_data_context_t :=
  { esm_ctx := ue_two_bearers.esm_ctx,
    ue_context :=
      { pdn_contexts :=
          [some { pdn_two_bearers with bearer_contexts := List.replicate 11 0 },
           none, none, none, none],
        bearer_contexts := ue_two_bearers.ue_context.bearer_contexts } }

/-- The bearer counts of the allocated PDN connections of the UE. -/
def pdn_bearer_counts (emm_context : emm_data_context_t) : List Int :=
  (emm_context.ue_context.pdn_contexts.take MAX_APN_PER_UE).filterMap
    (Option.map (fun pdn_context => pdn_context.esm_data.n_bearers))

/-- The bearer-count bounds: the UE-wide count is at most `bound`, and no PDN
connection has a negative count. -/
def ebr_counts_bounded (bound : Int) (emm_context : emm_data_context_t) : Prop :=
  emm_context.esm_ctx.n_active_ebrs ≤ bound ∧ ∀ c ∈ pdn_bearer_counts emm_context, 0 ≤ c

instance (bound : Int) (emm_context : emm_data_context_t) :
    Decidable (ebr_counts_bounded bound emm_context) := by
  unfold ebr_counts_bounded; infer_instance

/-- A UE whose PDN 0 has the bearer EBI 5 in slot 0 and the count 0: the state
after the creation and the release of EBI 5 on a fresh UE, apart from the
UE-wide count. -/
def ue_released_once : emm_data_context_t :=
  { esm_ctx := { n_active_ebrs := 1, is_emergency := false },
    ue_context :=
      { pdn_contexts :=
          [some { is_active := true, default_ebi := 5,
                  bearer_contexts := [0, -1, -1, -1, -1, -1, -1, -1, -1, -1, -1],
                  esm_data := { n_bearers := 0, is_emergency := false } },
           none, none, none, none],
        bearer_contexts :=
          [some { ebi := 5, pdn_cx_id := 0, transaction_identifier := 1, qci := 9,
                  esm_ebr_context := esm_ebr_context_init_val },
           none, none, none, none, none, none, none, none, none, none] } }

/-- The two-bearer scenario with the count of PDN 0 at 3, one more than the
bearers it records. -/
def ue_count_ahead : emm_data_context_t :=
  { esm_ctx := { n_active_ebrs := 3, is_emergency := false },
    ue_context :=
      { pdn_contexts :=
          [some { pdn_two_bearers with esm_data := { n_bearers := 3, is_emergency := false } },
           none, none, none, none],
        bearer_contexts := ue_two_bearers.ue_context.bearer_contexts } }

/-- The two-bearer scenario with a third bearer, EBI 7 in slot 2, recorded
under PDN 0 while the count of PDN 0 is still 2. -/
def ue_count_behind : emm_data_context_t :=
  { esm_ctx := { n_active_ebrs := 2, is_emergency := false },
    ue_context :=
      { pdn_contexts :=
          [some { pdn_two_bearers with
                    bearer_contexts := [0, 1, 2, -1, -1, -1, -1, -1, -1, -1, -1] },
           none, none, none, none],
        bearer_contexts :=
          [some (bearer_of 5 0 ESM_EBR_ACTIVE), some (bearer_of 6 0 ESM_EBR_ACTIVE),
           some (bearer_of 7 0 ESM_EBR_ACTIVE),
           none, none, none, none, none, none, none, none] } }

/-- The number of occupied slots among the BEARERS_PER_UE slots of the UE's
bearer array. -/
def occupied_slots (bcs : List (Option bearer_context_t)) : Int :=
  ((bcs.take BEARERS_PER_UE).map (fun o => if o.isSome then (1 : Int) else 0)).sum

/-- The count n_active_ebrs is covered by the occupied slots of the UE's bearer
array. A fresh UE satisfies it, and every creation and release keeps it: a
creation fills a free slot for the bearer it counts, and no release empties a
slot. -/
def ebr_count_within_slots (emm_context : emm_data_context_t) : Prop :=
  emm_context.esm_ctx.n_active_ebrs ≤ occupied_slots emm_context.ue_context.bearer_contexts

instance (emm_context : emm_data_context_t) : Decidable (ebr_count_within_slots emm_context) := by
  unfold ebr_count_within_slots; infer_instance

/-- A sequence of creations on PDN 0, each given by the identity and the
default flag of the bearer, with the QoS of the examples. `none` when one of
the calls does not return. -/
def create_bearers (emm_context : emm_data_context_t) :
    List (Nat × Bool) → Option emm_data_context_t
  | [] => some emm_context
  | (ebi, is_default) :: rest =>
    match esm_ebr_context_create emm_context 1 0 ebi is_default 9 0 0 0 0 none none with
    | some (_, emm_context1) => create_bearers emm_context1 rest
    | none => none

/-- The eleven creations that fill the bearer array of a UE: the default bearer
EBI 5 and the dedicated bearers EBI 6 to 15. -/
def eleven_creations : List (Nat × Bool) :=
  [(5, true), (6, false), (7, false), (8, false), (9, false), (10, false), (11, false),
   (12, false), (13, false), (14, false), (15, false)]

/-- The UE after the eleven creations on a fresh UE: every slot of the bearer
array is occupied, PDN 0 records all of them, and both counts are 11. -/
def ue_all_slots_used : emm_data_context_t :=
  { esm_ctx := { n_active_ebrs := 11, is_emergency := false },
    ue_context :=
      { pdn_contexts :=
          [some { is_active := true, default_ebi := 5,
                  bearer_contexts := [0, 1, 2, 3, 4, 5, 6, 7, 8, 9, 10],
                  esm_data := { n_bearers := 11, is_emergency := false } },
           none, none, none, none],
        bearer_contexts :=
          [some (bearer_of 5 0 ESM_EBR_INACTIVE), some (bearer_of 6 0 ESM_EBR_INACTIVE),
           some (bearer_of 7 0 ESM_EBR_INACTIVE), some (bearer_of 8 0 ESM_EBR_INACTIVE),
           some (bearer_of 9 0 ESM_EBR_INACTIVE), some (bearer_of 10 0 ESM_EBR_INACTIVE),
           some (bearer_of 11 0 ESM_EBR_INACTIVE), some (bearer_of 12 0 ESM_EBR_INACTIVE),
           some (bearer_of 13 0 ESM_EBR_INACTIVE), some (bearer_of 14 0 ESM_EBR_INACTIVE),
           some (bearer_of 15 0 ESM_EBR_INACTIVE)] } }

end Esm

namespace MmeApi

/-! ## Constants of the identity and TAI allocator -/

/-- Modelled from the spec: TAI_LIST_MAX_SIZE, the capacity of a TAI list
("capped at a fixed maximum size"). The header that defines it is not under
src; the value is the one of the upstream header. -/
def TAI_LIST_MAX_SIZE : Nat := 16

/-- Modelled from the spec: INVALID_TAC_FFFE, the reserved tracking-area code. -/
def INVALID_TAC_FFFE : Nat := 0xFFFE

/-- Modelled from the spec: INVALID_M_TMSI, the reserved all-bits M-TMSI. -/
def INVALID_M_TMSI : Nat := 0xFFFFFFFF

/-- Modelled from the spec: RETURNok of the common definitions header. -/
def RETURNok : Int := 0

/-- Modelled from the spec: RETURNerror of the common definitions header. -/
def RETURNerror : Int := -1

/-- Modelled from the spec: the TAI-list tag "non-consecutive codes" (type of
list 00 of the tracking area identity list element). -/
def TRACKING_AREA_IDENTITY_LIST_ONE_PLMN_NON_CONSECUTIVE_TACS : Nat := 0

/-- Modelled from the spec: the TAI-list tag "consecutive codes" (type of list
01 of the tracking area identity list element). -/
def TRACKING_AREA_IDENTITY_LIST_ONE_PLMN_CONSECUTIVE_TACS : Nat := 1

/-! ## Data model of the identity and TAI allocator -/

/-- The six digits of a PLMN identity (`plmn_t`). -/
structure plmn_t where
  mcc_digit1 : Nat
  mcc_digit2 : Nat
  mcc_digit3 : Nat
  mnc_digit1 : Nat
  mnc_digit2 : Nat
  mnc_digit3 : Nat
deriving DecidableEq, Repr

/-- A tracking area identity (`tai_t`). -/
structure tai_t where
  plmn : plmn_t
  tac : Nat
deriving DecidableEq, Repr

/-- A TAI list (`tai_list_t`): the tag, the count, and the array `tai` of
capacity TAI_LIST_MAX_SIZE. -/
structure tai_list_t where
  list_type : Nat
  n_tais : Nat
  tai : List tai_t
deriving DecidableEq, Repr

/-- The node identity (`gummei_t`). -/
structure gummei_t where
  plmn : plmn_t
  mme_gid : Nat
  mme_code : Nat
deriving DecidableEq, Repr

/-- The temporary identity (`guti_t`). -/
structure guti_t where
  gummei : gummei_t
  m_tmsi : Nat
deriving DecidableEq, Repr

/-- The capability snapshot `_emm_data.conf` (`mme_api_emm_config_t`), the
fields the allocator reads. -/
structure mme_api_emm_config_t where
  gummei : gummei_t
  tai_list : tai_list_t
deriving DecidableEq, Repr

/-- A UE context of the store, the fields the allocator touches. `addr` is the
address of the context object, from which the M-TMSI is cast outside test
mode. -/
structure ue_context_t where
  addr : Nat
  mme_ue_s1ap_id : Nat
  imsi : Nat
  is_guti_set : Bool
  guti : guti_t
deriving DecidableEq, Repr

/-- The globals the allocator works on: `mme_config.run_mode` (as "is
RUN_MODE_TEST"), `mme_m_tmsi_generator`, `_emm_data.conf` and the UE contexts
of `mme_app_desc.mme_ue_contexts`. -/
structure mme_state where
  run_mode_test : Bool
  mme_m_tmsi_generator : Nat
  conf : mme_api_emm_config_t
  mme_ue_contexts : List ue_context_t
deriving DecidableEq, Repr

/-! ## The UE context facade (not under src) -/

/-- Modelled from the spec: mme_ue_context_exists_imsi, "resolve a UE Context
... by permanent identity — returns the context or a NotFound signal". The
result is the position of the context in the store. -/
def mme_ue_context_exists_imsi (ues : List ue_context_t) (imsi : Nat) : Option Nat :=
  ues.findIdx? (fun u => decide (u.imsi = imsi))

/-- Modelled from the spec: mme_ue_context_exists_mme_ue_s1ap_id, "resolve a UE
Context by transient network id". -/
def mme_ue_context_exists_mme_ue_s1ap_id (ues : List ue_context_t) (id : Nat) : Option Nat :=
  ues.findIdx? (fun u => decide (u.mme_ue_s1ap_id = id))

/-- Modelled from the spec: mme_ue_context_update_coll_keys for a new temporary
identity, "persist the new temporary identity against the UE Context and
refresh the multi-key index (old temporary identity, if any, is superseded)". -/
def mme_ue_context_update_coll_keys (ue_context : ue_context_t) (guti : guti_t) : ue_context_t :=
  { ue_context with guti := guti }

/-! ## mme_api_notify_new_guti -/

/-- The function `mme_api_notify_new_guti`: the context found for the id gets
`is_guti_set = true` and is re-keyed with the GUTI. -/
def mme_api_notify_new_guti (ues : List ue_context_t) (id : Nat) (guti : guti_t) :
    Int × List ue_context_t :=
  match mme_ue_context_exists_mme_ue_s1ap_id ues id with
  | some k =>
    match ues[k]? with
    | some ue_context =>
      (RETURNok,
       ues.set k (mme_ue_context_update_coll_keys { ue_context with is_guti_set := true } guti))
    | none => (RETURNerror, ues)
  | none => (RETURNerror, ues)

/-! ## mme_api_new_guti -/

/-- The variables of the TAI loop of `mme_api_new_guti`: `j`, `tac`,
`consecutive_tacs`, and the output array `tai_list->tai`. -/
structure tai_scan_t where
  j : Nat
  tac : Nat
  consecutive_tacs : Bool
  tai : List tai_t
deriving DecidableEq, Repr

/-- The test of the TAI loop: the six PLMN digits of a served TAI against those
of the new GUTI. -/
def plmn_digits_match (a b : plmn_t) : Bool :=
  decide (a.mcc_digit1 = b.mcc_digit1) && decide (a.mcc_digit2 = b.mcc_digit2) &&
  decide (a.mcc_digit3 = b.mcc_digit3) && decide (a.mnc_digit1 = b.mnc_digit1) &&
  decide (a.mnc_digit2 = b.mnc_digit2) && decide (a.mnc_digit3 = b.mnc_digit3)

/-- One iteration of the TAI loop of `mme_api_new_guti` at index `i`. `none`
is a read of `_emm_data.conf.tai_list.tai[i]` or a write of `tai_list->tai[j]`
outside the array. -/
def new_guti_scan_step (served : List tai_t) (plmn : plmn_t) (i : Nat) (v : tai_scan_t) :
    Option tai_scan_t :=
  match arr_get TAI_LIST_MAX_SIZE served i with
  | none => none
  | some t =>
    if plmn_digits_match t.plmn plmn then
      if v.j < TAI_LIST_MAX_SIZE ∧ v.j < v.tai.length then
        let tai1 := v.tai.set v.j { plmn := plmn, tac := t.tac }
        if INVALID_TAC_FFFE = v.tac then
          some { j := v.j + 1, tac := t.tac, consecutive_tacs := v.consecutive_tacs, tai := tai1 }
        else if v.tac + 1 = t.tac then
          some { j := v.j + 1, tac := v.tac + 1, consecutive_tacs := v.consecutive_tacs,
                 tai := tai1 }
        else
          some { j := v.j + 1, tac := v.tac, consecutive_tacs := false, tai := tai1 }
      else none
    else some v

/-- The TAI loop `for (i = 0; i < n_tais; i++)` of `mme_api_new_guti`, with `k`
iterations left from index `i`. -/
def new_guti_scan (served : List tai_t) (plmn : plmn_t) : Nat → Nat → tai_scan_t →
    Option tai_scan_t
  | 0, _, v => some v
  | k + 1, i, v =>
    match new_guti_scan_step served plmn i v with
    | none => none
    | some v1 => new_guti_scan served plmn k (i + 1) v1

/-- The result of `mme_api_new_guti`: the return code, the contents of the two
output parameters, and the globals after the call. -/
structure new_guti_result where
  rc : Int
  guti : guti_t
  tai_list : tai_list_t
  state : mme_state
deriving DecidableEq, Repr

/-- The function `mme_api_new_guti`. `imsi` is the 64-bit IMSI, `guti` and
`tai_list` are the contents of the output parameters at the call. `none` is an
access outside an array in the TAI loop. -/
def mme_api_new_guti (s : mme_state) (imsi : Nat) (guti : guti_t) (tai_list : tai_list_t) :
    Option new_guti_result :=
  match mme_ue_context_exists_imsi s.mme_ue_contexts imsi with
  | some k =>
    match s.mme_ue_contexts[k]? with
    | some ue_context =>
      let m_tmsi := if s.run_mode_test then s.mme_m_tmsi_generator else ue_context.addr % 2 ^ 32
      let gen1 :=
        if s.run_mode_test then (s.mme_m_tmsi_generator + 1) % 2 ^ 32 else s.mme_m_tmsi_generator
      let guti1 : guti_t :=
        { gummei := { plmn := s.conf.gummei.plmn, mme_gid := s.conf.gummei.mme_gid,
                      mme_code := s.conf.gummei.mme_code },
          m_tmsi := m_tmsi }
      if m_tmsi = INVALID_M_TMSI then
        some { rc := RETURNerror, guti := guti1, tai_list := tai_list,
               state := { s with mme_m_tmsi_generator := gen1 } }
      else
        let ues1 := (mme_api_notify_new_guti s.mme_ue_contexts ue_context.mme_ue_s1ap_id guti1).2
        match new_guti_scan s.conf.tai_list.tai guti1.gummei.plmn s.conf.tai_list.n_tais 0
                { j := 0, tac := INVALID_TAC_FFFE, consecutive_tacs := true,
                  tai := tai_list.tai } with
        | none => none
        | some v =>
          some { rc := RETURNok, guti := guti1,
                 tai_list :=
                   { list_type :=
                       if v.consecutive_tacs then
                         TRACKING_AREA_IDENTITY_LIST_ONE_PLMN_CONSECUTIVE_TACS
                       else TRACKING_AREA_IDENTITY_LIST_ONE_PLMN_NON_CONSECUTIVE_TACS,
                     n_tais := v.j, tai := v.tai },
                 state := { s with mme_m_tmsi_generator := gen1, mme_ue_contexts := ues1 } }
    | none => some { rc := RETURNerror, guti := guti, tai_list := tai_list, state := s }
  | none => some { rc := RETURNerror, guti := guti, tai_list := tai_list, state := s }

/-! ## The selection of the specification and example snapshots -/

/-- The served TAIs the specification selects: the first `n_tais` entries of
`_emm_data.conf.tai_list` whose PLMN is the PLMN of the GUMMEI, in scan
order. -/
def selected_tais (conf : mme_api_emm_config_t) : List tai_t :=
  (conf.tai_list.tai.take conf.tai_list.n_tais).filter
    (fun t => decide (t.plmn = conf.gummei.plmn))

/-- The tracking-area codes of the selected TAIs, in scan order. -/
def selected_codes (conf : mme_api_emm_config_t) : List Nat :=
  (selected_tais conf).map (fun t => t.tac)

/-- The update of `tac` and `consecutive_tacs` that one selected code makes in
the TAI loop. -/
def tac_run_step (v : Nat × Bool) (code : Nat) : Nat × Bool :=
  if INVALID_TAC_FFFE = v.1 then (code, v.2)
  else if v.1 + 1 = code then (v.1 + 1, v.2)
  else (v.1, false)

/-- The PLMN 208.93 of the examples. -/
def plmn_a : plmn_t :=
  { mcc_digit1 := 2, mcc_digit2 := 0, mcc_digit3 := 8,
    mnc_digit1 := 9, mnc_digit2 := 3, mnc_digit3 := 15 }

/-- Another PLMN, 208.94. -/
def plmn_b : plmn_t :=
  { mcc_digit1 := 2, mcc_digit2 := 0, mcc_digit3 := 8,
    mnc_digit1 := 9, mnc_digit2 := 4, mnc_digit3 := 15 }

/-- An array of TAI_LIST_MAX_SIZE entries that starts with the given TAIs and
is zero elsewhere. -/
def tai_array (tais : List tai_t) : List tai_t :=
  (tais ++ List.replicate 16
      ({ plmn := { mcc_digit1 := 0, mcc_digit2 := 0, mcc_digit3 := 0,
                   mnc_digit1 := 0, mnc_digit2 := 0, mnc_digit3 := 0 },
         tac := 0 } : tai_t)).take 16

/-- A zeroed TAI list, as a caller hands it to `mme_api_new_guti`. -/
def tai_list_zero : tai_list_t :=
  { list_type := 0, n_tais := 0, tai := tai_array [] }

/-- A zeroed GUTI. -/
def guti_zero : guti_t :=
  { gummei := { plmn := { mcc_digit1 := 0, mcc_digit2 := 0, mcc_digit3 := 0,
                          mnc_digit1 := 0, mnc_digit2 := 0, mnc_digit3 := 0 },
                mme_gid := 0, mme_code := 0 },
    m_tmsi := 0 }

/-- A node in test mode with GUMMEI PLMN `plmn_a`, one UE context (IMSI 1), and
the given served TAIs. -/
def mme_with_served (tais : List tai_t) : mme_state :=
  { run_mode_test := true, mme_m_tmsi_generator := 1,
    conf := { gummei := { plmn := plmn_a, mme_gid := 4, mme_code := 1 },
              tai_list := { list_type := 0, n_tais := tais.length, tai := tai_array tais } },
    mme_ue_contexts :=
      [{ addr := 4096, mme_ue_s1ap_id := 7, imsi := 1, is_guti_set := false,
         guti := guti_zero }] }

/-- Served areas of `plmn_a` with codes 10 and 20 around one of `plmn_b`. -/
def served_mixed : List tai_t :=
  [{ plmn := plmn_a, tac := 10 }, { plmn := plmn_b, tac := 11 }, { plmn := plmn_a, tac := 20 }]

/-- Served areas of `plmn_a` with codes 7, 8 and 9. -/
def served_run : List tai_t :=
  [{ plmn := plmn_a, tac := 7 }, { plmn := plmn_a, tac := 8 }, { plmn := plmn_a, tac := 9 }]

/-- Served areas of `plmn_a` whose first code is the reserved code. -/
def served_reserved_first : List tai_t :=
  [{ plmn := plmn_a, tac := INVALID_TAC_FFFE }, { plmn := plmn_a, tac := 5 }]

/-- Served areas of `plmn_a` with the codes 0xFFFD, 0xFFFE and 0xFFFF: a run by
one that passes through the reserved code. -/
def served_run_through_reserved : List tai_t :=
  [{ plmn := plmn_a, tac := 0xFFFD }, { plmn := plmn_a, tac := 0xFFFE },
   { plmn := plmn_a, tac := 0xFFFF }]

/-- Served areas of `plmn_a` that hold the reserved code twice. -/
def served_reserved_twice : List tai_t :=
  [{ plmn := plmn_a, tac := 0xFFFE }, { plmn := plmn_a, tac := 0xFFFE }]

/-- The GUTI the example node issues first: its GUMMEI and M-TMSI 1. -/
def guti_issued : guti_t :=
  { gummei := { plmn := plmn_a, mme_gid := 4, mme_code := 1 }, m_tmsi := 1 }

/-- What a first successful call on `mme_with_served tais` returns when it
selects the given codes and sets the given tag. -/
def new_guti_result_of (tais : List tai_t) (list_type : Nat) (codes : List Nat) :
    new_guti_result :=
  { rc := RETURNok, guti := guti_issued,
    tai_list :=
      { list_type := list_type, n_tais := codes.length,
        tai := tai_array (codes.map (fun c => { plmn := plmn_a, tac := c })) },
    state :=
      { run_mode_test := true, mme_m_tmsi_generator := 2,
        conf := (mme_with_served tais).conf,
        mme_ue_contexts :=
          [{ addr := 4096, mme_ue_s1ap_id := 7, imsi := 1, is_guti_set := true,
             guti := guti_issued }] } }

/-! ## mme_api_add_tai -/

/-- The presence loop of `mme_api_add_tai`,
`for (i = 0; i < tai_list->n_tais; i++)` with its `break`: `k` iterations are
left from index `i`. The result is `tacExists`; `none` is a read of
`tai_list->tai[i]` outside the array. -/
def add_tai_scan (tai : List tai_t) (tac : Nat) : Nat → Nat → Option Bool
  | 0, _ => some false
  | k + 1, i =>
    match arr_get TAI_LIST_MAX_SIZE tai i with
    | none => none
    | some t => if t.tac = tac then some true else add_tai_scan tai tac k (i + 1)

/-- The result of `mme_api_add_tai`: the return code and the TAI list after the
call. -/
structure add_tai_result where
  rc : Int
  tai_list : tai_list_t
deriving DecidableEq, Repr

/-- The function `mme_api_add_tai`. The UE id only feeds the log lines and is
left out. `none` is an access outside the array `tai_list->tai`. The count is
below TAI_LIST_MAX_SIZE where it is incremented, so its `uint8_t` width plays
no part. -/
def mme_api_add_tai (new_tai : tai_t) (tai_list : tai_list_t) : Option add_tai_result :=
  match add_tai_scan tai_list.tai new_tai.tac tai_list.n_tais 0 with
  | none => none
  | some tacExists =>
    if tacExists = false then
      if tai_list.n_tais = TAI_LIST_MAX_SIZE then
        some { rc := RETURNerror, tai_list := tai_list }
      else if INVALID_TAC_FFFE = new_tai.tac then
        some { rc := RETURNerror, tai_list := tai_list }
      else if tai_list.n_tais < TAI_LIST_MAX_SIZE ∧ tai_list.n_tais < tai_list.tai.length then
        some { rc := RETURNok,
               tai_list :=
                 { list_type := tai_list.list_type,
                   n_tais := tai_list.n_tais + 1,
                   tai := tai_list.tai.set tai_list.n_tais
                            { plmn := new_tai.plmn, tac := new_tai.tac } } }
      else none
    else some { rc := RETURNok, tai_list := tai_list }

/-- The entries of a TAI list that count: the first `n_tais` entries of its
array. -/
def tai_list_entries (tai_list : tai_list_t) : List tai_t :=
  (tai_list.tai.take TAI_LIST_MAX_SIZE).take tai_list.n_tais

/-- The tracking-area codes of the entries of a TAI list, in order. -/
def tai_list_codes (tai_list : tai_list_t) : List Nat :=
  (tai_list_entries tai_list).map (fun t => t.tac)

/-- The TAI-list invariant of the specification: at most TAI_LIST_MAX_SIZE
entries, no two entries with the same code, and no entry with the reserved
code. -/
def tai_list_invariant (tai_list : tai_list_t) : Prop :=
  tai_list.n_tais ≤ TAI_LIST_MAX_SIZE ∧ (tai_list_codes tai_list).Nodup ∧
    INVALID_TAC_FFFE ∉ tai_list_codes tai_list

instance (tai_list : tai_list_t) : Decidable (tai_list_invariant tai_list) := by
  unfold tai_list_invariant; infer_instance

/-- A TAI list of the node's PLMN with the given codes. -/
def tai_list_of (list_type : Nat) (codes : List Nat) : tai_list_t :=
  { list_type := list_type, n_tais := codes.length,
    tai := tai_array (codes.map (fun c => { plmn := plmn_a, tac := c })) }

/-- A full TAI list: the codes 1 to 16. -/
def tai_list_full : tai_list_t :=
  tai_list_of 1 [1, 2, 3, 4, 5, 6, 7, 8, 9, 10, 11, 12, 13, 14, 15, 16]

/-! ## Sequences of calls of mme_api_new_guti and the keyed store -/

/-- The value `mme_api_new_guti` gives to `guti->m_tmsi` for the UE context it
found: the generator in test mode, the cast of the context's address
otherwise. -/
def new_guti_m_tmsi (s : mme_state) (ue_context : ue_context_t) : Nat :=
  if s.run_mode_test then s.mme_m_tmsi_generator else ue_context.addr % 2 ^ 32

/-- The initial value of the static `mme_m_tmsi_generator`. -/
def mme_m_tmsi_generator_init : Nat := 0x00000001

/-- A sequence of calls of `mme_api_new_guti`, each on the globals the call
before it left; a call is its IMSI and the contents of its two output
parameters. The result is the list of what the calls returned. -/
def new_guti_calls : mme_state → List (Nat × guti_t × tai_list_t) →
    Option (List new_guti_result)
  | _, [] => some []
  | s, c :: cs =>
    match mme_api_new_guti s c.1 c.2.1 c.2.2 with
    | none => none
    | some r =>
      match new_guti_calls r.state cs with
      | none => none
      | some rs => some (r :: rs)

/-- The calls of a sequence that find their UE context, each with what it
returned. -/
def new_guti_calls_found (s : mme_state) (calls : List (Nat × guti_t × tai_list_t))
    (results : List new_guti_result) : List ((Nat × guti_t × tai_list_t) × new_guti_result) :=
  (calls.zip results).filter
    (fun cr => (mme_ue_context_exists_imsi s.mme_ue_contexts cr.1.1).isSome)

/-- Modelled from the spec: the store is a keyed map ("keyed by transient
network id"), so no two of its UE contexts have the same mme_ue_s1ap_id. -/
def store_ids_unique (ues : List ue_context_t) : Prop :=
  (ues.map (fun u => u.mme_ue_s1ap_id)).Nodup

instance (ues : List ue_context_t) : Decidable (store_ids_unique ues) := by
  unfold store_ids_unique; infer_instance

/-- A node in test mode whose generator stands at the reserved value. -/
def mme_at_sentinel : mme_state :=
  { mme_with_served served_run with mme_m_tmsi_generator := INVALID_M_TMSI }

/-- What the call on `mme_at_sentinel` returns: RETURNerror, the GUTI written
so far, the TAI list untouched, the generator wrapped to 0. -/
def new_guti_sentinel_result : new_guti_result :=
  { rc := RETURNerror,
    guti := { gummei := { plmn := plmn_a, mme_gid := 4, mme_code := 1 },
              m_tmsi := INVALID_M_TMSI },
    tai_list := tai_list_zero,
    state := { mme_at_sentinel with mme_m_tmsi_generator := 0 } }

/-- What the second successful call on `mme_with_served served_run` returns. -/
def new_guti_second_result : new_guti_result :=
  { rc := RETURNok,
    guti := { gummei := { plmn := plmn_a, mme_gid := 4, mme_code := 1 }, m_tmsi := 2 },
    tai_list := tai_list_of 1 [7, 8, 9],
    state :=
      { run_mode_test := true, mme_m_tmsi_generator := 3,
        conf := (mme_with_served served_run).conf,
        mme_ue_contexts :=
          [{ addr := 4096, mme_ue_s1ap_id := 7, imsi := 1, is_guti_set := true,
             guti := { gummei := { plmn := plmn_a, mme_gid := 4, mme_code := 1 },
                       m_tmsi := 2 } }] } }

/-- Three calls on the example node: IMSI 1, the unknown IMSI 5, IMSI 1 again. -/
def calls_three : List (Nat × guti_t × tai_list_t) :=
  [(1, guti_zero, tai_list_zero), (5, guti_zero, tai_list_zero), (1, guti_zero, tai_list_zero)]

/-- What the three calls of `calls_three` return on
`mme_with_served served_run`: M-TMSI 1, RETURNerror for the unknown IMSI with
the globals untouched, M-TMSI 2. -/
def results_three : List new_guti_result :=
  [new_guti_result_of served_run 1 [7, 8, 9],
   { rc := RETURNerror, guti := guti_zero, tai_list := tai_list_zero,
     state := (new_guti_result_of served_run 1 [7, 8, 9]).state },
   new_guti_second_result]

/-! ## mme_api_check_tai_local_mme and mme_api_check_tai_ngh_existing -/

/-- Modelled from the spec: the macro TAIS_ARE_EQUAL, whose header is not under
src: the two TAIs "exactly match", in the six PLMN digits and in the
tracking-area code. -/
def TAIS_ARE_EQUAL (t1 t2 : tai_t) : Bool :=
  plmn_digits_match t1.plmn t2.plmn && decide (t1.tac = t2.tac)

/-- The loop of `mme_api_check_tai_local_mme` over the served list,
`for (int i = 0; i < n_tais; i++)` with its `return true`: `k` iterations are
left from index `i`. `none` is a read of `_emm_data.conf.tai_list.tai[i]`
outside the array. -/
def check_tai_local_scan (served : List tai_t) (t : tai_t) : Nat → Nat → Option Bool
  | 0, _ => some false
  | k + 1, i =>
    match arr_get TAI_LIST_MAX_SIZE served i with
    | none => none
    | some e => if TAIS_ARE_EQUAL e t then some true else check_tai_local_scan served t k (i + 1)

/-- The function `mme_api_check_tai_local_mme` on the snapshot
`_emm_data.conf`. The argument is the pointer `originating_tai`, `none` for
NULL; the six digits are compared in the order of the source. -/
def mme_api_check_tai_local_mme (conf : mme_api_emm_config_t) (originating_tai : Option tai_t) :
    Option Bool :=
  match originating_tai with
  | none => some false
  | some t =>
    if decide (t.plmn.mcc_digit2 = conf.gummei.plmn.mcc_digit2) &&
       decide (t.plmn.mcc_digit1 = conf.gummei.plmn.mcc_digit1) &&
       decide (t.plmn.mnc_digit3 = conf.gummei.plmn.mnc_digit3) &&
       decide (t.plmn.mcc_digit3 = conf.gummei.plmn.mcc_digit3) &&
       decide (t.plmn.mnc_digit2 = conf.gummei.plmn.mnc_digit2) &&
       decide (t.plmn.mnc_digit1 = conf.gummei.plmn.mnc_digit1) then
      check_tai_local_scan conf.tai_list.tai t conf.tai_list.n_tais 0
    else some false

/-- An entry of the neighbour table `_emm_data.conf.nghMme` (`nghMme_t`): the
tracking area of the neighbouring MME and its address. -/
structure nghMme_t where
  ngh_mme_tai : tai_t
  ipAddr : Nat
deriving DecidableEq, Repr

/-- The loop of `mme_api_check_tai_ngh_existing`,
`for (int i = 0; i < MAX_NGH_MMES; i++)` with its `return true`, over the
entries of the table that are still ahead. -/
def check_tai_ngh_scan : List nghMme_t → tai_t → Bool
  | [], _ => false
  | e :: rest, t => if TAIS_ARE_EQUAL e.ngh_mme_tai t then true else check_tai_ngh_scan rest t

/-- The function `mme_api_check_tai_ngh_existing`. `nghMme` is the table
`_emm_data.conf.nghMme[MAX_NGH_MMES]`: the header that fixes MAX_NGH_MMES is
not under src, and the length of the list stands for it. The second argument is
the pointer `originating_tai`, `none` for NULL. -/
def mme_api_check_tai_ngh_existing (nghMme : List nghMme_t) (originating_tai : Option tai_t) :
    Bool :=
  match originating_tai with
  | none => false
  | some t => check_tai_ngh_scan nghMme t

/-- Served areas of the first scenario of the specification: codes 10, 11 and
20 of the node's PLMN. -/
def served_scenario_gap : List tai_t :=
  [{ plmn := plmn_a, tac := 10 }, { plmn := plmn_a, tac := 11 }, { plmn := plmn_a, tac := 20 }]

/-- Served areas of the second scenario of the specification: codes 5, 6 and 7
of the node's PLMN. -/
def served_scenario_run : List tai_t :=
  [{ plmn := plmn_a, tac := 5 }, { plmn := plmn_a, tac := 6 }, { plmn := plmn_a, tac := 7 }]

/-- Served areas of the node's PLMN that hold the code 10 twice. -/
def served_duplicate : List tai_t :=
  [{ plmn := plmn_a, tac := 10 }, { plmn := plmn_a, tac := 10 }]

/-- A TAI whose fields are all zero: an empty value. -/
def tai_zeroed : tai_t :=
  { plmn := { mcc_digit1 := 0, mcc_digit2 := 0, mcc_digit3 := 0,
              mnc_digit1 := 0, mnc_digit2 := 0, mnc_digit3 := 0 },
    tac := 0 }

/-- A neighbour table of four entries: two configured neighbours, the other
entries zeroed. -/
def ngh_table : List nghMme_t :=
  [{ ngh_mme_tai := { plmn := plmn_b, tac := 30 }, ipAddr := 167772161 },
   { ngh_mme_tai := { plmn := plmn_b, tac := 31 }, ipAddr := 167772162 },
   { ngh_mme_tai := tai_zeroed, ipAddr := 0 },
   { ngh_mme_tai := tai_zeroed, ipAddr := 0 }]

end MmeApi

/-! # Properties -/

namespace Esm

theorem int_inc_eq {x : Int} (h : x ≠ INT_MAX) : int_inc x = x + 1 := by
  unfold int_inc
  rw [if_neg h]

theorem int_dec_eq {x : Int} (h : x ≠ INT_MIN) : int_dec x = x - 1 := by
  unfold int_dec
  rw [if_neg h]

theorem int_dec_pos {x : Int} (h : 0 < x) : int_dec x = x - 1 :=
  int_dec_eq (by unfold INT_MIN; omega)

theorem int_inc_below_max {x : Int} (h : ¬ x > (BEARERS_PER_UE : Int)) : int_inc x = x + 1 :=
  int_inc_eq (by unfold INT_MAX; unfold BEARERS_PER_UE at h; omega)

theorem arr_get_eq_some {α : Type} {cap : Nat} {a : List α} {i : Nat} {x : α}
    (h : arr_get cap a i = some x) : i < cap ∧ a[i]? = some x := by
  unfold arr_get at h
  by_cases hi : i < cap
  · simp only [hi, if_true] at h; exact ⟨hi, h⟩
  · simp [hi] at h

theorem arr_get_set_self {α : Type} {cap : Nat} {a : List α} {i : Nat} {x y : α}
    (h : arr_get cap a i = some x) : arr_get cap (a.set i y) i = some y := by
  obtain ⟨hi, hx⟩ := arr_get_eq_some h
  have hl : i < a.length := (List.getElem?_eq_some.mp hx).1
  simp [arr_get, hi, hl]

theorem arr_get_set_ne {α : Type} {cap : Nat} {a : List α} {i j : Nat} {y : α}
    (h : i ≠ j) : arr_get cap (a.set i y) j = arr_get cap a j := by
  simp [arr_get, List.getElem?_set_ne h]

theorem register_eq_some {ue ue1 : ue_context_t} {ebi pid : Nat}
    (h : mme_app_register_bearer_context ue ebi pid = some ue1) :
    ∃ idx p, mme_app_free_bearer_slot ue.bearer_contexts = some idx ∧
      arr_get MAX_APN_PER_UE ue.pdn_contexts pid = some (some p) ∧
      ue1 = { pdn_contexts := ue.pdn_contexts.set pid
                (some { p with bearer_contexts := p.bearer_contexts.set idx (idx : Int) }),
              bearer_contexts := ue.bearer_contexts.set idx
                (some { ebi := ebi, pdn_cx_id := pid, transaction_identifier := 0, qci := 0,
                        esm_ebr_context := esm_ebr_context_init_val }) } := by
  unfold mme_app_register_bearer_context at h
  split at h
  · rename_i idx p h1 h2
    exact ⟨idx, p, h1, h2, by simpa using h.symm⟩
  · simp at h

theorem get_bearer_eq_some {ue : ue_context_t} {p : pdn_context_t} {ebi bidx : Nat}
    (h : mme_app_get_bearer_context ue p ebi = some bidx) :
    ∃ bc, arr_get BEARERS_PER_UE ue.bearer_contexts bidx = some (some bc) ∧ bc.ebi = ebi := by
  unfold mme_app_get_bearer_context at h
  have h1 := List.find?_some h
  simp only [Bool.and_eq_true, decide_eq_true_eq] at h1
  obtain ⟨_, h2⟩ := h1
  split at h2
  · rename_i bc hbc
    exact ⟨bc, hbc, by simpa using h2⟩
  · simp at h2

/-- Registration leaves the counters and flags of the PDN connection, and every
other PDN connection, as they were. -/
theorem register_frame {ue ue1 : ue_context_t} {ebi pid : Nat} {p p1 : pdn_context_t}
    (hpdn : arr_get MAX_APN_PER_UE ue.pdn_contexts pid = some (some p))
    (hreg : mme_app_register_bearer_context ue ebi pid = some ue1)
    (hp1 : arr_get MAX_APN_PER_UE ue1.pdn_contexts pid = some (some p1)) :
    p1.esm_data = p.esm_data ∧ p1.is_active = p.is_active ∧ p1.default_ebi = p.default_ebi ∧
    ∀ q, q ≠ pid → ue1.pdn_contexts[q]? = ue.pdn_contexts[q]? := by
  obtain ⟨idx, p', _, hp', rfl⟩ := register_eq_some hreg
  rw [hpdn] at hp'
  cases hp'
  rw [arr_get_set_self hpdn] at hp1
  cases hp1
  refine ⟨rfl, rfl, rfl, ?_⟩
  intro q hq
  simp [List.getElem?_set_ne (Ne.symm hq)]


/-- The state `esm_ebr_context_create` leaves on its success branch. -/
theorem create_success_eq (st : emm_data_context_t) (pti pid ebi : Nat) (is_default : Bool)
    (qci gbr_dl gbr_ul mbr_dl mbr_ul : Nat) (tft pco : Option Nat)
    (p p1 : pdn_context_t) (ue1 : ue_context_t) (bidx : Nat)
    (hpdn : arr_get MAX_APN_PER_UE st.ue_context.pdn_contexts pid = some (some p))
    (hcnt : ¬ st.esm_ctx.n_active_ebrs > (BEARERS_PER_UE : Int))
    (hreg : mme_app_register_bearer_context st.ue_context ebi pid = some ue1)
    (hp1 : arr_get MAX_APN_PER_UE ue1.pdn_contexts pid = some (some p1))
    (hget : mme_app_get_bearer_context ue1 p1 ebi = some bidx) :
    ∃ bc : bearer_context_t,
      arr_get BEARERS_PER_UE ue1.bearer_contexts bidx = some (some bc) ∧
      esm_ebr_context_create st pti pid ebi is_default qci gbr_dl gbr_ul mbr_dl mbr_ul tft pco =
        some ((if is_default then ebi else p1.default_ebi),
              { esm_ctx :=
                  { n_active_ebrs := st.esm_ctx.n_active_ebrs + 1,
                    is_emergency :=
                      if is_default && p1.esm_data.is_emergency then true
                      else st.esm_ctx.is_emergency },
                ue_context :=
                  { pdn_contexts := ue1.pdn_contexts.set pid
                      (some { is_active := if is_default then true else p1.is_active,
                              default_ebi := if is_default then ebi else p1.default_ebi,
                              bearer_contexts := p1.bearer_contexts,
                              esm_data := { n_bearers := int_inc p1.esm_data.n_bearers,
                                            is_emergency := p1.esm_data.is_emergency } }),
                    bearer_contexts := ue1.bearer_contexts.set bidx
                      (some { ebi := bc.ebi, pdn_cx_id := bc.pdn_cx_id,
                              transaction_identifier := pti, qci := qci,
                              esm_ebr_context :=
                                { status := bc.esm_ebr_context.status,
                                  gbr_dl := gbr_dl, gbr_ul := gbr_ul,
                                  mbr_dl := mbr_dl, mbr_ul := mbr_ul,
                                  tft := tft, pco := pco,
                                  timer := bc.esm_ebr_context.timer } }) } }) := by
  obtain ⟨bc, hbc, _⟩ := get_bearer_eq_some hget
  have hpid := (arr_get_eq_some hpdn).1
  refine ⟨bc, hbc, ?_⟩
  unfold esm_ebr_context_create
  simp only [hpid, if_true, hpdn, hcnt, if_false, hreg, hp1, hget, hbc,
    int_inc_below_max hcnt]
  cases is_default <;> simp

theorem arr_get_map {α β : Type} (cap : Nat) (f : α → β) (a : List α) (i : Nat) :
    arr_get cap (a.map f) i = (arr_get cap a i).map f := by
  unfold arr_get
  by_cases hi : i < cap <;> simp [hi]

theorem arr_get_int_map {α β : Type} (cap : Nat) (f : α → β) (a : List α) (i : Int) :
    arr_get_int cap (a.map f) i = (arr_get_int cap a i).map f := by
  unfold arr_get_int
  by_cases hi : 0 ≤ i <;> simp [hi, arr_get_map]

theorem release_set_status_eq (bcs : List (Option bearer_context_t)) (ebi : Nat) :
    esm_ebr_release (esm_ebr_set_status bcs ebi ESM_EBR_INACTIVE) ebi =
      bcs.map (Option.map (cascade_touch ebi)) := by
  unfold esm_ebr_release esm_ebr_set_status
  rw [List.map_map]
  apply List.map_congr_left
  intro o _
  cases o with
  | none => rfl
  | some bc =>
    simp only [Function.comp, Option.map_some', cascade_touch]
    by_cases h : bc.ebi = ebi <;> simp [h]

theorem cascade_touch_keeps (ebi : Nat) : keeps_inactive (cascade_touch ebi) := by
  intro bc
  unfold cascade_touch
  by_cases h : bc.ebi = ebi <;> simp [h]

theorem release_cascade_map (slots : List Int) :
    ∀ (bcs : List (Option bearer_context_t)) (n : Int) (bcs1 : List (Option bearer_context_t))
      (n1 : Int), release_cascade slots bcs n = some (bcs1, n1) →
      ∃ G, keeps_inactive G ∧ bcs1 = bcs.map (Option.map G) := by
  induction slots with
  | nil =>
    intro bcs n bcs1 n1 h
    unfold release_cascade at h
    by_cases hn : n > 0
    · simp [hn] at h
    · simp only [hn, if_false, Option.some.injEq, Prod.mk.injEq] at h
      refine ⟨id, fun bc => ⟨rfl, fun hs => hs⟩, ?_⟩
      rw [← h.1]; simp
  | cons idx rest ih =>
    intro bcs n bcs1 n1 h
    unfold release_cascade at h
    by_cases hn : n > 0
    · simp only [hn, if_true] at h
      by_cases hv : 0 ≤ idx ∧ idx < (BEARERS_PER_UE : Int)
      · simp only [hv, and_self, if_true] at h
        split at h
        · rename_i bc hbc
          rw [release_set_status_eq] at h
          obtain ⟨G, hG, hE⟩ := ih _ _ _ _ h
          refine ⟨G ∘ cascade_touch bc.ebi, ?_, ?_⟩
          · intro b
            have h1 := cascade_touch_keeps bc.ebi b
            have h2 := hG (cascade_touch bc.ebi b)
            exact ⟨by rw [Function.comp, h2.1, h1.1], fun hs => h2.2 (h1.2 hs)⟩
          · rw [hE, List.map_map]
            apply List.map_congr_left
            intro o _
            cases o <;> rfl
        · simp at h
      · simp only [hv, if_false] at h
        exact ih _ _ _ _ h
    · simp only [hn, if_false, Option.some.injEq, Prod.mk.injEq] at h
      refine ⟨id, fun bc => ⟨rfl, fun hs => hs⟩, ?_⟩
      rw [← h.1]; simp


theorem release_cascade_total (slots : List Int) :
    ∀ (bcs : List (Option bearer_context_t)) (n : Int),
      (∀ idx ∈ slots, slot_in_range idx →
        ∃ bc, arr_get_int BEARERS_PER_UE bcs idx = some (some bc)) →
      n = ((slots.filter (fun idx => decide (slot_in_range idx))).length : Int) →
      ∃ bcs1, release_cascade slots bcs n = some (bcs1, 0) ∧
        ∀ idx ∈ slots, slot_in_range idx →
          ∃ bc, arr_get_int BEARERS_PER_UE bcs1 idx = some (some bc) ∧
            bc.esm_ebr_context.status = ESM_EBR_INACTIVE := by
  induction slots with
  | nil =>
    intro bcs n _ hn
    simp at hn
    subst hn
    exact ⟨bcs, by simp [release_cascade], by simp⟩
  | cons idx rest ih =>
    intro bcs n hocc hn
    by_cases hv : slot_in_range idx
    · obtain ⟨bc, hbc⟩ := hocc idx (List.mem_cons_self _ _) hv
      have hpos : n > 0 := by
        rw [hn, List.filter_cons_of_pos (by simpa using hv)]
        simp only [List.length_cons, Nat.cast_add, Nat.cast_one]
        omega
      have hocc1 : ∀ i ∈ rest, slot_in_range i →
          ∃ b, arr_get_int BEARERS_PER_UE
            (bcs.map (Option.map (cascade_touch bc.ebi))) i = some (some b) := by
        intro i hi hvi
        obtain ⟨b, hb⟩ := hocc i (List.mem_cons_of_mem _ hi) hvi
        exact ⟨cascade_touch bc.ebi b, by rw [arr_get_int_map, hb]; rfl⟩
      have hn1 : n - 1 = ((rest.filter (fun i => decide (slot_in_range i))).length : Int) := by
        rw [hn, List.filter_cons_of_pos (by simpa using hv)]
        simp
      obtain ⟨bcs1, hE, hI⟩ := ih _ _ hocc1 hn1
      refine ⟨bcs1, ?_, ?_⟩
      · unfold release_cascade
        have hv' : 0 ≤ idx ∧ idx < (BEARERS_PER_UE : Int) := hv
        simp only [hpos, if_true, hv', and_self, hbc, release_set_status_eq, int_dec_pos hpos]
        exact hE
      · intro i hi hvi
        rcases List.mem_cons.mp hi with rfl | hi'
        · obtain ⟨G, hG, hM⟩ := release_cascade_map _ _ _ _ _ hE
          refine ⟨G (cascade_touch bc.ebi bc), ?_, ?_⟩
          · rw [hM, arr_get_int_map, arr_get_int_map, hbc]; rfl
          · apply (hG _).2
            simp [cascade_touch]
        · exact hI i hi' hvi
    · have hn1 : n = ((rest.filter (fun i => decide (slot_in_range i))).length : Int) := by
        rw [hn, List.filter_cons_of_neg (by simpa using hv)]
      have hocc1 : ∀ i ∈ rest, slot_in_range i →
          ∃ b, arr_get_int BEARERS_PER_UE bcs i = some (some b) :=
        fun i hi hvi => hocc i (List.mem_cons_of_mem _ hi) hvi
      obtain ⟨bcs1, hE, hI⟩ := ih _ _ hocc1 hn1
      have hv' : ¬ (0 ≤ idx ∧ idx < (BEARERS_PER_UE : Int)) := hv
      by_cases hpos : n > 0
      · refine ⟨bcs1, ?_, ?_⟩
        · unfold release_cascade
          simp only [hpos, if_true, hv', if_false]
          exact hE
        · intro i hi hvi
          rcases List.mem_cons.mp hi with rfl | hi'
          · exact absurd hvi hv
          · exact hI i hi' hvi
      · have h0 : n = 0 := by
          have : (0 : Int) ≤ n := by rw [hn1]; exact Int.natCast_nonneg _
          omega
        subst h0
        refine ⟨bcs, ?_, ?_⟩
        · unfold release_cascade
          simp
        · intro i hi hvi
          rcases List.mem_cons.mp hi with rfl | hi'
          · exact absurd hvi hv
          · exfalso
            have hlen : (rest.filter (fun i => decide (slot_in_range i))).length = 0 := by
              exact_mod_cast hn1.symm
            have hmem : i ∈ rest.filter (fun i => decide (slot_in_range i)) :=
              List.mem_filter.mpr ⟨hi', by simpa using hvi⟩
            rw [List.length_eq_zero] at hlen
            rw [hlen] at hmem
            simp at hmem


theorem release_scan_first (bcs : List (Option bearer_context_t)) (ebi : Nat)
    (b0 : bearer_context_t)
    (h0 : arr_get BEARERS_PER_UE bcs 0 = some (some b0)) (h0e : b0.ebi = ebi) :
    release_scan bcs ebi BEARERS_PER_UE 0 = some 0 := by
  show release_scan bcs ebi (10 + 1) 0 = some 0
  unfold release_scan
  simp [h0, h0e]

/-- C1 (as amended). A release by identity whose target sits in slot 0 of the
UE's bearer array, under a PDN connection that records slot 0 and whose bearer
count is one more than the number of other slots it records (each of them
occupied), returns the targeted identity, leaves each of those other bearers
with status ESM_EBR_INACTIVE and the PDN's n_bearers at 0. -/
theorem release_default_cascades (st : emm_data_context_t) (ebi pid : Nat) (bid : Int)
    (b0 : bearer_context_t) (p : pdn_context_t)
    (hebi : ebi ≠ ESM_EBI_UNASSIGNED)
    (h0 : arr_get BEARERS_PER_UE st.ue_context.bearer_contexts 0 = some (some b0))
    (h0e : b0.ebi = ebi)
    (hp : arr_get MAX_APN_PER_UE st.ue_context.pdn_contexts b0.pdn_cx_id = some (some p))
    (hp0 : arr_get_int BEARERS_PER_UE p.bearer_contexts 0 = some 0)
    (hocc : ∀ idx ∈ pdn_other_slots p,
      ∃ bc, arr_get_int BEARERS_PER_UE st.ue_context.bearer_contexts idx = some (some bc))
    (hn : p.esm_data.n_bearers = 1 + ((pdn_other_slots p).length : Int)) :
    ∃ r, esm_ebr_context_release st ebi pid bid = some r ∧ r.ebi = ebi ∧
      r.pid = b0.pdn_cx_id ∧ r.bid = 0 ∧
      (∃ p1, arr_get MAX_APN_PER_UE r.emm_context.ue_context.pdn_contexts b0.pdn_cx_id
                = some (some p1) ∧ p1.esm_data.n_bearers = 0) ∧
      ∀ idx ∈ pdn_other_slots p,
        ∃ bc, arr_get_int BEARERS_PER_UE r.emm_context.ue_context.bearer_contexts idx
                = some (some bc) ∧
          bc.esm_ebr_context.status = ESM_EBR_INACTIVE := by
  have hocc1 : ∀ idx ∈ (p.bearer_contexts.take BEARERS_PER_UE).drop 1, slot_in_range idx →
      ∃ bc, arr_get_int BEARERS_PER_UE st.ue_context.bearer_contexts idx = some (some bc) := by
    intro idx hi hv
    exact hocc idx (List.mem_filter.mpr ⟨hi, by simpa using hv⟩)
  have hn1 : p.esm_data.n_bearers - 1 =
      ((((p.bearer_contexts.take BEARERS_PER_UE).drop 1).filter
          (fun idx => decide (slot_in_range idx))).length : Int) := by
    rw [hn]; unfold pdn_other_slots; omega
  obtain ⟨bcs1, hE, hI⟩ := release_cascade_total _ _ _ hocc1 hn1
  have hdec : int_dec p.esm_data.n_bearers = p.esm_data.n_bearers - 1 :=
    int_dec_pos (by rw [hn]; omega)
  have heq : esm_ebr_context_release st ebi pid bid =
      some { ebi := ebi, pid := b0.pdn_cx_id, bid := 0,
             emm_context :=
               { st with
                   ue_context :=
                     { pdn_contexts := st.ue_context.pdn_contexts.set b0.pdn_cx_id
                         (some { p with esm_data := { n_bearers := 0, is_emergency := false } }),
                       bearer_contexts := bcs1 } } } := by
    unfold esm_ebr_context_release
    simp only [hebi, ne_eq, not_false_eq_true, if_true,
      release_scan_first _ _ _ h0 h0e, h0]
    unfold release_found
    simp only [hp, Nat.cast_zero, hp0, ne_eq, not_true_eq_false, if_false, if_true, hdec, hE]
  refine ⟨_, heq, rfl, rfl, rfl, ⟨_, arr_get_set_self hp, rfl⟩, ?_⟩
  intro idx hi
  have hm := List.mem_filter.mp hi
  exact hI idx hm.1 (by simpa using hm.2)

/-- C1 (instance). The scenario of the specification, EBI 5 in slot 0 and EBI 6
in slot 1 of PDN 0: the release of EBI 5 returns 5, leaves bearer 6 INACTIVE
and the PDN count at 0. -/
theorem release_default_cascades_witness :
    ∃ r, esm_ebr_context_release ue_two_bearers 5 0 0 = some r ∧ r.ebi = 5 ∧
      r.pid = (bearer_of 5 0 ESM_EBR_ACTIVE).pdn_cx_id ∧ r.bid = 0 ∧
      (∃ p1, arr_get MAX_APN_PER_UE r.emm_context.ue_context.pdn_contexts
                (bearer_of 5 0 ESM_EBR_ACTIVE).pdn_cx_id = some (some p1) ∧
              p1.esm_data.n_bearers = 0) ∧
      ∀ idx ∈ pdn_other_slots pdn_two_bearers,
        ∃ bc, arr_get_int BEARERS_PER_UE r.emm_context.ue_context.bearer_contexts idx
                = some (some bc) ∧
          bc.esm_ebr_context.status = ESM_EBR_INACTIVE :=
  release_default_cascades ue_two_bearers 5 0 0 (bearer_of 5 0 ESM_EBR_ACTIVE) pdn_two_bearers
    (by decide) (by decide) rfl (by decide) (by decide)
    (by
      intro idx hi
      have h1 : pdn_other_slots pdn_two_bearers = [1] := by decide
      rw [h1] at hi
      have h2 : idx = 1 := by simpa using hi
      subst h2
      exact ⟨bearer_of 6 0 ESM_EBR_ACTIVE, by decide⟩)
    (by decide)

/-- C1 (counterexample). In the scenario of the specification the release of
the default bearer EBI 5 returns 5 and empties the PDN, yet the default bearer
itself keeps its status ESM_EBR_ACTIVE; and the release of the default bearer
EBI 6 of a second PDN connection, which sits in slot 1, tears down nothing
else: the PDN keeps one bearer and its dedicated bearer EBI 7 stays active. -/
theorem release_default_not_all_inactive :
    (esm_ebr_context_release ue_two_bearers 5 0 0).map
        (fun r => (r.ebi, pdn_counts r.emm_context, bearer_statuses r.emm_context)) =
      some (5, [some 0, none, none, none, none],
            [some (5, ESM_EBR_ACTIVE), some (6, ESM_EBR_INACTIVE),
             none, none, none, none, none, none, none, none, none]) ∧
    (esm_ebr_context_release ue_two_pdns 6 0 0).map
        (fun r => (r.ebi, pdn_counts r.emm_context, bearer_statuses r.emm_context)) =
      some (6, [some 1, some 1, none, none, none],
            [some (5, ESM_EBR_ACTIVE), some (6, ESM_EBR_ACTIVE), some (7, ESM_EBR_ACTIVE),
             none, none, none, none, none, none, none, none]) := by
  constructor <;> decide

/-- C4 (evaluation at the failing input). On a fresh UE the creation of the
default bearer EBI 5 returns 5 and the release of EBI 5 that follows returns 5,
but the count n_active_ebrs, 0 before the creation, is 1 after the release. -/
theorem create_then_release_leaves_count :
    ue_fresh.esm_ctx.n_active_ebrs = 0 ∧
    (esm_ebr_context_create ue_fresh 1 0 5 true 9 0 0 0 0 none none).bind
        (fun c => (esm_ebr_context_release c.2 5 0 0).map
          (fun r => (c.1, r.ebi, r.emm_context.esm_ctx.n_active_ebrs))) =
      some (5, 5, 1) := by
  constructor <;> decide

/-- C5 (evaluation at the failing input). In the two-bearer scenario the count
n_active_ebrs equals the sum of the PDN counts before the release of the
dedicated bearer EBI 6 and differs from it afterwards: the release lowers
n_bearers and leaves n_active_ebrs. -/
theorem release_breaks_count_consistency :
    ebr_count_consistent ue_two_bearers ∧
    (esm_ebr_context_release ue_two_bearers 6 0 0).map
        (fun r => (r.ebi, r.emm_context.esm_ctx.n_active_ebrs, pdn_counts r.emm_context,
                   decide (ebr_count_consistent r.emm_context))) =
      some (6, 2, [some 1, none, none, none, none], false) := by
  constructor <;> decide

/-- C6. When `esm_ebr_context_create` succeeds (the PDN connection exists, the
count guard passes, registration succeeds and the registered slot is found) on
a PDN connection whose n_bearers is below INT_MAX, so that the `int` increment
does not wrap, n_active_ebrs and the PDN's n_bearers are each one greater than
before, and every other PDN connection is as it was. -/
theorem create_increments_both_counters (st : emm_data_context_t) (pti pid ebi : Nat)
    (is_default : Bool) (qci gbr_dl gbr_ul mbr_dl mbr_ul : Nat) (tft pco : Option Nat)
    (p p1 : pdn_context_t) (ue1 : ue_context_t) (bidx : Nat)
    (hpdn : arr_get MAX_APN_PER_UE st.ue_context.pdn_contexts pid = some (some p))
    (hcnt : ¬ st.esm_ctx.n_active_ebrs > (BEARERS_PER_UE : Int))
    (hreg : mme_app_register_bearer_context st.ue_context ebi pid = some ue1)
    (hp1 : arr_get MAX_APN_PER_UE ue1.pdn_contexts pid = some (some p1))
    (hget : mme_app_get_bearer_context ue1 p1 ebi = some bidx)
    (hrange : p.esm_data.n_bearers < INT_MAX) :
    ∃ r st1,
      esm_ebr_context_create st pti pid ebi is_default qci gbr_dl gbr_ul mbr_dl mbr_ul tft pco
        = some (r, st1) ∧
      st1.esm_ctx.n_active_ebrs = st.esm_ctx.n_active_ebrs + 1 ∧
      (∃ p2, arr_get MAX_APN_PER_UE st1.ue_context.pdn_contexts pid = some (some p2) ∧
        p2.esm_data.n_bearers = p.esm_data.n_bearers + 1) ∧
      ∀ q, q ≠ pid → st1.ue_context.pdn_contexts[q]? = st.ue_context.pdn_contexts[q]? := by
  obtain ⟨bc, _, heq⟩ := create_success_eq st pti pid ebi is_default qci gbr_dl gbr_ul mbr_dl
    mbr_ul tft pco p p1 ue1 bidx hpdn hcnt hreg hp1 hget
  obtain ⟨hd, _, _, hfr⟩ := register_frame hpdn hreg hp1
  refine ⟨_, _, heq, rfl, ⟨_, arr_get_set_self hp1, ?_⟩, ?_⟩
  · simp only [hd]
    exact int_inc_eq (ne_of_lt hrange)
  · intro q hq
    simp only [List.getElem?_set_ne (Ne.symm hq)]
    exact hfr q hq

/-- C6 (instance). The creation of the default bearer EBI 5 on a fresh UE. -/
theorem create_increments_both_counters_witness :
    ∃ r st1,
      esm_ebr_context_create ue_fresh 1 0 5 true 9 0 0 0 0 none none = some (r, st1) ∧
      st1.esm_ctx.n_active_ebrs = ue_fresh.esm_ctx.n_active_ebrs + 1 ∧
      (∃ p2, arr_get MAX_APN_PER_UE st1.ue_context.pdn_contexts 0 = some (some p2) ∧
        p2.esm_data.n_bearers = pdn_fresh.esm_data.n_bearers + 1) ∧
      ∀ q, q ≠ 0 → st1.ue_context.pdn_contexts[q]? = ue_fresh.ue_context.pdn_contexts[q]? :=
  create_increments_both_counters ue_fresh 1 0 5 true 9 0 0 0 0 none none
    pdn_fresh pdn_fresh_registered ue_fresh_registered 0
    (by decide) (by decide) (by decide) (by decide) (by decide) (by decide)

/-- The occupied slots of a list: there are at most as many as positions, and
as many only when every position is occupied. -/
theorem sum_flags_le {α : Type} (l : List (Option α)) :
    (l.map (fun o => if o.isSome then (1 : Int) else 0)).sum ≤ (l.length : Int) ∧
    ((l.map (fun o => if o.isSome then (1 : Int) else 0)).sum = (l.length : Int) →
      ∀ o ∈ l, o.isSome = true) := by
  induction l with
  | nil => simp
  | cons a l ih =>
    obtain ⟨ih1, ih2⟩ := ih
    simp only [List.map_cons, List.sum_cons, List.length_cons, Nat.cast_add, Nat.cast_one]
    cases a with
    | none =>
      simp only [Option.isSome_none, Bool.false_eq_true, if_false]
      constructor
      · omega
      · intro h; omega
    | some x =>
      simp only [Option.isSome_some, if_true]
      constructor
      · omega
      · intro h o ho
        rcases List.mem_cons.mp ho with rfl | ho1
        · rfl
        · exact ih2 (by omega) o ho1

/-- The array has at most BEARERS_PER_UE occupied slots. -/
theorem occupied_slots_le (bcs : List (Option bearer_context_t)) :
    occupied_slots bcs ≤ (BEARERS_PER_UE : Int) := by
  unfold occupied_slots
  have h1 := (sum_flags_le (bcs.take BEARERS_PER_UE)).1
  have h2 : (bcs.take BEARERS_PER_UE).length ≤ BEARERS_PER_UE := by
    rw [List.length_take]; exact Nat.min_le_left _ _
  omega

/-- With BEARERS_PER_UE occupied slots every slot of the array holds a
bearer. -/
theorem occupied_slots_full (bcs : List (Option bearer_context_t))
    (h : (BEARERS_PER_UE : Int) ≤ occupied_slots bcs) :
    ∀ i, i < BEARERS_PER_UE → ∃ bc, arr_get BEARERS_PER_UE bcs i = some (some bc) := by
  unfold occupied_slots at h
  obtain ⟨h1, h2⟩ := sum_flags_le (bcs.take BEARERS_PER_UE)
  have h3 : (bcs.take BEARERS_PER_UE).length ≤ BEARERS_PER_UE := by
    rw [List.length_take]; exact Nat.min_le_left _ _
  have hlen : (bcs.take BEARERS_PER_UE).length = BEARERS_PER_UE := by omega
  have hall := h2 (by omega)
  intro i hi
  have hil : i < (bcs.take BEARERS_PER_UE).length := by omega
  have hmem : (bcs.take BEARERS_PER_UE)[i] ∈ bcs.take BEARERS_PER_UE := List.getElem_mem hil
  have hsome := hall _ hmem
  obtain ⟨bc, hbc⟩ := Option.isSome_iff_exists.mp hsome
  refine ⟨bc, ?_⟩
  unfold arr_get
  rw [if_pos hi]
  have hget : (bcs.take BEARERS_PER_UE)[i]? = some (some bc) := by
    rw [List.getElem?_eq_getElem hil, hbc]
  rw [List.getElem?_take, if_pos hi] at hget
  exact hget

/-- The free-slot search fails when every slot of the array holds a bearer. -/
theorem free_bearer_slot_none (bcs : List (Option bearer_context_t))
    (h : ∀ i, i < BEARERS_PER_UE → ∃ bc, arr_get BEARERS_PER_UE bcs i = some (some bc)) :
    mme_app_free_bearer_slot bcs = none := by
  unfold mme_app_free_bearer_slot
  rw [List.find?_eq_none]
  intro i hi
  have hlt : i < BEARERS_PER_UE := List.mem_range.mp hi
  obtain ⟨bc, hbc⟩ := h i hlt
  simp [hbc]

/-- A fresh UE has its count covered by occupied slots. -/
theorem fresh_count_within_slots : ebr_count_within_slots ue_fresh := by decide

/-- C7. For every UE state whose count n_active_ebrs has reached
BEARERS_PER_UE, and every PDN id that names an allocated PDN connection,
`esm_ebr_context_create` returns ESM_EBI_UNASSIGNED and leaves the whole state,
both counters included, as it was. Above the maximum the count guard refuses
the call; at the maximum the guard passes, and the call is refused because no
slot of the bearer array is free, the count being covered by occupied slots in
every state that creations and releases produce. -/
theorem create_at_max_unassigned (st : emm_data_context_t) (pti pid ebi : Nat)
    (is_default : Bool) (qci gbr_dl gbr_ul mbr_dl mbr_ul : Nat) (tft pco : Option Nat)
    (p : pdn_context_t)
    (hpdn : arr_get MAX_APN_PER_UE st.ue_context.pdn_contexts pid = some (some p))
    (hmax : (BEARERS_PER_UE : Int) ≤ st.esm_ctx.n_active_ebrs)
    (hinv : st.esm_ctx.n_active_ebrs ≤ (BEARERS_PER_UE : Int) → ebr_count_within_slots st) :
    esm_ebr_context_create st pti pid ebi is_default qci gbr_dl gbr_ul mbr_dl mbr_ul tft pco
      = some (ESM_EBI_UNASSIGNED, st) := by
  have hpid := (arr_get_eq_some hpdn).1
  unfold esm_ebr_context_create
  by_cases hcnt : st.esm_ctx.n_active_ebrs > (BEARERS_PER_UE : Int)
  · simp only [hpid, if_true, hpdn, hcnt]
  · have hw := hinv (by omega)
    unfold ebr_count_within_slots at hw
    have hfull := occupied_slots_full st.ue_context.bearer_contexts (by omega)
    have hfree := free_bearer_slot_none _ hfull
    have hreg : mme_app_register_bearer_context st.ue_context ebi pid = none := by
      unfold mme_app_register_bearer_context
      rw [hfree]
    simp only [hpid, if_true, hpdn, hcnt, if_false, hreg]

/-- C7 (instance). The eleven creations on a fresh UE return and leave every
slot occupied with both counts at 11; the twelfth creation, of the dedicated
bearer EBI 16, is refused and leaves the state as it was. -/
theorem create_at_max_unassigned_witness :
    create_bearers ue_fresh eleven_creations = some ue_all_slots_used ∧
    ue_all_slots_used.esm_ctx.n_active_ebrs = (BEARERS_PER_UE : Int) ∧
    ebr_count_within_slots ue_all_slots_used ∧
    esm_ebr_context_create ue_all_slots_used 1 0 16 false 9 0 0 0 0 none none
      = some (ESM_EBI_UNASSIGNED, ue_all_slots_used) :=
  ⟨by decide, by decide, by decide,
   create_at_max_unassigned ue_all_slots_used 1 0 16 false 9 0 0 0 0 none none
     { is_active := true, default_ebi := 5,
       bearer_contexts := [0, 1, 2, 3, 4, 5, 6, 7, 8, 9, 10],
       esm_data := { n_bearers := 11, is_emergency := false } }
     (by decide) (by decide) (fun _ => by decide)⟩

/-- C8 (evaluation at the failing input). For the NULL PDN connection 1 of a
fresh UE the creation does not return: after the error log control reaches
`AssertFatal(pdn_context)`. For the out-of-range PDN id 7 it returns
ESM_EBI_UNASSIGNED and leaves the state as it was. -/
theorem create_null_pdn_aborts :
    arr_get MAX_APN_PER_UE ue_fresh.ue_context.pdn_contexts 1 = some none ∧
    esm_ebr_context_create ue_fresh 1 1 5 true 9 0 0 0 0 none none = none ∧
    esm_ebr_context_create ue_fresh 1 7 5 true 9 0 0 0 0 none none
      = some (ESM_EBI_UNASSIGNED, ue_fresh) := by
  refine ⟨?_, ?_, ?_⟩ <;> decide

/-- C9. When `esm_ebr_context_create` succeeds with is_default true, the PDN
connection afterwards has is_active true and default_ebi equal to the requested
identity, the call returns that identity, and the UE's is_emergency is true if
the PDN's is_emergency is set; and for every successful create, default or
dedicated, a true is_emergency of the UE stays true. -/
theorem create_default_marks_pdn (st : emm_data_context_t) (pti pid ebi : Nat)
    (is_default : Bool) (qci gbr_dl gbr_ul mbr_dl mbr_ul : Nat) (tft pco : Option Nat)
    (p p1 : pdn_context_t) (ue1 : ue_context_t) (bidx : Nat)
    (hpdn : arr_get MAX_APN_PER_UE st.ue_context.pdn_contexts pid = some (some p))
    (hcnt : ¬ st.esm_ctx.n_active_ebrs > (BEARERS_PER_UE : Int))
    (hreg : mme_app_register_bearer_context st.ue_context ebi pid = some ue1)
    (hp1 : arr_get MAX_APN_PER_UE ue1.pdn_contexts pid = some (some p1))
    (hget : mme_app_get_bearer_context ue1 p1 ebi = some bidx) :
    ∃ r st1,
      esm_ebr_context_create st pti pid ebi is_default qci gbr_dl gbr_ul mbr_dl mbr_ul tft pco
        = some (r, st1) ∧
      (is_default = true →
        r = ebi ∧
        (∃ p2, arr_get MAX_APN_PER_UE st1.ue_context.pdn_contexts pid = some (some p2) ∧
          p2.is_active = true ∧ p2.default_ebi = ebi) ∧
        (p.esm_data.is_emergency = true → st1.esm_ctx.is_emergency = true)) ∧
      (st.esm_ctx.is_emergency = true → st1.esm_ctx.is_emergency = true) := by
  obtain ⟨bc, _, heq⟩ := create_success_eq st pti pid ebi is_default qci gbr_dl gbr_ul mbr_dl
    mbr_ul tft pco p p1 ue1 bidx hpdn hcnt hreg hp1 hget
  obtain ⟨hd, _, _, _⟩ := register_frame hpdn hreg hp1
  refine ⟨_, _, heq, ?_, ?_⟩
  · intro hdef
    subst hdef
    refine ⟨rfl, ⟨_, arr_get_set_self hp1, rfl, rfl⟩, ?_⟩
    intro he
    simp [hd, he]
  · intro he
    simp only [he]
    split <;> rfl

/-- C9 (instance). The creation of the default bearer EBI 5 on an emergency PDN
connection. -/
theorem create_default_marks_pdn_witness :
    ∃ r st1,
      esm_ebr_context_create ue_emergency 1 0 5 true 9 0 0 0 0 none none = some (r, st1) ∧
      (true = true →
        r = 5 ∧
        (∃ p2, arr_get MAX_APN_PER_UE st1.ue_context.pdn_contexts 0 = some (some p2) ∧
          p2.is_active = true ∧ p2.default_ebi = 5) ∧
        (pdn_emergency.esm_data.is_emergency = true → st1.esm_ctx.is_emergency = true)) ∧
      (ue_emergency.esm_ctx.is_emergency = true → st1.esm_ctx.is_emergency = true) :=
  create_default_marks_pdn ue_emergency 1 0 5 true 9 0 0 0 0 none none
    pdn_emergency pdn_emergency_registered ue_emergency_registered 0
    (by decide) (by decide) (by decide) (by decide) (by decide)

/-- Outside slot 0 the part under `if (found)` either rejects the slot or
lowers the count of the one PDN connection and changes nothing else. -/
theorem release_found_other_slot (st : emm_data_context_t) (ebi pid : Nat) (bid : Int)
    (r : release_result) (h : release_found st ebi pid bid = some r)
    (hok : r.ebi ≠ ESM_EBI_UNASSIGNED) (hb : bid ≠ 0) :
    ∃ p, arr_get MAX_APN_PER_UE st.ue_context.pdn_contexts pid = some (some p) ∧
      r = { ebi := ebi, pid := pid, bid := bid,
            emm_context :=
              { st with
                  ue_context :=
                    { st.ue_context with
                        pdn_contexts := st.ue_context.pdn_contexts.set pid
                          (some { p with
                                    esm_data :=
                                      { p.esm_data with
                                          n_bearers := int_dec p.esm_data.n_bearers } }) } } } := by
  unfold release_found at h
  cases hp : arr_get MAX_APN_PER_UE st.ue_context.pdn_contexts pid with
  | none => simp [hp] at h
  | some o =>
    cases o with
    | none => simp [hp] at h
    | some p =>
      refine ⟨p, rfl, ?_⟩
      simp only [hp] at h
      cases hs : arr_get_int BEARERS_PER_UE p.bearer_contexts bid with
      | none => simp [hs] at h
      | some slot =>
        simp only [hs] at h
        by_cases hne : slot ≠ bid
        · rw [if_pos hne] at h
          cases h
          exact absurd rfl hok
        · rw [if_neg hne, if_neg hb] at h
          exact (Option.some.inj h).symm

/-- The part under `if (found)` leaves in `*bid` the slot it was given. -/
theorem release_found_bid (st : emm_data_context_t) (ebi pid : Nat) (bid : Int)
    (r : release_result) (h : release_found st ebi pid bid = some r) : r.bid = bid := by
  unfold release_found at h
  cases hp : arr_get MAX_APN_PER_UE st.ue_context.pdn_contexts pid with
  | none => simp [hp] at h
  | some o =>
    cases o with
    | none => simp [hp] at h
    | some p =>
      simp only [hp] at h
      cases hs : arr_get_int BEARERS_PER_UE p.bearer_contexts bid with
      | none => simp [hs] at h
      | some slot =>
        simp only [hs] at h
        by_cases hne : slot ≠ bid
        · rw [if_pos hne] at h
          cases h
          rfl
        · rw [if_neg hne] at h
          by_cases hz : bid = 0
          · rw [if_pos hz] at h
            cases hc : release_cascade ((p.bearer_contexts.take BEARERS_PER_UE).drop 1)
                st.ue_context.bearer_contexts (int_dec p.esm_data.n_bearers) with
            | none => rw [hc] at h; cases h
            | some v =>
              rw [hc] at h
              cases h
              rfl
          · rw [if_neg hz] at h
            cases h
            rfl

/-- C10 (as amended). A successful `esm_ebr_context_release` whose target sits
in a slot other than slot 0 returns the targeted identity (when one is given),
applies the `int` decrement to the n_bearers of the target's PDN connection,
which lowers it by exactly one when it is above INT_MIN, and leaves the ESM
context, every bearer context, the other fields of that PDN connection and
every other PDN connection as they were. -/
theorem release_other_slot_frame (st : emm_data_context_t) (ebi pid : Nat) (bid : Int)
    (r : release_result) (h : esm_ebr_context_release st ebi pid bid = some r)
    (hok : r.ebi ≠ ESM_EBI_UNASSIGNED) (hb : r.bid ≠ 0) :
    (ebi ≠ ESM_EBI_UNASSIGNED → r.ebi = ebi) ∧
    r.emm_context.esm_ctx = st.esm_ctx ∧
    r.emm_context.ue_context.bearer_contexts = st.ue_context.bearer_contexts ∧
    (∃ p p1, arr_get MAX_APN_PER_UE st.ue_context.pdn_contexts r.pid = some (some p) ∧
      arr_get MAX_APN_PER_UE r.emm_context.ue_context.pdn_contexts r.pid = some (some p1) ∧
      p1.esm_data.n_bearers = int_dec p.esm_data.n_bearers ∧
      (INT_MIN < p.esm_data.n_bearers →
        p1.esm_data.n_bearers = p.esm_data.n_bearers - 1) ∧
      p1.esm_data.is_emergency = p.esm_data.is_emergency ∧
      p1.is_active = p.is_active ∧ p1.default_ebi = p.default_ebi ∧
      p1.bearer_contexts = p.bearer_contexts) ∧
    ∀ q, q ≠ r.pid →
      r.emm_context.ue_context.pdn_contexts[q]? = st.ue_context.pdn_contexts[q]? := by
  have key : ∀ (e pd : Nat) (b : Int), release_found st e pd b = some r →
      r.ebi = e ∧
      r.emm_context.esm_ctx = st.esm_ctx ∧
      r.emm_context.ue_context.bearer_contexts = st.ue_context.bearer_contexts ∧
      (∃ p p1, arr_get MAX_APN_PER_UE st.ue_context.pdn_contexts r.pid = some (some p) ∧
        arr_get MAX_APN_PER_UE r.emm_context.ue_context.pdn_contexts r.pid = some (some p1) ∧
        p1.esm_data.n_bearers = int_dec p.esm_data.n_bearers ∧
        (INT_MIN < p.esm_data.n_bearers →
          p1.esm_data.n_bearers = p.esm_data.n_bearers - 1) ∧
        p1.esm_data.is_emergency = p.esm_data.is_emergency ∧
        p1.is_active = p.is_active ∧ p1.default_ebi = p.default_ebi ∧
        p1.bearer_contexts = p.bearer_contexts) ∧
      ∀ q, q ≠ r.pid →
        r.emm_context.ue_context.pdn_contexts[q]? = st.ue_context.pdn_contexts[q]? := by
    intro e pd b hf
    have hbid : r.bid = b := release_found_bid st e pd b r hf
    obtain ⟨p, hp, hr⟩ := release_found_other_slot st e pd b r hf hok (hbid ▸ hb)
    subst hr
    refine ⟨rfl, rfl, rfl,
      ⟨p, _, hp, arr_get_set_self hp, rfl, fun hr => int_dec_eq (ne_of_gt hr),
        rfl, rfl, rfl, rfl⟩, ?_⟩
    intro q hq
    exact List.getElem?_set_ne (Ne.symm hq)
  unfold esm_ebr_context_release at h
  by_cases hebi : ebi ≠ ESM_EBI_UNASSIGNED
  · rw [if_pos hebi] at h
    cases hsc : release_scan st.ue_context.bearer_contexts ebi BEARERS_PER_UE 0 with
    | none =>
      rw [hsc] at h
      cases h
      exact absurd rfl hok
    | some b =>
      simp only [hsc] at h
      cases hg : arr_get BEARERS_PER_UE st.ue_context.bearer_contexts b with
      | none => simp [hg] at h
      | some o =>
        cases o with
        | none => simp [hg] at h
        | some bc =>
          simp only [hg] at h
          obtain ⟨h1, h2⟩ := key _ _ _ h
          exact ⟨fun _ => h1, h2⟩
  · rw [if_neg hebi] at h
    refine ⟨fun hc => absurd hc hebi, ?_⟩
    by_cases hpid : pid < MAX_APN_PER_UE
    · rw [if_pos hpid] at h
      cases hp : arr_get MAX_APN_PER_UE st.ue_context.pdn_contexts pid with
      | none => simp [hp] at h
      | some o =>
        cases o with
        | none =>
          rw [hp] at h
          cases h
          exact absurd rfl hok
        | some p =>
          simp only [hp] at h
          cases hs : arr_get_int BEARERS_PER_UE p.bearer_contexts bid with
          | none => simp [hs] at h
          | some slot =>
            simp only [hs] at h
            by_cases hz : slot ≠ 0
            · rw [if_pos hz] at h
              cases hg : arr_get_int BEARERS_PER_UE st.ue_context.bearer_contexts bid with
              | none => simp [hg] at h
              | some o =>
                cases o with
                | none => simp [hg] at h
                | some bc =>
                  simp only [hg] at h
                  exact (key _ _ _ h).2
            · rw [if_neg hz] at h
              cases h
              exact absurd rfl hok
    · rw [if_neg hpid] at h
      cases h
      exact absurd rfl hok

/-- C10 (instance). The release of the dedicated bearer EBI 6 (slot 1) in the
two-bearer scenario. -/
theorem release_other_slot_frame_witness :
    esm_ebr_context_release ue_two_bearers 6 0 0 = some release_dedicated_result ∧
    (6 ≠ ESM_EBI_UNASSIGNED → release_dedicated_result.ebi = 6) ∧
    release_dedicated_result.emm_context.esm_ctx = ue_two_bearers.esm_ctx ∧
    release_dedicated_result.emm_context.ue_context.bearer_contexts
      = ue_two_bearers.ue_context.bearer_contexts ∧
    (∃ p p1,
      arr_get MAX_APN_PER_UE ue_two_bearers.ue_context.pdn_contexts
        release_dedicated_result.pid = some (some p) ∧
      arr_get MAX_APN_PER_UE release_dedicated_result.emm_context.ue_context.pdn_contexts
        release_dedicated_result.pid = some (some p1) ∧
      p1.esm_data.n_bearers = int_dec p.esm_data.n_bearers ∧
      (INT_MIN < p.esm_data.n_bearers →
        p1.esm_data.n_bearers = p.esm_data.n_bearers - 1) ∧
      p1.esm_data.is_emergency = p.esm_data.is_emergency ∧
      p1.is_active = p.is_active ∧ p1.default_ebi = p.default_ebi ∧
      p1.bearer_contexts = p.bearer_contexts) ∧
    ∀ q, q ≠ release_dedicated_result.pid →
      release_dedicated_result.emm_context.ue_context.pdn_contexts[q]?
        = ue_two_bearers.ue_context.pdn_contexts[q]? :=
  ⟨by decide,
   release_other_slot_frame ue_two_bearers 6 0 0 release_dedicated_result
     (by decide) (by decide) (by decide)⟩

/-- C10 (counterexample). PDN 0 holds the dedicated bearer EBI 5 in slot 0 and
its default bearer EBI 6 in slot 1. The release of EBI 5, which is not the
PDN's default bearer, returns 5, takes n_bearers from 2 to 0 and sets the
default bearer EBI 6 to ESM_EBR_INACTIVE. -/
theorem release_dedicated_in_slot0_cascades :
    pdn_counts ue_dedicated_first = [some 2, none, none, none, none] ∧
    ue_dedicated_first.ue_context.pdn_contexts.map (Option.map (fun p => p.default_ebi))
      = [some 6, none, none, none, none] ∧
    (esm_ebr_context_release ue_dedicated_first 5 0 0).map
        (fun r => (r.ebi, pdn_counts r.emm_context, bearer_statuses r.emm_context)) =
      some (5, [some 0, none, none, none, none],
            [some (5, ESM_EBR_ACTIVE), some (6, ESM_EBR_INACTIVE),
             none, none, none, none, none, none, none, none, none]) := by
  refine ⟨?_, ?_, ?_⟩ <;> decide

theorem sum_map_set_int {α : Type} (g : α → Int) (l : List α) :
    ∀ (i : Nat) (x y : α), l[i]? = some x →
      ((l.set i y).map g).sum = (l.map g).sum - g x + g y := by
  induction l with
  | nil => intro i x y h; simp at h
  | cons a l ih =>
    intro i x y h
    cases i with
    | zero =>
      simp only [List.getElem?_cons_zero, Option.some.injEq] at h
      subst h
      simp only [List.set_cons_zero, List.map_cons, List.sum_cons]
      omega
    | succ i =>
      simp only [List.getElem?_cons_succ] at h
      simp only [List.set_cons_succ, List.map_cons, List.sum_cons, ih i x y h]
      omega

/-- Writing one PDN connection slot moves the sum of the PDN counts by the
difference of the two counts. -/
theorem pdn_sum_set (l : List (Option pdn_context_t)) (pid : Nat) (p q : pdn_context_t)
    (h : arr_get MAX_APN_PER_UE l pid = some (some p)) :
    (((l.set pid (some q)).take MAX_APN_PER_UE).map
        (fun o => match o with
                  | some pdn_context => pdn_context.esm_data.n_bearers
                  | none => 0)).sum =
      ((l.take MAX_APN_PER_UE).map
        (fun o => match o with
                  | some pdn_context => pdn_context.esm_data.n_bearers
                  | none => 0)).sum - p.esm_data.n_bearers + q.esm_data.n_bearers := by
  obtain ⟨hpid, hget⟩ := arr_get_eq_some h
  have ht : (l.take MAX_APN_PER_UE)[pid]? = some (some p) := by
    rw [List.getElem?_take, if_pos hpid, hget]
  rw [List.set_take, sum_map_set_int _ _ pid (some p) (some q) ht]

/-- The consistency of the two counters survives every call of
`esm_ebr_context_create` that returns, when the count of the PDN connection is
below INT_MAX. -/
theorem create_keeps_count_consistent (st : emm_data_context_t) (pti pid ebi : Nat)
    (is_default : Bool) (qci gbr_dl gbr_ul mbr_dl mbr_ul : Nat) (tft pco : Option Nat)
    (r : Nat) (st1 : emm_data_context_t)
    (h : esm_ebr_context_create st pti pid ebi is_default qci gbr_dl gbr_ul mbr_dl mbr_ul tft pco
          = some (r, st1))
    (hr : ∀ p, arr_get MAX_APN_PER_UE st.ue_context.pdn_contexts pid = some (some p) →
      p.esm_data.n_bearers ≠ INT_MAX)
    (hc : ebr_count_consistent st) : ebr_count_consistent st1 := by
  by_cases hpid : pid < MAX_APN_PER_UE
  · cases hp : arr_get MAX_APN_PER_UE st.ue_context.pdn_contexts pid with
    | none =>
      unfold esm_ebr_context_create at h
      simp only [hpid, if_true, hp] at h
      cases h
    | some o =>
      cases o with
      | none =>
        unfold esm_ebr_context_create at h
        simp only [hpid, if_true, hp] at h
        cases h
      | some p =>
        by_cases hcnt : st.esm_ctx.n_active_ebrs > (BEARERS_PER_UE : Int)
        · unfold esm_ebr_context_create at h
          simp only [hpid, if_true, hp, hcnt, Option.some.injEq, Prod.mk.injEq] at h
          rw [← h.2]; exact hc
        · cases hreg : mme_app_register_bearer_context st.ue_context ebi pid with
          | none =>
            unfold esm_ebr_context_create at h
            simp only [hpid, if_true, hp, hcnt, if_false, hreg, Option.some.injEq,
              Prod.mk.injEq] at h
            rw [← h.2]; exact hc
          | some ue1 =>
            obtain ⟨idx, p', _, hp', hue1⟩ := register_eq_some hreg
            rw [hp] at hp'
            cases hp'
            have hp1 : arr_get MAX_APN_PER_UE ue1.pdn_contexts pid
                = some (some { p with bearer_contexts := p.bearer_contexts.set idx (idx : Int) }) := by
              rw [hue1]; exact arr_get_set_self hp
            cases hget : mme_app_get_bearer_context ue1
                { p with bearer_contexts := p.bearer_contexts.set idx (idx : Int) } ebi with
            | none =>
              unfold esm_ebr_context_create at h
              simp only [hpid, if_true, hp, hcnt, if_false, hreg, hp1, hget, Option.some.injEq,
                Prod.mk.injEq] at h
              rw [← h.2]
              unfold ebr_count_consistent at hc ⊢
              simp only [hue1]
              rw [pdn_sum_set _ _ _ _ hp, hc]
              simp
            | some bidx =>
              obtain ⟨bc, _, heq⟩ := create_success_eq st pti pid ebi is_default qci gbr_dl gbr_ul
                mbr_dl mbr_ul tft pco p _ ue1 bidx hp hcnt hreg hp1 hget
              rw [heq] at h
              simp only [Option.some.injEq, Prod.mk.injEq] at h
              rw [← h.2]
              unfold ebr_count_consistent at hc ⊢
              simp only []
              rw [pdn_sum_set _ _ _ _ hp1, hue1]
              simp only []
              rw [pdn_sum_set _ _ _ _ hp, hc]
              simp [int_inc_eq (hr p hp)]
              omega
  · unfold esm_ebr_context_create at h
    simp only [hpid, if_false, Option.some.injEq, Prod.mk.injEq] at h
    rw [← h.2]; exact hc

/-- The by-identity scan runs to its end when no occupied slot it visits holds
the identity. -/
theorem release_scan_none (bcs : List (Option bearer_context_t)) (ebi : Nat) :
    ∀ (k i : Nat),
      ebi ∉ (((bcs.take BEARERS_PER_UE).drop i).filterMap
              (fun o => o.map (fun bc => bc.ebi))) →
      release_scan bcs ebi k i = none := by
  intro k
  induction k with
  | zero => intro i _; rfl
  | succ k ih =>
    intro i h
    have hnext : ebi ∉ (((bcs.take BEARERS_PER_UE).drop (i + 1)).filterMap
        (fun o => o.map (fun bc => bc.ebi))) := by
      intro hm
      apply h
      rw [← List.drop_drop] at hm
      obtain ⟨o, ho, hoe⟩ := List.mem_filterMap.mp hm
      exact List.mem_filterMap.mpr ⟨o, List.mem_of_mem_drop ho, hoe⟩
    unfold release_scan
    cases hg : arr_get BEARERS_PER_UE bcs i with
    | none => exact ih (i + 1) hnext
    | some o =>
      cases o with
      | none => exact ih (i + 1) hnext
      | some bc =>
        simp only []
        have hgi : (bcs.take BEARERS_PER_UE)[i]? = some (some bc) := by
          unfold arr_get at hg
          rw [List.getElem?_take]
          exact hg
        have hlt : i < (bcs.take BEARERS_PER_UE).length := (List.getElem?_eq_some.mp hgi).1
        have hti : (bcs.take BEARERS_PER_UE)[i] = some bc := (List.getElem?_eq_some.mp hgi).2
        have hne : bc.ebi ≠ ebi := by
          intro he
          apply h
          rw [List.drop_eq_getElem_cons hlt, hti]
          exact List.mem_filterMap.mpr ⟨some bc, List.mem_cons_self _ _, by simp [he]⟩
        rw [if_pos hne]
        exact ih (i + 1) hnext

/-- The exits of `esm_ebr_context_release` on which `found` stays false: by
identity when no occupied slot of the UE's bearer array has the identity, and
by position when the PDN id is at or above MAX_APN_PER_UE, the PDN connection
pointer is NULL, or the PDN's entry at the position is zero. The call returns
ESM_EBI_UNASSIGNED and leaves the whole state as it was. -/
theorem release_unmatched_returns_unassigned (st : emm_data_context_t) (ebi pid : Nat) (bid : Int)
    (h : (ebi ≠ ESM_EBI_UNASSIGNED ∧ ebi ∉ ue_bearer_ebis st) ∨
         (ebi = ESM_EBI_UNASSIGNED ∧
           (MAX_APN_PER_UE ≤ pid ∨
            arr_get MAX_APN_PER_UE st.ue_context.pdn_contexts pid = some none ∨
            ∃ p, arr_get MAX_APN_PER_UE st.ue_context.pdn_contexts pid = some (some p) ∧
              arr_get_int BEARERS_PER_UE p.bearer_contexts bid = some 0))) :
    ∃ r, esm_ebr_context_release st ebi pid bid = some r ∧ r.ebi = ESM_EBI_UNASSIGNED ∧
      r.emm_context = st := by
  unfold esm_ebr_context_release
  rcases h with ⟨hebi, hno⟩ | ⟨hebi, hpos⟩
  · rw [if_pos hebi, release_scan_none _ _ _ _ (by simpa [ue_bearer_ebis] using hno)]
    exact ⟨_, rfl, rfl, rfl⟩
  · rw [if_neg (not_not.mpr hebi)]
    rcases hpos with hpid | hnull | ⟨p, hp, hs⟩
    · rw [if_neg (by omega)]
      exact ⟨_, rfl, rfl, rfl⟩
    · have hlt := (arr_get_eq_some hnull).1
      rw [if_pos hlt]
      simp only [hnull]
      exact ⟨_, rfl, rfl, rfl⟩
    · have hlt := (arr_get_eq_some hp).1
      rw [if_pos hlt]
      simp only [hp, hs, ne_eq, not_true_eq_false, if_false]
      exact ⟨_, rfl, rfl, rfl⟩

/-- C11 (evaluation at the failing input). In the two-bearer scenario position
2 of PDN 0 is empty: the PDN's entry there is the unused value -1 and slot 2 of
the UE holds no bearer. The release by position with `*pid = 0` and `*bid = 2`
accepts the non-zero entry and reads `bearer_contexts[2]->ebi` through the NULL
pointer. The other cases without a match return ESM_EBI_UNASSIGNED with the
state as it was: the identity 9 that no slot holds, the out-of-range PDN id 7 and the
NULL PDN connection 1. -/
theorem release_by_position_unused_entry :
    arr_get MAX_APN_PER_UE ue_two_bearers.ue_context.pdn_contexts 0
      = some (some pdn_two_bearers) ∧
    arr_get_int BEARERS_PER_UE pdn_two_bearers.bearer_contexts 2 = some (-1) ∧
    arr_get_int BEARERS_PER_UE ue_two_bearers.ue_context.bearer_contexts 2 = some none ∧
    esm_ebr_context_release ue_two_bearers ESM_EBI_UNASSIGNED 0 2 = none ∧
    esm_ebr_context_release ue_two_bearers 9 0 0 =
      some { ebi := ESM_EBI_UNASSIGNED, pid := 0, bid := 11, emm_context := ue_two_bearers } ∧
    esm_ebr_context_release ue_two_bearers ESM_EBI_UNASSIGNED 7 2 =
      some { ebi := ESM_EBI_UNASSIGNED, pid := 7, bid := 2, emm_context := ue_two_bearers } ∧
    esm_ebr_context_release ue_two_bearers ESM_EBI_UNASSIGNED 1 2 =
      some { ebi := ESM_EBI_UNASSIGNED, pid := 1, bid := 2, emm_context := ue_two_bearers } := by
  refine ⟨by decide, by decide, by decide, by decide, by decide, by decide, by decide⟩

/-- Writing back the value a position already holds leaves the list as it
was. -/
theorem list_set_same {α : Type} (l : List α) (i : Nat) (x : α) (h : l[i]? = some x) :
    l.set i x = l := by
  apply List.ext_getElem?
  intro j
  by_cases hj : i = j
  · subst hj
    have hl : i < l.length := (List.getElem?_eq_some.mp h).1
    rw [List.getElem?_set_self hl, h]
  · rw [List.getElem?_set_ne hj]

/-- The cascade loop stays inside the entries it is given, and ends at count
0, when the count is not above the number of entries that name a slot of the
UE and each such entry names an occupied slot. -/
theorem release_cascade_within (slots : List Int) :
    ∀ (bcs : List (Option bearer_context_t)) (n : Int),
      (∀ idx ∈ slots, slot_in_range idx →
        ∃ bc, arr_get_int BEARERS_PER_UE bcs idx = some (some bc)) →
      0 ≤ n → n ≤ ((slots.filter (fun idx => decide (slot_in_range idx))).length : Int) →
      ∃ bcs1, release_cascade slots bcs n = some (bcs1, 0) := by
  induction slots with
  | nil =>
    intro bcs n _ h0 hn
    simp at hn
    have hz : n = 0 := by omega
    subst hz
    exact ⟨bcs, by simp [release_cascade]⟩
  | cons idx rest ih =>
    intro bcs n hocc h0 hn
    by_cases hpos : n > 0
    · by_cases hv : slot_in_range idx
      · obtain ⟨bc, hbc⟩ := hocc idx (List.mem_cons_self _ _) hv
        have hocc1 : ∀ i ∈ rest, slot_in_range i →
            ∃ b, arr_get_int BEARERS_PER_UE
              (bcs.map (Option.map (cascade_touch bc.ebi))) i = some (some b) := by
          intro i hi hvi
          obtain ⟨b, hb⟩ := hocc i (List.mem_cons_of_mem _ hi) hvi
          exact ⟨cascade_touch bc.ebi b, by rw [arr_get_int_map, hb]; rfl⟩
        have hn1 : n - 1 ≤ ((rest.filter (fun i => decide (slot_in_range i))).length : Int) := by
          rw [List.filter_cons_of_pos (by simpa using hv)] at hn
          simp only [List.length_cons, Nat.cast_add, Nat.cast_one] at hn
          omega
        obtain ⟨bcs1, hE⟩ := ih _ _ hocc1 (by omega) hn1
        refine ⟨bcs1, ?_⟩
        unfold release_cascade
        have hv' : 0 ≤ idx ∧ idx < (BEARERS_PER_UE : Int) := hv
        simp only [hpos, if_true, hv', and_self, hbc, release_set_status_eq, int_dec_pos hpos]
        exact hE
      · have hn1 : n ≤ ((rest.filter (fun i => decide (slot_in_range i))).length : Int) := by
          rw [List.filter_cons_of_neg (by simpa using hv)] at hn
          exact hn
        have hocc1 : ∀ i ∈ rest, slot_in_range i →
            ∃ b, arr_get_int BEARERS_PER_UE bcs i = some (some b) :=
          fun i hi hvi => hocc i (List.mem_cons_of_mem _ hi) hvi
        obtain ⟨bcs1, hE⟩ := ih _ _ hocc1 h0 hn1
        have hv' : ¬ (0 ≤ idx ∧ idx < (BEARERS_PER_UE : Int)) := hv
        refine ⟨bcs1, ?_⟩
        unfold release_cascade
        simp only [hpos, if_true, hv', if_false]
        exact hE
    · have hz : n = 0 := by omega
      subst hz
      exact ⟨bcs, by unfold release_cascade; simp⟩

/-- The cascade loop runs past the entries it is given when the count is above
the number of entries that name a slot of the UE. -/
theorem release_cascade_overrun (slots : List Int) :
    ∀ (bcs : List (Option bearer_context_t)) (n : Int),
      ((slots.filter (fun idx => decide (slot_in_range idx))).length : Int) < n →
      release_cascade slots bcs n = none := by
  induction slots with
  | nil =>
    intro bcs n hn
    simp at hn
    unfold release_cascade
    simp [hn]
  | cons idx rest ih =>
    intro bcs n hn
    have hpos : n > 0 := by
      have : (0 : Int) ≤ (((idx :: rest).filter (fun i => decide (slot_in_range i))).length : Int) :=
        Int.natCast_nonneg _
      omega
    unfold release_cascade
    rw [if_pos hpos]
    by_cases hv : slot_in_range idx
    · have hv' : 0 ≤ idx ∧ idx < (BEARERS_PER_UE : Int) := hv
      rw [if_pos hv']
      have hn1 : ((rest.filter (fun i => decide (slot_in_range i))).length : Int) < n - 1 := by
        rw [List.filter_cons_of_pos (by simpa using hv)] at hn
        simp only [List.length_cons, Nat.cast_add, Nat.cast_one] at hn
        omega
      cases hb : arr_get_int BEARERS_PER_UE bcs idx with
      | none => rfl
      | some o =>
        cases o with
        | none => rfl
        | some bc => exact ih _ _ (by rw [int_dec_pos hpos]; exact hn1)
    · have hv' : ¬ (0 ≤ idx ∧ idx < (BEARERS_PER_UE : Int)) := hv
      rw [if_neg hv']
      rw [List.filter_cons_of_neg (by simpa using hv)] at hn
      exact ih _ _ hn

/-- The two ways the part under `if (found)` returns: the sentinel with the
state as it was, or the given identity with the count of the PDN connection
lowered, through the cascade when the slot is slot 0. -/
theorem release_found_cases (st : emm_data_context_t) (ebi pid : Nat) (bid : Int)
    (r : release_result) (h : release_found st ebi pid bid = some r) :
    r = { ebi := ESM_EBI_UNASSIGNED, pid := pid, bid := bid, emm_context := st } ∨
    ∃ p bcs n2 em,
      arr_get MAX_APN_PER_UE st.ue_context.pdn_contexts pid = some (some p) ∧
      arr_get_int BEARERS_PER_UE p.bearer_contexts bid = some bid ∧
      (bid = 0 →
        release_cascade ((p.bearer_contexts.take BEARERS_PER_UE).drop 1)
          st.ue_context.bearer_contexts (int_dec p.esm_data.n_bearers) = some (bcs, n2)) ∧
      (bid ≠ 0 → bcs = st.ue_context.bearer_contexts ∧ n2 = int_dec p.esm_data.n_bearers) ∧
      r = { ebi := ebi, pid := pid, bid := bid,
            emm_context :=
              { esm_ctx := st.esm_ctx,
                ue_context :=
                  { pdn_contexts := st.ue_context.pdn_contexts.set pid
                      (some { is_active := p.is_active, default_ebi := p.default_ebi,
                              bearer_contexts := p.bearer_contexts,
                              esm_data := { n_bearers := n2, is_emergency := em } }),
                    bearer_contexts := bcs } } } := by
  unfold release_found at h
  cases hp : arr_get MAX_APN_PER_UE st.ue_context.pdn_contexts pid with
  | none => simp [hp] at h
  | some o =>
    cases o with
    | none => simp [hp] at h
    | some p =>
      simp only [hp] at h
      cases hs : arr_get_int BEARERS_PER_UE p.bearer_contexts bid with
      | none => simp [hs] at h
      | some slot =>
        simp only [hs] at h
        by_cases hne : slot ≠ bid
        · rw [if_pos hne] at h
          exact Or.inl (Option.some.inj h).symm
        · rw [if_neg hne] at h
          have hsl : slot = bid := not_not.mp hne
          right
          by_cases hz : bid = 0
          · rw [if_pos hz] at h
            cases hc : release_cascade ((p.bearer_contexts.take BEARERS_PER_UE).drop 1)
                st.ue_context.bearer_contexts (int_dec p.esm_data.n_bearers) with
            | none => rw [hc] at h; cases h
            | some res =>
              obtain ⟨bcs, n2⟩ := res
              rw [hc] at h
              exact ⟨p, bcs, n2, false, rfl, by rw [hs, hsl], fun _ => hc,
                fun hnz => absurd hz hnz, (Option.some.inj h).symm⟩
          · rw [if_neg hz] at h
            exact ⟨p, st.ue_context.bearer_contexts, int_dec p.esm_data.n_bearers,
              p.esm_data.is_emergency, rfl, by rw [hs, hsl], fun hz0 => absurd hz0 hz,
              fun _ => ⟨rfl, rfl⟩, (Option.some.inj h).symm⟩

/-- The two ways `esm_ebr_context_release` returns: the sentinel with the state
as it was, or through the part under `if (found)` for the PDN connection and
the slot it leaves in `*pid` and `*bid`. -/
theorem release_cases (st : emm_data_context_t) (ebi pid : Nat) (bid : Int)
    (r : release_result) (h : esm_ebr_context_release st ebi pid bid = some r) :
    (r.ebi = ESM_EBI_UNASSIGNED ∧ r.emm_context = st) ∨
    ∃ e, release_found st e r.pid r.bid = some r := by
  unfold esm_ebr_context_release at h
  simp only at h
  by_cases hebi : ebi ≠ ESM_EBI_UNASSIGNED
  · rw [if_pos hebi] at h
    cases hsc : release_scan st.ue_context.bearer_contexts ebi BEARERS_PER_UE 0 with
    | none =>
      rw [hsc] at h
      cases h
      exact Or.inl ⟨rfl, rfl⟩
    | some b =>
      rw [hsc] at h
      cases hb : arr_get BEARERS_PER_UE st.ue_context.bearer_contexts b with
      | none => simp [hb] at h
      | some o =>
        cases o with
        | none => simp [hb] at h
        | some bc =>
          simp only [hb] at h
          right
          have hbid := release_found_bid _ _ _ _ _ h
          rcases release_found_cases _ _ _ _ _ h with h1 | ⟨_, _, _, _, _, _, _, _, h2⟩
          · have hpid : r.pid = bc.pdn_cx_id := by rw [h1]
            exact ⟨ebi, by rw [hpid, hbid]; exact h⟩
          · have hpid : r.pid = bc.pdn_cx_id := by rw [h2]
            exact ⟨ebi, by rw [hpid, hbid]; exact h⟩
  · rw [if_neg hebi] at h
    by_cases hpid : pid < MAX_APN_PER_UE
    · rw [if_pos hpid] at h
      cases hp : arr_get MAX_APN_PER_UE st.ue_context.pdn_contexts pid with
      | none => simp [hp] at h
      | some o =>
        cases o with
        | none =>
          simp only [hp] at h
          cases h
          exact Or.inl ⟨rfl, rfl⟩
        | some p =>
          simp only [hp] at h
          cases hs : arr_get_int BEARERS_PER_UE p.bearer_contexts bid with
          | none => simp [hs] at h
          | some slot =>
            simp only [hs] at h
            by_cases hz : slot ≠ 0
            · rw [if_pos hz] at h
              cases hb : arr_get_int BEARERS_PER_UE st.ue_context.bearer_contexts bid with
              | none => simp [hb] at h
              | some o =>
                cases o with
                | none => simp [hb] at h
                | some bc =>
                  simp only [hb] at h
                  right
                  have hbid := release_found_bid _ _ _ _ _ h
                  rcases release_found_cases _ _ _ _ _ h with h1 | ⟨_, _, _, _, _, _, _, _, h2⟩
                  · have hpid : r.pid = pid := by rw [h1]
                    exact ⟨bc.ebi, by rw [hpid, hbid]; exact h⟩
                  · have hpid : r.pid = pid := by rw [h2]
                    exact ⟨bc.ebi, by rw [hpid, hbid]; exact h⟩
            · rw [if_neg hz] at h
              cases h
              exact Or.inl ⟨rfl, rfl⟩
    · rw [if_neg hpid] at h
      cases h
      exact Or.inl ⟨rfl, rfl⟩

/-- The free-slot search answers with an empty position of the array. -/
theorem free_bearer_slot_empty {bcs : List (Option bearer_context_t)} {idx : Nat}
    (h : mme_app_free_bearer_slot bcs = some idx) :
    arr_get BEARERS_PER_UE bcs idx = some none := by
  unfold mme_app_free_bearer_slot at h
  have h1 := List.find?_some h
  simpa using h1

/-- The three ways `esm_ebr_context_create` returns: the sentinel with the
state as it was; the sentinel after a registration whose slot is not found
again, the counters as they were; or the success branch, which returns the
default identity of the PDN connection with both counters one up. -/
theorem create_cases (st : emm_data_context_t) (pti pid ebi : Nat) (is_default : Bool)
    (qci gbr_dl gbr_ul mbr_dl mbr_ul : Nat) (tft pco : Option Nat)
    (r : Nat) (st1 : emm_data_context_t)
    (h : esm_ebr_context_create st pti pid ebi is_default qci gbr_dl gbr_ul mbr_dl mbr_ul tft pco
          = some (r, st1)) :
    (r = ESM_EBI_UNASSIGNED ∧ st1 = st) ∨
    (∃ p idx q1 b, arr_get MAX_APN_PER_UE st.ue_context.pdn_contexts pid = some (some p) ∧
      arr_get BEARERS_PER_UE st.ue_context.bearer_contexts idx = some none ∧
      q1.esm_data = p.esm_data ∧
      r = ESM_EBI_UNASSIGNED ∧ st1.esm_ctx = st.esm_ctx ∧
      st1.ue_context.pdn_contexts = st.ue_context.pdn_contexts.set pid (some q1) ∧
      st1.ue_context.bearer_contexts = st.ue_context.bearer_contexts.set idx (some b)) ∨
    (∃ p q1 q2, arr_get MAX_APN_PER_UE st.ue_context.pdn_contexts pid = some (some p) ∧
      ¬ st.esm_ctx.n_active_ebrs > (BEARERS_PER_UE : Int) ∧
      q1.esm_data = p.esm_data ∧
      q2.esm_data.n_bearers = int_inc p.esm_data.n_bearers ∧
      r = (if is_default then ebi else p.default_ebi) ∧
      st1.esm_ctx.n_active_ebrs = st.esm_ctx.n_active_ebrs + 1 ∧
      st1.ue_context.pdn_contexts =
        (st.ue_context.pdn_contexts.set pid (some q1)).set pid (some q2) ∧
      ∃ idx bidx b b0 b1,
        arr_get BEARERS_PER_UE st.ue_context.bearer_contexts idx = some none ∧
        arr_get BEARERS_PER_UE (st.ue_context.bearer_contexts.set idx (some b)) bidx
          = some (some b0) ∧
        st1.ue_context.bearer_contexts =
          (st.ue_context.bearer_contexts.set idx (some b)).set bidx (some b1)) := by
  by_cases hpid : pid < MAX_APN_PER_UE
  · cases hp : arr_get MAX_APN_PER_UE st.ue_context.pdn_contexts pid with
    | none =>
      unfold esm_ebr_context_create at h
      simp only [hpid, if_true, hp] at h
      cases h
    | some o =>
      cases o with
      | none =>
        unfold esm_ebr_context_create at h
        simp only [hpid, if_true, hp] at h
        cases h
      | some p =>
        by_cases hcnt : st.esm_ctx.n_active_ebrs > (BEARERS_PER_UE : Int)
        · unfold esm_ebr_context_create at h
          simp only [hpid, if_true, hp, hcnt, Option.some.injEq, Prod.mk.injEq] at h
          exact Or.inl ⟨h.1.symm, h.2.symm⟩
        · cases hreg : mme_app_register_bearer_context st.ue_context ebi pid with
          | none =>
            unfold esm_ebr_context_create at h
            simp only [hpid, if_true, hp, hcnt, if_false, hreg, Option.some.injEq,
              Prod.mk.injEq] at h
            exact Or.inl ⟨h.1.symm, h.2.symm⟩
          | some ue1 =>
            obtain ⟨idx, p', hfree, hp', hue1⟩ := register_eq_some hreg
            rw [hp] at hp'
            cases hp'
            have hp1 : arr_get MAX_APN_PER_UE ue1.pdn_contexts pid
                = some (some { p with bearer_contexts := p.bearer_contexts.set idx (idx : Int) }) := by
              rw [hue1]; exact arr_get_set_self hp
            cases hget : mme_app_get_bearer_context ue1
                { p with bearer_contexts := p.bearer_contexts.set idx (idx : Int) } ebi with
            | none =>
              unfold esm_ebr_context_create at h
              simp only [hpid, if_true, hp, hcnt, if_false, hreg, hp1, hget, Option.some.injEq,
                Prod.mk.injEq] at h
              right; left
              refine ⟨p, idx, { p with bearer_contexts := p.bearer_contexts.set idx (idx : Int) },
                { ebi := ebi, pdn_cx_id := pid, transaction_identifier := 0, qci := 0,
                  esm_ebr_context := esm_ebr_context_init_val },
                rfl, free_bearer_slot_empty hfree, rfl, h.1.symm, ?_, ?_, ?_⟩
              · rw [← h.2]
              · rw [← h.2, hue1]
              · rw [← h.2, hue1]
            | some bidx =>
              obtain ⟨bc, hbc, heq⟩ := create_success_eq st pti pid ebi is_default qci gbr_dl
                gbr_ul mbr_dl mbr_ul tft pco p _ ue1 bidx hp hcnt hreg hp1 hget
              rw [heq] at h
              simp only [Option.some.injEq, Prod.mk.injEq] at h
              right; right
              refine ⟨p, { p with bearer_contexts := p.bearer_contexts.set idx (idx : Int) },
                { is_active := if is_default then true else p.is_active,
                  default_ebi := if is_default then ebi else p.default_ebi,
                  bearer_contexts := p.bearer_contexts.set idx (idx : Int),
                  esm_data := { n_bearers := int_inc p.esm_data.n_bearers,
                                is_emergency := p.esm_data.is_emergency } },
                rfl, hcnt, rfl, rfl, h.1.symm, ?_, ?_,
                ⟨idx, bidx,
                  { ebi := ebi, pdn_cx_id := pid, transaction_identifier := 0, qci := 0,
                    esm_ebr_context := esm_ebr_context_init_val },
                  bc,
                  { ebi := bc.ebi, pdn_cx_id := bc.pdn_cx_id,
                    transaction_identifier := pti, qci := qci,
                    esm_ebr_context :=
                      { status := bc.esm_ebr_context.status,
                        gbr_dl := gbr_dl, gbr_ul := gbr_ul,
                        mbr_dl := mbr_dl, mbr_ul := mbr_ul,
                        tft := tft, pco := pco,
                        timer := bc.esm_ebr_context.timer } },
                  free_bearer_slot_empty hfree, ?_, ?_⟩⟩
              · rw [← h.2]
              · rw [← h.2, hue1]
              · rw [hue1] at hbc
                exact hbc
              · rw [← h.2, hue1]
  · unfold esm_ebr_context_create at h
    simp only [hpid, if_false, Option.some.injEq, Prod.mk.injEq] at h
    exact Or.inl ⟨h.1.symm, h.2.symm⟩

/-- Writing one slot of the bearer array moves the number of occupied slots by
the difference of the old and the new occupancy. -/
theorem occupied_slots_set (bcs : List (Option bearer_context_t)) (i : Nat)
    (o x : Option bearer_context_t) (h : arr_get BEARERS_PER_UE bcs i = some o) :
    occupied_slots (bcs.set i x) =
      occupied_slots bcs - (if o.isSome then 1 else 0) + (if x.isSome then 1 else 0) := by
  obtain ⟨hi, hget⟩ := arr_get_eq_some h
  have ht : (bcs.take BEARERS_PER_UE)[i]? = some o := by
    rw [List.getElem?_take, if_pos hi, hget]
  unfold occupied_slots
  rw [List.set_take, sum_map_set_int _ _ i o x ht]

/-- A change of the bearers in place leaves the number of occupied slots. -/
theorem occupied_slots_map (bcs : List (Option bearer_context_t))
    (G : bearer_context_t → bearer_context_t) :
    occupied_slots (bcs.map (Option.map G)) = occupied_slots bcs := by
  unfold occupied_slots
  rw [← List.map_take, List.map_map]
  congr 1
  apply List.map_congr_left
  intro o _
  cases o <;> rfl

/-- Every call of `esm_ebr_context_create` that returns keeps the count
n_active_ebrs covered by occupied slots. -/
theorem create_keeps_count_within_slots (st : emm_data_context_t) (pti pid ebi : Nat)
    (is_default : Bool) (qci gbr_dl gbr_ul mbr_dl mbr_ul : Nat) (tft pco : Option Nat)
    (r : Nat) (st1 : emm_data_context_t)
    (h : esm_ebr_context_create st pti pid ebi is_default qci gbr_dl gbr_ul mbr_dl mbr_ul tft pco
          = some (r, st1))
    (hw : ebr_count_within_slots st) : ebr_count_within_slots st1 := by
  unfold ebr_count_within_slots at hw ⊢
  rcases create_cases _ _ _ _ _ _ _ _ _ _ _ _ _ _ h with
    ⟨_, h2⟩ | ⟨p, idx, q1, b, _, hfree, _, _, he, _, hbd⟩ |
    ⟨p, q1, q2, _, _, _, _, _, he, _, idx, bidx, b, b0, b1, hfree, hb0, hbd⟩
  · rw [h2]; exact hw
  · rw [he, hbd, occupied_slots_set _ _ _ _ hfree]
    simp only [Option.isSome_none, Bool.false_eq_true, if_false, Option.isSome_some, if_true]
    omega
  · rw [he, hbd, occupied_slots_set _ _ _ _ hb0, occupied_slots_set _ _ _ _ hfree]
    simp only [Option.isSome_none, Bool.false_eq_true, if_false, Option.isSome_some, if_true]
    omega

/-- Every call of `esm_ebr_context_release` that returns keeps the count
n_active_ebrs covered by occupied slots: it empties no slot. -/
theorem release_keeps_count_within_slots (st : emm_data_context_t) (ebi pid : Nat) (bid : Int)
    (r : release_result) (h : esm_ebr_context_release st ebi pid bid = some r)
    (hw : ebr_count_within_slots st) : ebr_count_within_slots r.emm_context := by
  unfold ebr_count_within_slots at hw ⊢
  rcases release_cases _ _ _ _ _ h with ⟨_, h2⟩ | ⟨e, hf⟩
  · rw [h2]; exact hw
  · rcases release_found_cases _ _ _ _ _ hf with h1 | ⟨p, bcs, n2, em, _, _, hz, hnz, h2⟩
    · have h3 : r.emm_context = st := by rw [h1]
      rw [h3]; exact hw
    · have hctx : r.emm_context.esm_ctx = st.esm_ctx ∧
          r.emm_context.ue_context.bearer_contexts = bcs := by
        constructor
        · conv => lhs; rw [h2]
        · conv => lhs; rw [h2]
      rw [hctx.1, hctx.2]
      by_cases hbz : r.bid = 0
      · obtain ⟨G, _, hM⟩ := release_cascade_map _ _ _ _ _ (hz hbz)
        rw [hM, occupied_slots_map]
        exact hw
      · rw [(hnz hbz).1]
        exact hw

/-- C25 (evaluation at the failing input). On a fresh UE, which satisfies both
bounds, the creation and the release of EBI 5 leave the bearer in slot 0 with
the count of PDN 0 at 0 and n_active_ebrs at 1: both bounds hold. A second
release of EBI 5 finds the bearer again, returns 5 and leaves the count of
PDN 0 at -1: the bound n_bearers >= 0 is broken. -/
theorem release_twice_count_negative :
    ebr_counts_bounded BEARERS_PER_UE ue_fresh ∧
    (esm_ebr_context_create ue_fresh 1 0 5 true 9 0 0 0 0 none none).bind
        (fun c => (esm_ebr_context_release c.2 5 0 0).map (fun r => (c.1, r.ebi, r.emm_context)))
      = some (5, 5, ue_released_once) ∧
    ebr_counts_bounded BEARERS_PER_UE ue_released_once ∧
    (esm_ebr_context_release ue_released_once 5 0 0).map
        (fun r => (r.ebi, r.emm_context.esm_ctx.n_active_ebrs, pdn_bearer_counts r.emm_context,
                   decide (ebr_counts_bounded BEARERS_PER_UE r.emm_context)))
      = some (5, 1, [-1], false) := by
  refine ⟨by decide, by decide, by decide, by decide⟩

/-- C26. For a non-NULL argument `esm_ebr_context_init` leaves the status
ESM_EBR_INACTIVE, the timer id NAS_TIMER_INACTIVE_ID and every other field
zero: the four bitrates 0, the two blobs absent, the timer period 0. For a
NULL argument it does nothing. -/
theorem init_resets_every_field (x : esm_ebr_context_t) :
    (∃ y, esm_ebr_context_init (some x) = some y ∧
      y.status = ESM_EBR_INACTIVE ∧ y.timer.id = NAS_TIMER_INACTIVE_ID ∧ y.timer.sec = 0 ∧
      y.gbr_dl = 0 ∧ y.gbr_ul = 0 ∧ y.mbr_dl = 0 ∧ y.mbr_ul = 0 ∧
      y.tft = none ∧ y.pco = none) ∧
    esm_ebr_context_init none = none :=
  ⟨⟨esm_ebr_context_init_val, rfl, rfl, rfl, rfl, rfl, rfl, rfl, rfl, rfl, rfl⟩, rfl⟩

/-- C28 (evaluation at the failing input, and what holds). On a fresh UE, whose
PDN 0 records -1 at position 0 while slot 0 of the UE is empty, the release by
position with `*pid = 0` and `*bid = 0` reads `bearer_contexts[0]->ebi` through
a NULL pointer. For every state and every pid the call with `*bid = 0` either
stops in such a read or returns ESM_EBI_UNASSIGNED with the state as it was:
the cascade is never reached by position. -/
theorem release_by_position_slot0 (st : emm_data_context_t) (pid : Nat) :
    esm_ebr_context_release ue_fresh ESM_EBI_UNASSIGNED 0 0 = none ∧
    (esm_ebr_context_release st ESM_EBI_UNASSIGNED pid 0 = none ∨
     esm_ebr_context_release st ESM_EBI_UNASSIGNED pid 0 =
       some { ebi := ESM_EBI_UNASSIGNED, pid := pid, bid := 0, emm_context := st }) := by
  refine ⟨by decide, ?_⟩
  unfold esm_ebr_context_release
  simp only
  rw [if_neg (by simp)]
  by_cases hpid : pid < MAX_APN_PER_UE
  · rw [if_pos hpid]
    cases hp : arr_get MAX_APN_PER_UE st.ue_context.pdn_contexts pid with
    | none => exact Or.inl rfl
    | some o =>
      cases o with
      | none => exact Or.inr rfl
      | some p =>
        simp only
        cases hs : arr_get_int BEARERS_PER_UE p.bearer_contexts 0 with
        | none => exact Or.inl rfl
        | some slot =>
          simp only
          by_cases hz : slot ≠ 0
          · rw [if_pos hz]
            cases hb : arr_get_int BEARERS_PER_UE st.ue_context.bearer_contexts 0 with
            | none => exact Or.inl rfl
            | some o2 =>
              cases o2 with
              | none => exact Or.inl rfl
              | some bc =>
                right
                simp only
                unfold release_found
                simp only [hp, hs]
                rw [if_pos hz]
          · rw [if_neg hz]
            exact Or.inr rfl
  · rw [if_neg hpid]
    exact Or.inr rfl

/-- C29 (as amended). When `esm_ebr_context_create` returns ESM_EBI_UNASSIGNED
on a call that either creates a default bearer with an assigned identity or
creates a dedicated bearer on a PDN connection whose default_ebi is assigned,
the ESM context with n_active_ebrs, the n_bearers of every PDN connection and
every bearer context of the UE are the same as before the call. -/
theorem create_unassigned_changes_nothing (st : emm_data_context_t) (pti pid ebi : Nat)
    (is_default : Bool) (qci gbr_dl gbr_ul mbr_dl mbr_ul : Nat) (tft pco : Option Nat)
    (st1 : emm_data_context_t)
    (h : esm_ebr_context_create st pti pid ebi is_default qci gbr_dl gbr_ul mbr_dl mbr_ul tft pco
          = some (ESM_EBI_UNASSIGNED, st1))
    (hdef : is_default = true → ebi ≠ ESM_EBI_UNASSIGNED)
    (hded : is_default = false →
      ∀ p, arr_get MAX_APN_PER_UE st.ue_context.pdn_contexts pid = some (some p) →
        p.default_ebi ≠ ESM_EBI_UNASSIGNED) :
    st1.esm_ctx = st.esm_ctx ∧ pdn_counts st1 = pdn_counts st ∧
    ∀ i bc, arr_get BEARERS_PER_UE st.ue_context.bearer_contexts i = some (some bc) →
      arr_get BEARERS_PER_UE st1.ue_context.bearer_contexts i = some (some bc) := by
  rcases create_cases _ _ _ _ _ _ _ _ _ _ _ _ _ _ h with
    ⟨_, h2⟩ | ⟨p, idx, q1, b, hp, hfree, hq1, _, he, hpd, hbd⟩ |
    ⟨p, q1, q2, hp, _, _, _, hr, _, _⟩
  · rw [h2]
    exact ⟨rfl, rfl, fun _ _ hb => hb⟩
  · refine ⟨he, ?_, ?_⟩
    · unfold pdn_counts
      rw [hpd, List.map_set]
      apply list_set_same
      rw [List.getElem?_map, (arr_get_eq_some hp).2]
      simp [hq1]
    · intro i bc hb
      have hne : idx ≠ i := by
        intro hi
        rw [hi, hb] at hfree
        cases hfree
      rw [hbd, arr_get_set_ne hne]
      exact hb
  · exfalso
    cases hd : is_default with
    | true =>
      rw [hd] at hr
      simp only [if_true] at hr
      exact hdef hd hr.symm
    | false =>
      rw [hd] at hr
      simp only [Bool.false_eq_true, if_false] at hr
      exact hded hd p hp hr.symm

/-- C29 (instance). With the count n_active_ebrs above BEARERS_PER_UE the
creation of the default bearer EBI 5 returns ESM_EBI_UNASSIGNED and changes
nothing. -/
theorem create_unassigned_changes_nothing_witness :
    esm_ebr_context_create ue_count_above_max 1 0 5 true 9 0 0 0 0 none none
      = some (ESM_EBI_UNASSIGNED, ue_count_above_max) ∧
    ue_count_above_max.esm_ctx = ue_count_above_max.esm_ctx ∧
    pdn_counts ue_count_above_max = pdn_counts ue_count_above_max ∧
    ∀ i bc, arr_get BEARERS_PER_UE ue_count_above_max.ue_context.bearer_contexts i
        = some (some bc) →
      arr_get BEARERS_PER_UE ue_count_above_max.ue_context.bearer_contexts i = some (some bc) :=
  ⟨by decide,
   create_unassigned_changes_nothing ue_count_above_max 1 0 5 true 9 0 0 0 0 none none
     ue_count_above_max (by decide) (by decide) (fun hf => absurd hf (by decide))⟩

/-- C29 (counterexample). On a fresh UE, whose PDN 0 has no default bearer yet,
the creation of the dedicated bearer EBI 5 returns the default_ebi of the PDN
connection, which is ESM_EBI_UNASSIGNED, after it has filled slot 0 with the
bearer and its QoS and raised n_active_ebrs and the n_bearers of PDN 0 from 0
to 1. -/
theorem create_dedicated_without_default_returns_sentinel :
    ue_fresh.esm_ctx.n_active_ebrs = 0 ∧
    pdn_counts ue_fresh = [some 0, none, none, none, none] ∧
    arr_get BEARERS_PER_UE ue_fresh.ue_context.bearer_contexts 0 = some none ∧
    (esm_ebr_context_create ue_fresh 1 0 5 false 9 64 64 128 128 (some 1) (some 2)).map
        (fun c => (c.1, c.2.esm_ctx.n_active_ebrs, pdn_counts c.2,
                   arr_get BEARERS_PER_UE c.2.ue_context.bearer_contexts 0))
      = some (ESM_EBI_UNASSIGNED, 1, [some 1, none, none, none, none],
              some (some { ebi := 5, pdn_cx_id := 0, transaction_identifier := 1, qci := 9,
                           esm_ebr_context :=
                             { status := ESM_EBR_INACTIVE, gbr_dl := 64, gbr_ul := 64,
                               mbr_dl := 128, mbr_ul := 128, tft := some 1, pco := some 2,
                               timer := { id := NAS_TIMER_INACTIVE_ID, sec := 0 } } })) := by
  refine ⟨by decide, by decide, by decide, by decide⟩

/-- C30 (as amended). A release by identity whose target sits in slot 0 of the
UE's bearer array, under a PDN connection that records slot 0 and has a count
of at least 1. When the count is at most one more than the number of entries
at positions 1 and above that name a slot of the UE, each such slot occupied,
the cascade loop stops inside the PDN's array and the call returns with the
PDN count at 0. When the count is larger than that, the loop reads past the
end of the array. -/
theorem release_cascade_stays_in_array (st : emm_data_context_t) (ebi pid : Nat) (bid : Int)
    (b0 : bearer_context_t) (p : pdn_context_t)
    (hebi : ebi ≠ ESM_EBI_UNASSIGNED)
    (h0 : arr_get BEARERS_PER_UE st.ue_context.bearer_contexts 0 = some (some b0))
    (h0e : b0.ebi = ebi)
    (hp : arr_get MAX_APN_PER_UE st.ue_context.pdn_contexts b0.pdn_cx_id = some (some p))
    (hp0 : arr_get_int BEARERS_PER_UE p.bearer_contexts 0 = some 0)
    (hk : 1 ≤ p.esm_data.n_bearers) :
    ((∀ idx ∈ pdn_other_slots p,
        ∃ bc, arr_get_int BEARERS_PER_UE st.ue_context.bearer_contexts idx = some (some bc)) →
      p.esm_data.n_bearers - 1 ≤ ((pdn_other_slots p).length : Int) →
      ∃ r, esm_ebr_context_release st ebi pid bid = some r ∧ r.ebi = ebi ∧
        r.pid = b0.pdn_cx_id ∧ r.bid = 0 ∧
        ∃ p1, arr_get MAX_APN_PER_UE r.emm_context.ue_context.pdn_contexts b0.pdn_cx_id
                = some (some p1) ∧ p1.esm_data.n_bearers = 0) ∧
    (((pdn_other_slots p).length : Int) < p.esm_data.n_bearers - 1 →
      esm_ebr_context_release st ebi pid bid = none) := by
  constructor
  · intro hocc hn
    have hocc1 : ∀ idx ∈ (p.bearer_contexts.take BEARERS_PER_UE).drop 1, slot_in_range idx →
        ∃ bc, arr_get_int BEARERS_PER_UE st.ue_context.bearer_contexts idx = some (some bc) := by
      intro idx hi hv
      exact hocc idx (List.mem_filter.mpr ⟨hi, by simpa using hv⟩)
    obtain ⟨bcs1, hE⟩ := release_cascade_within _ _ _ hocc1 (by omega) hn
    have hdec : int_dec p.esm_data.n_bearers = p.esm_data.n_bearers - 1 :=
      int_dec_pos (by omega)
    have heq : esm_ebr_context_release st ebi pid bid =
        some { ebi := ebi, pid := b0.pdn_cx_id, bid := 0,
               emm_context :=
                 { st with
                     ue_context :=
                       { pdn_contexts := st.ue_context.pdn_contexts.set b0.pdn_cx_id
                           (some { p with esm_data := { n_bearers := 0, is_emergency := false } }),
                         bearer_contexts := bcs1 } } } := by
      unfold esm_ebr_context_release
      simp only [hebi, ne_eq, not_false_eq_true, if_true,
        release_scan_first _ _ _ h0 h0e, h0]
      unfold release_found
      simp only [hp, Nat.cast_zero, hp0, ne_eq, not_true_eq_false, if_false, if_true, hdec, hE]
    exact ⟨_, heq, rfl, rfl, rfl, _, arr_get_set_self hp, rfl⟩
  · intro hn
    have hO := release_cascade_overrun ((p.bearer_contexts.take BEARERS_PER_UE).drop 1)
      st.ue_context.bearer_contexts (p.esm_data.n_bearers - 1) hn
    have hdec : int_dec p.esm_data.n_bearers = p.esm_data.n_bearers - 1 :=
      int_dec_pos (by omega)
    unfold esm_ebr_context_release
    simp only [hebi, ne_eq, not_false_eq_true, if_true,
      release_scan_first _ _ _ h0 h0e, h0]
    unfold release_found
    simp only [hp, Nat.cast_zero, hp0, ne_eq, not_true_eq_false, if_false, if_true, hdec, hO]

/-- C30 (instance). With EBI 5, 6 and 7 recorded under PDN 0 and a count of 2
the release of EBI 5 returns with the count at 0; with EBI 5 and 6 recorded
and a count of 3 the loop runs past the end of the array. -/
theorem release_cascade_stays_in_array_witness :
    (∃ r, esm_ebr_context_release ue_count_behind 5 0 0 = some r ∧ r.ebi = 5 ∧
      r.pid = (bearer_of 5 0 ESM_EBR_ACTIVE).pdn_cx_id ∧ r.bid = 0 ∧
      ∃ p1, arr_get MAX_APN_PER_UE r.emm_context.ue_context.pdn_contexts
              (bearer_of 5 0 ESM_EBR_ACTIVE).pdn_cx_id = some (some p1) ∧
            p1.esm_data.n_bearers = 0) ∧
    esm_ebr_context_release ue_count_ahead 5 0 0 = none :=
  ⟨(release_cascade_stays_in_array ue_count_behind 5 0 0 (bearer_of 5 0 ESM_EBR_ACTIVE)
      { pdn_two_bearers with bearer_contexts := [0, 1, 2, -1, -1, -1, -1, -1, -1, -1, -1] }
      (by decide) (by decide) rfl (by decide) (by decide) (by decide)).1
      (by
        intro idx hi
        have h1 : pdn_other_slots
            { pdn_two_bearers with
                bearer_contexts := [0, 1, 2, -1, -1, -1, -1, -1, -1, -1, -1] } = [1, 2] := by
          decide
        rw [h1] at hi
        have h2 : idx = 1 ∨ idx = 2 := by simpa using hi
        rcases h2 with h3 | h3
        · subst h3
          exact ⟨bearer_of 6 0 ESM_EBR_ACTIVE, by decide⟩
        · subst h3
          exact ⟨bearer_of 7 0 ESM_EBR_ACTIVE, by decide⟩)
      (by decide),
   (release_cascade_stays_in_array ue_count_ahead 5 0 0 (bearer_of 5 0 ESM_EBR_ACTIVE)
      { pdn_two_bearers with esm_data := { n_bearers := 3, is_emergency := false } }
      (by decide) (by decide) rfl (by decide) (by decide) (by decide)).2 (by decide)⟩

/-- C30 (counterexample). In the two-bearer scenario with the count of PDN 0 at
3 the target EBI 5 sits in slot 0 and the count is at least 1, yet the release
does not return: after EBI 6 the count is still 1, no further entry names a
slot, and the loop reads past the end of the PDN's array. And with EBI 5, 6
and 7 recorded under a count of 2 the loop stops after EBI 6: bearer 7, whose
entry names slot 2, is neither decremented for nor set INACTIVE. -/
theorem release_cascade_leaves_array :
    arr_get BEARERS_PER_UE ue_count_ahead.ue_context.bearer_contexts 0
      = some (some (bearer_of 5 0 ESM_EBR_ACTIVE)) ∧
    pdn_counts ue_count_ahead = [some 3, none, none, none, none] ∧
    esm_ebr_context_release ue_count_ahead 5 0 0 = none ∧
    pdn_counts ue_count_behind = [some 2, none, none, none, none] ∧
    (esm_ebr_context_release ue_count_behind 5 0 0).map
        (fun r => (r.ebi, pdn_counts r.emm_context, bearer_statuses r.emm_context))
      = some (5, [some 0, none, none, none, none],
              [some (5, ESM_EBR_ACTIVE), some (6, ESM_EBR_INACTIVE), some (7, ESM_EBR_ACTIVE),
               none, none, none, none, none, none, none, none]) := by
  refine ⟨by decide, by decide, by decide, by decide, by decide⟩

end Esm

namespace MmeApi

theorem plmn_digits_match_iff (a b : plmn_t) : plmn_digits_match a b = true ↔ a = b := by
  cases a; cases b
  simp [plmn_digits_match, and_assoc]

theorem take_succ_set_self {α : Type} (l : List α) (j : Nat) (a : α) (h : j < l.length) :
    (l.set j a).take (j + 1) = l.take j ++ [a] := by
  rw [List.set_eq_take_append_cons_drop, if_pos h]
  have hl : (l.take j).length = j := by simp; omega
  rw [List.take_append_eq_append_take, hl]
  simp

/-- The first `j` entries of the output array after the TAI loop, the final
`j`, and the final `tac` and `consecutive_tacs`, in terms of the served entries
the loop visits. -/
theorem new_guti_scan_spec (served : List tai_t) (plmn : plmn_t) :
    ∀ (k i : Nat) (v v1 : tai_scan_t), new_guti_scan served plmn k i v = some v1 →
      v.j ≤ TAI_LIST_MAX_SIZE →
      v1.j ≤ TAI_LIST_MAX_SIZE ∧
      v1.tai.length = v.tai.length ∧
      v1.j = v.j + (((served.drop i).take k).filter (fun t => decide (t.plmn = plmn))).length ∧
      v1.tai.take v1.j = v.tai.take v.j ++
        (((served.drop i).take k).filter (fun t => decide (t.plmn = plmn))).map
          (fun t => { plmn := plmn, tac := t.tac }) ∧
      (v1.tac, v1.consecutive_tacs) =
        ((((served.drop i).take k).filter (fun t => decide (t.plmn = plmn))).map
          (fun t => t.tac)).foldl tac_run_step (v.tac, v.consecutive_tacs) := by
  intro k
  induction k with
  | zero =>
    intro i v v1 h hj
    simp only [new_guti_scan, Option.some.injEq] at h
    subst h
    simpa using hj
  | succ k ih =>
    intro i v v1 h hj
    unfold new_guti_scan at h
    cases hs : new_guti_scan_step served plmn i v with
    | none => rw [hs] at h; cases h
    | some v2 =>
      rw [hs] at h
      unfold new_guti_scan_step at hs
      cases hg : arr_get TAI_LIST_MAX_SIZE served i with
      | none => rw [hg] at hs; cases hs
      | some t =>
        rw [hg] at hs
        have hget : served[i]? = some t := by
          unfold arr_get at hg
          by_cases hi : i < TAI_LIST_MAX_SIZE
          · rw [if_pos hi] at hg; exact hg
          · rw [if_neg hi] at hg; cases hg
        have hdrop : (served.drop i).take (k + 1) = t :: (served.drop (i + 1)).take k := by
          have hlt : i < served.length := (List.getElem?_eq_some.mp hget).1
          have hti : served[i] = t := (List.getElem?_eq_some.mp hget).2
          rw [List.drop_eq_getElem_cons hlt, hti, List.take_succ_cons]
        simp only [] at hs
        by_cases hm : plmn_digits_match t.plmn plmn = true
        · have hmeq : t.plmn = plmn := (plmn_digits_match_iff _ _).mp hm
          rw [if_pos hm] at hs
          by_cases hw : v.j < TAI_LIST_MAX_SIZE ∧ v.j < v.tai.length
          · rw [if_pos hw] at hs
            have hv2 : v2.j = v.j + 1 ∧
                v2.tai = v.tai.set v.j { plmn := plmn, tac := t.tac } ∧
                (v2.tac, v2.consecutive_tacs) =
                  tac_run_step (v.tac, v.consecutive_tacs) t.tac := by
              unfold tac_run_step
              by_cases h1 : INVALID_TAC_FFFE = v.tac
              · rw [if_pos h1] at hs; cases hs; simp [h1]
              · rw [if_neg h1] at hs
                by_cases h2 : v.tac + 1 = t.tac
                · rw [if_pos h2] at hs; cases hs; simp [h1, h2]
                · rw [if_neg h2] at hs; cases hs; simp [h1, h2]
            obtain ⟨hj2, ht2, hr2⟩ := hv2
            have hj2le : v2.j ≤ TAI_LIST_MAX_SIZE := by omega
            obtain ⟨a1, a2, a3, a4, a5⟩ := ih (i + 1) v2 v1 h hj2le
            have hfil : ((served.drop i).take (k + 1)).filter (fun t => decide (t.plmn = plmn))
                = t :: ((served.drop (i + 1)).take k).filter
                    (fun t => decide (t.plmn = plmn)) := by
              rw [hdrop, List.filter_cons_of_pos (by simpa using hmeq)]
            refine ⟨a1, ?_, ?_, ?_, ?_⟩
            · rw [a2, ht2, List.length_set]
            · rw [a3, hfil, hj2, List.length_cons]; omega
            · rw [a4, hfil, hj2, ht2, List.map_cons, take_succ_set_self _ _ _ hw.2]
              simp
            · rw [a5, hfil, hr2, List.map_cons, List.foldl_cons]
          · rw [if_neg hw] at hs; cases hs
        · rw [if_neg hm] at hs
          cases hs
          have hmne : ¬ t.plmn = plmn := fun he => hm ((plmn_digits_match_iff _ _).mpr he)
          have hfil : ((served.drop i).take (k + 1)).filter (fun t => decide (t.plmn = plmn))
              = ((served.drop (i + 1)).take k).filter (fun t => decide (t.plmn = plmn)) := by
            rw [hdrop, List.filter_cons_of_neg (by simpa using hmne)]
          rw [hfil]
          exact ih (i + 1) v v1 h hj

/-- A call of `mme_api_new_guti` that returns RETURNok has run the TAI loop to
its end and filled the TAI list from the loop variables. -/
theorem new_guti_ok_scan (s : mme_state) (imsi : Nat) (guti : guti_t) (tai_list : tai_list_t)
    (r : new_guti_result) (h : mme_api_new_guti s imsi guti tai_list = some r)
    (hok : r.rc = RETURNok) :
    ∃ v, new_guti_scan s.conf.tai_list.tai s.conf.gummei.plmn s.conf.tai_list.n_tais 0
            { j := 0, tac := INVALID_TAC_FFFE, consecutive_tacs := true, tai := tai_list.tai }
          = some v ∧
      r.guti.gummei.plmn = s.conf.gummei.plmn ∧
      r.tai_list.n_tais = v.j ∧ r.tai_list.tai = v.tai ∧
      r.tai_list.list_type =
        (if v.consecutive_tacs then TRACKING_AREA_IDENTITY_LIST_ONE_PLMN_CONSECUTIVE_TACS
         else TRACKING_AREA_IDENTITY_LIST_ONE_PLMN_NON_CONSECUTIVE_TACS) := by
  have hne : RETURNerror ≠ RETURNok := by decide
  unfold mme_api_new_guti at h
  cases hk : mme_ue_context_exists_imsi s.mme_ue_contexts imsi with
  | none =>
    rw [hk] at h
    cases h
    exact absurd hok hne
  | some k =>
    rw [hk] at h
    cases hu : s.mme_ue_contexts[k]? with
    | none =>
      simp only [hu] at h
      cases h
      exact absurd hok hne
    | some ue_context =>
      simp only [hu] at h
      by_cases hm : (if s.run_mode_test then s.mme_m_tmsi_generator
                      else ue_context.addr % 2 ^ 32) = INVALID_M_TMSI
      · rw [if_pos hm] at h
        cases h
        exact absurd hok hne
      · rw [if_neg hm] at h
        cases hv : new_guti_scan s.conf.tai_list.tai s.conf.gummei.plmn s.conf.tai_list.n_tais 0
            { j := 0, tac := INVALID_TAC_FFFE, consecutive_tacs := true, tai := tai_list.tai } with
        | none => rw [hv] at h; cases h
        | some v =>
          rw [hv] at h
          cases h
          exact ⟨v, rfl, rfl, rfl, rfl, rfl⟩

/-- The loop variables at the end of the TAI loop of a successful call, in
terms of the selection of the specification. -/
theorem new_guti_scan_selected (conf : mme_api_emm_config_t) (out : List tai_t) (v : tai_scan_t)
    (h : new_guti_scan conf.tai_list.tai conf.gummei.plmn conf.tai_list.n_tais 0
          { j := 0, tac := INVALID_TAC_FFFE, consecutive_tacs := true, tai := out } = some v) :
    v.j ≤ TAI_LIST_MAX_SIZE ∧ v.j = (selected_tais conf).length ∧
    v.tai.take v.j =
      (selected_tais conf).map (fun t => { plmn := conf.gummei.plmn, tac := t.tac }) ∧
    (v.tac, v.consecutive_tacs) =
      (selected_codes conf).foldl tac_run_step (INVALID_TAC_FFFE, true) := by
  obtain ⟨a1, _, a3, a4, a5⟩ := new_guti_scan_spec _ _ _ _ _ _ h (Nat.zero_le _)
  simp only [List.drop_zero, Nat.zero_add, List.take_zero, List.nil_append] at a3 a4 a5
  exact ⟨a1, a3, a4, a5⟩

/-- C2. For every call of `mme_api_new_guti` that returns RETURNok, the TAI
list it returns has min(N, TAI_LIST_MAX_SIZE) entries, N being the number of
served TAIs of `_emm_data.conf.tai_list` whose PLMN digits equal those of the
GUMMEI; its codes are the selected codes in scan order, and every entry carries
the PLMN of the new GUTI. -/
theorem new_guti_tai_list_is_selection (s : mme_state) (imsi : Nat) (guti : guti_t)
    (tai_list : tai_list_t) (r : new_guti_result)
    (h : mme_api_new_guti s imsi guti tai_list = some r) (hok : r.rc = RETURNok) :
    r.tai_list.n_tais = min (selected_tais s.conf).length TAI_LIST_MAX_SIZE ∧
    (r.tai_list.tai.take r.tai_list.n_tais).map (fun t => t.tac) = selected_codes s.conf ∧
    ∀ t ∈ r.tai_list.tai.take r.tai_list.n_tais, t.plmn = r.guti.gummei.plmn := by
  obtain ⟨v, hv, hp, hn, ht, _⟩ := new_guti_ok_scan s imsi guti tai_list r h hok
  obtain ⟨b1, b2, b3, _⟩ := new_guti_scan_selected s.conf tai_list.tai v hv
  refine ⟨?_, ?_, ?_⟩
  · rw [hn, ← b2]; omega
  · rw [hn, ht, b3, List.map_map]; rfl
  · intro t hmem
    rw [hn, ht, b3] at hmem
    obtain ⟨t0, _, rfl⟩ := List.mem_map.mp hmem
    exact hp.symm

/-- C2 (instance). Served areas 10 (own PLMN), 11 (another PLMN) and 20 (own
PLMN): the list has the two codes 10 and 20. -/
theorem new_guti_tai_list_is_selection_witness :
    mme_api_new_guti (mme_with_served served_mixed) 1 guti_zero tai_list_zero
      = some (new_guti_result_of served_mixed 0 [10, 20]) ∧
    (new_guti_result_of served_mixed 0 [10, 20]).tai_list.n_tais =
      min (selected_tais (mme_with_served served_mixed).conf).length TAI_LIST_MAX_SIZE ∧
    ((new_guti_result_of served_mixed 0 [10, 20]).tai_list.tai.take
        (new_guti_result_of served_mixed 0 [10, 20]).tai_list.n_tais).map (fun t => t.tac)
      = selected_codes (mme_with_served served_mixed).conf ∧
    ∀ t ∈ (new_guti_result_of served_mixed 0 [10, 20]).tai_list.tai.take
        (new_guti_result_of served_mixed 0 [10, 20]).tai_list.n_tais,
      t.plmn = (new_guti_result_of served_mixed 0 [10, 20]).guti.gummei.plmn :=
  ⟨by decide,
   new_guti_tai_list_is_selection (mme_with_served served_mixed) 1 guti_zero tai_list_zero
     (new_guti_result_of served_mixed 0 [10, 20]) (by decide) (by decide)⟩

/-- Once the flag is false no later code sets it again. -/
theorem tac_run_flag_false (xs : List Nat) :
    ∀ (tac : Nat), (xs.foldl tac_run_step (tac, false)).2 = false := by
  induction xs with
  | nil => intro tac; rfl
  | cons x xs ih =>
    intro tac
    have hstep : tac_run_step (tac, false) x = ((tac_run_step (tac, false) x).1, false) := by
      unfold tac_run_step
      split_ifs <;> rfl
    rw [List.foldl_cons, hstep]
    exact ih _

/-- From a run that stands at code `tac`, over codes in ascending order within
the 16 bits of `tac_t` that hold the reserved code at most once: the flag ends
true exactly when it is true now and every further code is the one before it
plus one. -/
theorem tac_run_sorted (xs : List Nat) :
    ∀ (tac : Nat) (c : Bool), List.Chain (fun a b => a ≤ b) tac xs →
      (∀ y ∈ xs, y ≤ 0xFFFF) → (tac :: xs).count INVALID_TAC_FFFE ≤ 1 →
      ((xs.foldl tac_run_step (tac, c)).2 = true ↔
        c = true ∧ List.Chain (fun a b => b = a + 1) tac xs) := by
  induction xs with
  | nil => intro tac c _ _ _; simp
  | cons x xs ih =>
    intro tac c hs hr ho
    rw [List.chain_cons] at hs
    obtain ⟨hle, hs1⟩ := hs
    have hx : x ≤ 0xFFFF := hr x (List.mem_cons_self _ _)
    have hr1 : ∀ y ∈ xs, y ≤ 0xFFFF := fun y hy => hr y (List.mem_cons_of_mem _ hy)
    have ho1 : (x :: xs).count INVALID_TAC_FFFE ≤ 1 := by
      have hc := List.count_le_count_cons INVALID_TAC_FFFE tac (x :: xs)
      omega
    rw [List.foldl_cons, List.chain_cons]
    by_cases h1 : INVALID_TAC_FFFE = tac
    · have hstep : tac_run_step (tac, c) x = (x, c) := by
        simp [tac_run_step, h1]
      have hxne : x ≠ INVALID_TAC_FFFE := by
        intro hxe
        rw [← h1, hxe] at ho
        simp at ho
      have hx1 : x = tac + 1 := by
        unfold INVALID_TAC_FFFE at h1 hxne
        omega
      rw [hstep, ih x c hs1 hr1 ho1]
      simp [hx1]
    · by_cases h2 : tac + 1 = x
      · have hstep : tac_run_step (tac, c) x = (x, c) := by
          simp [tac_run_step, h1, h2]
        rw [hstep, ih x c hs1 hr1 ho1]
        simp [h2.symm]
      · have hstep : tac_run_step (tac, c) x = (tac, false) := by
          simp [tac_run_step, h1, h2]
        rw [hstep, tac_run_flag_false]
        simp only [Bool.false_eq_true, false_iff, not_and]
        intro _ h3
        exact absurd h3.symm h2

/-- The flag at the end of the TAI loop over codes in ascending order within
the 16 bits of `tac_t` that hold the reserved code at most once: true exactly
when each code after the first is the one before it plus one. -/
theorem tac_run_consecutive_sorted (codes : List Nat)
    (hs : List.Chain' (fun a b => a ≤ b) codes) (hr : ∀ c ∈ codes, c ≤ 0xFFFF)
    (ho : codes.count INVALID_TAC_FFFE ≤ 1) :
    (codes.foldl tac_run_step (INVALID_TAC_FFFE, true)).2 = true ↔
      List.Chain' (fun a b => b = a + 1) codes := by
  cases codes with
  | nil => simp
  | cons x xs =>
    rw [List.foldl_cons]
    have h0 : tac_run_step (INVALID_TAC_FFFE, true) x = (x, true) := by
      simp [tac_run_step]
    have hs1 : List.Chain (fun a b => a ≤ b) x xs := hs
    rw [h0, tac_run_sorted xs x true hs1 (fun y hy => hr y (List.mem_cons_of_mem _ hy)) ho]
    simp [List.Chain']

/-- C3 (as amended). For every call of `mme_api_new_guti` that returns RETURNok
on a snapshot whose selected codes are in ascending order, as the served list is
sorted, lie within the 16 bits of `tac_t` and hold the reserved code
INVALID_TAC_FFFE at most once, the list type is CONSECUTIVE_TACS if and only if
every selected code after the first equals the previously selected code plus
one, and NON_CONSECUTIVE_TACS if and only if there is a gap. -/
theorem new_guti_list_type_run (s : mme_state) (imsi : Nat) (guti : guti_t)
    (tai_list : tai_list_t) (r : new_guti_result)
    (h : mme_api_new_guti s imsi guti tai_list = some r) (hok : r.rc = RETURNok)
    (hsorted : List.Chain' (fun a b => a ≤ b) (selected_codes s.conf))
    (hrange : ∀ c ∈ selected_codes s.conf, c ≤ 0xFFFF)
    (honce : (selected_codes s.conf).count INVALID_TAC_FFFE ≤ 1) :
    (r.tai_list.list_type = TRACKING_AREA_IDENTITY_LIST_ONE_PLMN_CONSECUTIVE_TACS ↔
      List.Chain' (fun a b => b = a + 1) (selected_codes s.conf)) ∧
    (r.tai_list.list_type = TRACKING_AREA_IDENTITY_LIST_ONE_PLMN_NON_CONSECUTIVE_TACS ↔
      ¬ List.Chain' (fun a b => b = a + 1) (selected_codes s.conf)) := by
  obtain ⟨v, hv, _, _, _, hl⟩ := new_guti_ok_scan s imsi guti tai_list r h hok
  obtain ⟨_, _, _, b4⟩ := new_guti_scan_selected s.conf tai_list.tai v hv
  have hc : v.consecutive_tacs = true ↔
      List.Chain' (fun a b => b = a + 1) (selected_codes s.conf) := by
    rw [← tac_run_consecutive_sorted _ hsorted hrange honce, ← b4]
  have hne : TRACKING_AREA_IDENTITY_LIST_ONE_PLMN_NON_CONSECUTIVE_TACS ≠
      TRACKING_AREA_IDENTITY_LIST_ONE_PLMN_CONSECUTIVE_TACS := by decide
  rw [hl, ← hc]
  cases v.consecutive_tacs <;> simp [hne, Ne.symm hne]

/-- C3 (instance). Served areas 0xFFFD, 0xFFFE and 0xFFFF of the node's PLMN, a
run that passes through the reserved code: the tag is CONSECUTIVE_TACS. -/
theorem new_guti_list_type_run_witness :
    mme_api_new_guti (mme_with_served served_run_through_reserved) 1 guti_zero tai_list_zero
      = some (new_guti_result_of served_run_through_reserved 1 [0xFFFD, 0xFFFE, 0xFFFF]) ∧
    (new_guti_result_of served_run_through_reserved 1 [0xFFFD, 0xFFFE, 0xFFFF]).tai_list.list_type
      = TRACKING_AREA_IDENTITY_LIST_ONE_PLMN_CONSECUTIVE_TACS ∧
    ((new_guti_result_of served_run_through_reserved 1
          [0xFFFD, 0xFFFE, 0xFFFF]).tai_list.list_type
        = TRACKING_AREA_IDENTITY_LIST_ONE_PLMN_CONSECUTIVE_TACS ↔
      List.Chain' (fun a b => b = a + 1)
        (selected_codes (mme_with_served served_run_through_reserved).conf)) ∧
    ((new_guti_result_of served_run_through_reserved 1
          [0xFFFD, 0xFFFE, 0xFFFF]).tai_list.list_type
        = TRACKING_AREA_IDENTITY_LIST_ONE_PLMN_NON_CONSECUTIVE_TACS ↔
      ¬ List.Chain' (fun a b => b = a + 1)
        (selected_codes (mme_with_served served_run_through_reserved).conf)) :=
  ⟨by decide, by decide,
   new_guti_list_type_run (mme_with_served served_run_through_reserved) 1 guti_zero
     tai_list_zero (new_guti_result_of served_run_through_reserved 1 [0xFFFD, 0xFFFE, 0xFFFF])
     (by decide) (by decide)
     (by
       have hsel : selected_codes (mme_with_served served_run_through_reserved).conf
           = [0xFFFD, 0xFFFE, 0xFFFF] := by decide
       rw [hsel]
       simp [List.Chain'])
     (by decide) (by decide)⟩

/-- C3 (counterexample). With the served codes 0xFFFE and 0xFFFE of the node's
PLMN, a sorted list, the call returns RETURNok with both codes and the tag
CONSECUTIVE_TACS, although the second code is not the first plus one: the
first code leaves `tac` at the reserved value, and the second code is taken as
a new start of the run. -/
theorem new_guti_repeated_reserved_code_tagged_run :
    (mme_api_new_guti (mme_with_served served_reserved_twice) 1 guti_zero tai_list_zero).map
        (fun r => (r.rc, r.tai_list.list_type,
                   (r.tai_list.tai.take r.tai_list.n_tais).map (fun t => t.tac)))
      = some (RETURNok, TRACKING_AREA_IDENTITY_LIST_ONE_PLMN_CONSECUTIVE_TACS,
              [0xFFFE, 0xFFFE]) ∧
    selected_codes (mme_with_served served_reserved_twice).conf = [0xFFFE, 0xFFFE] ∧
    List.Chain' (fun a b => a ≤ b)
      (selected_codes (mme_with_served served_reserved_twice).conf) ∧
    ¬ List.Chain' (fun a b => b = a + 1)
        (selected_codes (mme_with_served served_reserved_twice).conf) := by
  have hsel : selected_codes (mme_with_served served_reserved_twice).conf = [0xFFFE, 0xFFFE] := by
    decide
  refine ⟨by decide, hsel, ?_, ?_⟩
  · rw [hsel, List.chain'_pair]
  · rw [hsel, List.chain'_pair]
    decide

theorem arr_get_eq_take {α : Type} (cap : Nat) (a : List α) (i : Nat) :
    arr_get cap a i = (a.take cap)[i]? := by
  unfold arr_get
  rw [List.getElem?_take]

/-- The presence loop answers true as soon as the code is among the entries it
is about to visit. -/
theorem add_tai_scan_mem (tai : List tai_t) (tac : Nat) :
    ∀ (k i : Nat),
      tac ∈ ((((tai.take TAI_LIST_MAX_SIZE).drop i).take k).map (fun t => t.tac)) →
      add_tai_scan tai tac k i = some true := by
  intro k
  induction k with
  | zero => intro i h; simp at h
  | succ k ih =>
    intro i h
    unfold add_tai_scan
    rw [arr_get_eq_take]
    cases hg : (tai.take TAI_LIST_MAX_SIZE)[i]? with
    | none =>
      have hle : (tai.take TAI_LIST_MAX_SIZE).length ≤ i := List.getElem?_eq_none_iff.mp hg
      rw [List.drop_eq_nil_of_le hle] at h
      simp at h
    | some t =>
      have hlt : i < (tai.take TAI_LIST_MAX_SIZE).length := (List.getElem?_eq_some.mp hg).1
      have hti : (tai.take TAI_LIST_MAX_SIZE)[i] = t := (List.getElem?_eq_some.mp hg).2
      rw [List.drop_eq_getElem_cons hlt, hti, List.take_succ_cons, List.map_cons,
        List.mem_cons] at h
      by_cases ht : t.tac = tac
      · simp [ht]
      · simp only [ht, if_false]
        rcases h with h | h
        · exact absurd h.symm ht
        · exact ih (i + 1) h

/-- A presence loop that ends with an answer has read inside the array, and
its answer is whether the code is among the entries it visited. -/
theorem add_tai_scan_some (tai : List tai_t) (tac : Nat) :
    ∀ (k i : Nat) (b : Bool), add_tai_scan tai tac k i = some b →
      (b = true ↔
        tac ∈ ((((tai.take TAI_LIST_MAX_SIZE).drop i).take k).map (fun t => t.tac))) ∧
      (b = false → (((tai.take TAI_LIST_MAX_SIZE).drop i).take k).length = k) := by
  intro k
  induction k with
  | zero =>
    intro i b h
    simp only [add_tai_scan, Option.some.injEq] at h
    subst h
    simp
  | succ k ih =>
    intro i b h
    unfold add_tai_scan at h
    rw [arr_get_eq_take] at h
    cases hg : (tai.take TAI_LIST_MAX_SIZE)[i]? with
    | none => rw [hg] at h; cases h
    | some t =>
      rw [hg] at h
      have hlt : i < (tai.take TAI_LIST_MAX_SIZE).length := (List.getElem?_eq_some.mp hg).1
      have hti : (tai.take TAI_LIST_MAX_SIZE)[i] = t := (List.getElem?_eq_some.mp hg).2
      rw [List.drop_eq_getElem_cons hlt, hti, List.take_succ_cons, List.map_cons,
        List.mem_cons, List.length_cons]
      by_cases ht : t.tac = tac
      · simp only [ht, if_true, Option.some.injEq] at h
        subst h
        simp [ht]
      · simp only [ht, if_false] at h
        obtain ⟨h1, h2⟩ := ih (i + 1) b h
        refine ⟨?_, ?_⟩
        · rw [h1]
          constructor
          · intro hm; exact Or.inr hm
          · intro hm
            rcases hm with hm | hm
            · exact absurd hm.symm ht
            · exact hm
        · intro hb
          rw [h2 hb]

/-- The outcome of the presence loop of `mme_api_add_tai` on a TAI list: true
when the code is among the entries, false when it is not and the count lies
inside the array, and a read outside the array otherwise. -/
theorem add_tai_scan_list (new_tai : tai_t) (tai_list : tai_list_t) :
    (new_tai.tac ∈ tai_list_codes tai_list →
      add_tai_scan tai_list.tai new_tai.tac tai_list.n_tais 0 = some true) ∧
    (∀ b, add_tai_scan tai_list.tai new_tai.tac tai_list.n_tais 0 = some b →
      (b = true ↔ new_tai.tac ∈ tai_list_codes tai_list) ∧
      (b = false → tai_list.n_tais ≤ TAI_LIST_MAX_SIZE ∧
        tai_list.n_tais ≤ tai_list.tai.length)) := by
  refine ⟨?_, ?_⟩
  · intro h
    apply add_tai_scan_mem
    simpa [tai_list_codes, tai_list_entries] using h
  · intro b hb
    obtain ⟨h1, h2⟩ := add_tai_scan_some _ _ _ _ _ hb
    refine ⟨?_, ?_⟩
    · rw [h1]; simp [tai_list_codes, tai_list_entries]
    · intro hf
      have hl := h2 hf
      simp only [List.drop_zero, List.length_take] at hl
      omega

/-- The presence loop on a TAI list whose count lies inside its array and does
not hold the code answers false. -/
theorem add_tai_scan_absent (new_tai : tai_t) (tai_list : tai_list_t)
    (hn : tai_list.n_tais ≤ TAI_LIST_MAX_SIZE) (hlen : tai_list.n_tais ≤ tai_list.tai.length)
    (hnot : new_tai.tac ∉ tai_list_codes tai_list) :
    add_tai_scan tai_list.tai new_tai.tac tai_list.n_tais 0 = some false := by
  have key : ∀ (k i : Nat), i + k ≤ (tai_list.tai.take TAI_LIST_MAX_SIZE).length →
      new_tai.tac ∉ ((((tai_list.tai.take TAI_LIST_MAX_SIZE).drop i).take k).map
        (fun t => t.tac)) →
      add_tai_scan tai_list.tai new_tai.tac k i = some false := by
    intro k
    induction k with
    | zero => intro i _ _; rfl
    | succ k ih =>
      intro i hb hm
      unfold add_tai_scan
      rw [arr_get_eq_take]
      have hlt : i < (tai_list.tai.take TAI_LIST_MAX_SIZE).length := by omega
      rw [List.drop_eq_getElem_cons hlt, List.take_succ_cons, List.map_cons,
        List.mem_cons, not_or] at hm
      rw [List.getElem?_eq_getElem hlt]
      simp only [Ne.symm hm.1, if_false]
      exact ih (i + 1) (by omega) hm.2
  apply key
  · simp only [List.length_take]; omega
  · simpa [tai_list_codes, tai_list_entries] using hnot

/-- The entries of a TAI list after one more entry is written at position
`n_tais` and the count is incremented. -/
theorem tai_list_entries_append (tai_list : tai_list_t) (t : tai_t)
    (hn : tai_list.n_tais < TAI_LIST_MAX_SIZE) (hlen : tai_list.n_tais < tai_list.tai.length) :
    tai_list_entries { list_type := tai_list.list_type, n_tais := tai_list.n_tais + 1,
                       tai := tai_list.tai.set tai_list.n_tais t }
      = tai_list_entries tai_list ++ [t] := by
  unfold tai_list_entries
  simp only [List.take_take]
  rw [Nat.min_eq_left (by omega), Nat.min_eq_left (by omega)]
  exact take_succ_set_self _ _ _ hlen

/-- The call of `mme_api_add_tai` that appends: the code is absent, the list is
not full and the code is not the reserved one. -/
theorem add_tai_append_eq (new_tai : tai_t) (tai_list : tai_list_t)
    (hn : tai_list.n_tais < TAI_LIST_MAX_SIZE) (hlen : tai_list.n_tais < tai_list.tai.length)
    (hnot : new_tai.tac ∉ tai_list_codes tai_list) (hv : new_tai.tac ≠ INVALID_TAC_FFFE) :
    mme_api_add_tai new_tai tai_list =
      some { rc := RETURNok,
             tai_list :=
               { list_type := tai_list.list_type, n_tais := tai_list.n_tais + 1,
                 tai := tai_list.tai.set tai_list.n_tais
                          { plmn := new_tai.plmn, tac := new_tai.tac } } } := by
  unfold mme_api_add_tai
  rw [add_tai_scan_absent new_tai tai_list (by omega) (by omega) hnot]
  simp only [if_true]
  rw [if_neg (by omega), if_neg (Ne.symm hv), if_pos ⟨hn, hlen⟩]

/-- Every call of `mme_api_add_tai` that returns falls in one of four cases:
the code is present (RETURNok, list as it was), the list is full or the code
reserved (RETURNerror, list as it was), or the entry is appended. -/
theorem add_tai_cases (new_tai : tai_t) (tai_list : tai_list_t) (r : add_tai_result)
    (h : mme_api_add_tai new_tai tai_list = some r) :
    (new_tai.tac ∈ tai_list_codes tai_list ∧ r = { rc := RETURNok, tai_list := tai_list }) ∨
    (new_tai.tac ∉ tai_list_codes tai_list ∧
      (tai_list.n_tais = TAI_LIST_MAX_SIZE ∨ new_tai.tac = INVALID_TAC_FFFE) ∧
      r = { rc := RETURNerror, tai_list := tai_list }) ∨
    (new_tai.tac ∉ tai_list_codes tai_list ∧ tai_list.n_tais < TAI_LIST_MAX_SIZE ∧
      tai_list.n_tais < tai_list.tai.length ∧ new_tai.tac ≠ INVALID_TAC_FFFE ∧
      r = { rc := RETURNok,
            tai_list :=
              { list_type := tai_list.list_type, n_tais := tai_list.n_tais + 1,
                tai := tai_list.tai.set tai_list.n_tais
                         { plmn := new_tai.plmn, tac := new_tai.tac } } }) := by
  unfold mme_api_add_tai at h
  cases hs : add_tai_scan tai_list.tai new_tai.tac tai_list.n_tais 0 with
  | none => rw [hs] at h; cases h
  | some b =>
    rw [hs] at h
    obtain ⟨hb1, hb2⟩ := (add_tai_scan_list new_tai tai_list).2 b hs
    cases b with
    | true =>
      simp only [Bool.true_eq_false, if_false, Option.some.injEq] at h
      exact Or.inl ⟨hb1.mp rfl, h.symm⟩
    | false =>
      have hnot : new_tai.tac ∉ tai_list_codes tai_list := fun hm => by
        have := hb1.mpr hm
        cases this
      simp only [if_true] at h
      by_cases hfull : tai_list.n_tais = TAI_LIST_MAX_SIZE
      · rw [if_pos hfull] at h
        exact Or.inr (Or.inl ⟨hnot, Or.inl hfull, (Option.some.inj h).symm⟩)
      · rw [if_neg hfull] at h
        by_cases hinv : INVALID_TAC_FFFE = new_tai.tac
        · rw [if_pos hinv] at h
          exact Or.inr (Or.inl ⟨hnot, Or.inr hinv.symm, (Option.some.inj h).symm⟩)
        · rw [if_neg hinv] at h
          by_cases hw : tai_list.n_tais < TAI_LIST_MAX_SIZE ∧
              tai_list.n_tais < tai_list.tai.length
          · rw [if_pos hw] at h
            exact Or.inr (Or.inr ⟨hnot, hw.1, hw.2, Ne.symm hinv, (Option.some.inj h).symm⟩)
          · rw [if_neg hw] at h; cases h

/-- C16. `mme_api_add_tai` is idempotent: for a code that is already among the
first n_tais entries the call returns RETURNok and leaves the count, the
entries, their order and the list type as they were; and for every list and
TAI, a second call with the same TAI returns and leaves the list that the
first call left. -/
theorem add_tai_idempotent (new_tai : tai_t) (tai_list : tai_list_t) :
    (new_tai.tac ∈ tai_list_codes tai_list →
      mme_api_add_tai new_tai tai_list = some { rc := RETURNok, tai_list := tai_list }) ∧
    (∀ r1, mme_api_add_tai new_tai tai_list = some r1 →
      ∃ r2, mme_api_add_tai new_tai r1.tai_list = some r2 ∧ r2.tai_list = r1.tai_list) := by
  have hpres : ∀ tl : tai_list_t, new_tai.tac ∈ tai_list_codes tl →
      mme_api_add_tai new_tai tl = some { rc := RETURNok, tai_list := tl } := by
    intro tl hm
    unfold mme_api_add_tai
    rw [(add_tai_scan_list new_tai tl).1 hm]
    simp
  refine ⟨hpres tai_list, ?_⟩
  intro r1 h1
  rcases add_tai_cases new_tai tai_list r1 h1 with ⟨hm, hr⟩ | ⟨_, _, hr⟩ | ⟨_, hn, hlen, _, hr⟩
  · subst hr
    exact ⟨_, hpres tai_list hm, rfl⟩
  · subst hr
    exact ⟨_, h1, rfl⟩
  · subst hr
    refine ⟨_, hpres _ ?_, rfl⟩
    unfold tai_list_codes
    rw [tai_list_entries_append tai_list _ hn hlen]
    simp

/-- C16 (instance). The code 8 is added to the list with codes 7 and 8: the
list is left as it was, by the first call and by the second. -/
theorem add_tai_idempotent_witness :
    mme_api_add_tai { plmn := plmn_a, tac := 8 } (tai_list_of 1 [7, 8])
      = some { rc := RETURNok, tai_list := tai_list_of 1 [7, 8] } ∧
    ∃ r2, mme_api_add_tai { plmn := plmn_a, tac := 8 } (tai_list_of 1 [7, 8]) = some r2 ∧
      r2.tai_list = tai_list_of 1 [7, 8] :=
  ⟨(add_tai_idempotent { plmn := plmn_a, tac := 8 } (tai_list_of 1 [7, 8])).1 (by decide),
   (add_tai_idempotent { plmn := plmn_a, tac := 8 } (tai_list_of 1 [7, 8])).2
     { rc := RETURNok, tai_list := tai_list_of 1 [7, 8] } (by decide)⟩

/-- C17. For a TAI list whose count is at most TAI_LIST_MAX_SIZE,
`mme_api_add_tai` returns, and it returns RETURNerror if and only if the code
is not among the entries and the list is full or the code is the reserved one:
a code that is present is accepted whatever the count and the code are. -/
theorem add_tai_error_iff (new_tai : tai_t) (tai_list : tai_list_t)
    (hn : tai_list.n_tais ≤ TAI_LIST_MAX_SIZE)
    (hlen : tai_list.tai.length = TAI_LIST_MAX_SIZE) :
    ∃ r, mme_api_add_tai new_tai tai_list = some r ∧
      (r.rc = RETURNerror ↔
        new_tai.tac ∉ tai_list_codes tai_list ∧
          (tai_list.n_tais = TAI_LIST_MAX_SIZE ∨ new_tai.tac = INVALID_TAC_FFFE)) := by
  have hne : RETURNok ≠ RETURNerror := by decide
  by_cases hm : new_tai.tac ∈ tai_list_codes tai_list
  · refine ⟨_, (add_tai_idempotent new_tai tai_list).1 hm, ?_⟩
    simp [hm, hne]
  · by_cases hfull : tai_list.n_tais = TAI_LIST_MAX_SIZE
    · refine ⟨{ rc := RETURNerror, tai_list := tai_list }, ?_, ?_⟩
      · unfold mme_api_add_tai
        rw [add_tai_scan_absent new_tai tai_list hn (by omega) hm]
        simp [hfull]
      · simp [hm, hfull]
    · by_cases hinv : new_tai.tac = INVALID_TAC_FFFE
      · refine ⟨{ rc := RETURNerror, tai_list := tai_list }, ?_, ?_⟩
        · unfold mme_api_add_tai
          rw [add_tai_scan_absent new_tai tai_list hn (by omega) hm]
          simp [hfull, hinv]
        · have hm2 : INVALID_TAC_FFFE ∉ tai_list_codes tai_list := hinv ▸ hm
          simp [hm2, hinv]
      · refine ⟨_, add_tai_append_eq new_tai tai_list (by omega) (by omega) hm hinv, ?_⟩
        simp [hm, hfull, hinv, hne]

/-- C17 (instance). A new code on a full list: the call returns RETURNerror. -/
theorem add_tai_error_iff_witness :
    ∃ r, mme_api_add_tai { plmn := plmn_a, tac := 20 } tai_list_full = some r ∧
      (r.rc = RETURNerror ↔
        (20 : Nat) ∉ tai_list_codes tai_list_full ∧
          (tai_list_full.n_tais = TAI_LIST_MAX_SIZE ∨ (20 : Nat) = INVALID_TAC_FFFE)) :=
  add_tai_error_iff { plmn := plmn_a, tac := 20 } tai_list_full (by decide) (by decide)

/-- C18. Whenever `mme_api_add_tai` returns RETURNerror the TAI list is as it
was: same count, same entries in the same order, same list type. -/
theorem add_tai_error_unchanged (new_tai : tai_t) (tai_list : tai_list_t) (r : add_tai_result)
    (h : mme_api_add_tai new_tai tai_list = some r) (he : r.rc = RETURNerror) :
    r.tai_list = tai_list := by
  have hne : RETURNok ≠ RETURNerror := by decide
  rcases add_tai_cases new_tai tai_list r h with ⟨_, hr⟩ | ⟨_, _, hr⟩ | ⟨_, _, _, _, hr⟩
  · subst hr; rfl
  · subst hr; rfl
  · subst hr; exact absurd he hne

/-- C18 (instance). The reserved code offered to the list with codes 7 and 8:
RETURNerror, and the list is as it was. -/
theorem add_tai_error_unchanged_witness :
    mme_api_add_tai { plmn := plmn_b, tac := INVALID_TAC_FFFE } (tai_list_of 1 [7, 8])
      = some { rc := RETURNerror, tai_list := tai_list_of 1 [7, 8] } ∧
    ({ rc := RETURNerror, tai_list := tai_list_of 1 [7, 8] } : add_tai_result).tai_list
      = tai_list_of 1 [7, 8] :=
  ⟨by decide,
   add_tai_error_unchanged { plmn := plmn_b, tac := INVALID_TAC_FFFE } (tai_list_of 1 [7, 8])
     { rc := RETURNerror, tai_list := tai_list_of 1 [7, 8] } (by decide) (by decide)⟩

/-- C19. For a TAI list with fewer than TAI_LIST_MAX_SIZE entries and a code
that is neither among them nor the reserved one, `mme_api_add_tai` returns
RETURNok, the count is one more, the entries are the old entries, in their
order, followed by one entry with the PLMN and the code of the new TAI, and the
list type is as it was. -/
theorem add_tai_appends (new_tai : tai_t) (tai_list : tai_list_t)
    (hn : tai_list.n_tais < TAI_LIST_MAX_SIZE)
    (hlen : tai_list.tai.length = TAI_LIST_MAX_SIZE)
    (hnot : new_tai.tac ∉ tai_list_codes tai_list) (hv : new_tai.tac ≠ INVALID_TAC_FFFE) :
    ∃ r, mme_api_add_tai new_tai tai_list = some r ∧ r.rc = RETURNok ∧
      r.tai_list.n_tais = tai_list.n_tais + 1 ∧
      tai_list_entries r.tai_list =
        tai_list_entries tai_list ++ [{ plmn := new_tai.plmn, tac := new_tai.tac }] ∧
      r.tai_list.list_type = tai_list.list_type := by
  refine ⟨_, add_tai_append_eq new_tai tai_list hn (by omega) hnot hv, rfl, rfl, ?_, rfl⟩
  exact tai_list_entries_append tai_list _ hn (by omega)

/-- C19 (instance). The code 20 of another PLMN is added to the consecutive
list with codes 7 and 8: three entries, the tag still says consecutive. -/
theorem add_tai_appends_witness :
    ∃ r, mme_api_add_tai { plmn := plmn_b, tac := 20 } (tai_list_of 1 [7, 8]) = some r ∧
      r.rc = RETURNok ∧
      r.tai_list.n_tais = (tai_list_of 1 [7, 8]).n_tais + 1 ∧
      tai_list_entries r.tai_list =
        tai_list_entries (tai_list_of 1 [7, 8]) ++ [{ plmn := plmn_b, tac := 20 }] ∧
      r.tai_list.list_type = (tai_list_of 1 [7, 8]).list_type :=
  add_tai_appends { plmn := plmn_b, tac := 20 } (tai_list_of 1 [7, 8])
    (by decide) (by decide) (by decide) (by decide)

/-- C20. `mme_api_add_tai` keeps the TAI-list invariant: on a list with at most
TAI_LIST_MAX_SIZE entries, no code twice and no reserved code, the call
returns, and the list it leaves has the same three properties, for every new
TAI and whichever code the call returns. -/
theorem add_tai_keeps_invariant (new_tai : tai_t) (tai_list : tai_list_t)
    (hlen : tai_list.tai.length = TAI_LIST_MAX_SIZE) (hinv : tai_list_invariant tai_list) :
    ∃ r, mme_api_add_tai new_tai tai_list = some r ∧ tai_list_invariant r.tai_list := by
  obtain ⟨r, hr, _⟩ := add_tai_error_iff new_tai tai_list hinv.1 hlen
  refine ⟨r, hr, ?_⟩
  rcases add_tai_cases new_tai tai_list r hr with ⟨_, he⟩ | ⟨_, _, he⟩ | ⟨hnot, hn, hl, hv, he⟩
  · subst he; exact hinv
  · subst he; exact hinv
  · subst he
    obtain ⟨_, h2, h3⟩ := hinv
    refine ⟨by show tai_list.n_tais + 1 ≤ TAI_LIST_MAX_SIZE; omega, ?_, ?_⟩
    · unfold tai_list_codes
      rw [tai_list_entries_append tai_list _ hn hl, List.map_append]
      refine List.Nodup.append h2 (List.nodup_singleton _) ?_
      intro c hc1 hc2
      rw [List.map_cons, List.map_nil, List.mem_singleton] at hc2
      exact hnot (hc2 ▸ hc1)
    · unfold tai_list_codes
      rw [tai_list_entries_append tai_list _ hn hl, List.map_append, List.mem_append, not_or]
      refine ⟨h3, ?_⟩
      simp only [List.map_cons, List.map_nil, List.mem_singleton]
      exact Ne.symm hv

/-- C20 (instance). The code 20 is added to the list with codes 7 and 8, which
has the invariant: so has the list the call leaves. -/
theorem add_tai_keeps_invariant_witness :
    ∃ r, mme_api_add_tai { plmn := plmn_b, tac := 20 } (tai_list_of 1 [7, 8]) = some r ∧
      tai_list_invariant r.tai_list :=
  add_tai_keeps_invariant { plmn := plmn_b, tac := 20 } (tai_list_of 1 [7, 8])
    (by decide) (by decide)

/-- A position that the lookup by IMSI returns holds a UE context with that
IMSI. -/
theorem exists_imsi_some (ues : List ue_context_t) (imsi k : Nat)
    (h : mme_ue_context_exists_imsi ues imsi = some k) :
    ∃ ue_context, ues[k]? = some ue_context ∧ ue_context.imsi = imsi := by
  unfold mme_ue_context_exists_imsi at h
  obtain ⟨hk, hp, _⟩ := List.findIdx?_eq_some_iff_getElem.mp h
  exact ⟨ues[k], List.getElem?_eq_getElem hk, by simpa using hp⟩

/-- The three ways in which a call of `mme_api_new_guti` returns: the IMSI is
not found; the UE context is found and the M-TMSI is the reserved value; the UE
context is found, the M-TMSI is not reserved and the TAI loop ran. -/
theorem new_guti_cases (s : mme_state) (imsi : Nat) (guti : guti_t) (tai_list : tai_list_t)
    (r : new_guti_result) (h : mme_api_new_guti s imsi guti tai_list = some r) :
    (mme_ue_context_exists_imsi s.mme_ue_contexts imsi = none ∧
      r = { rc := RETURNerror, guti := guti, tai_list := tai_list, state := s }) ∨
    (∃ k ue_context, mme_ue_context_exists_imsi s.mme_ue_contexts imsi = some k ∧
      s.mme_ue_contexts[k]? = some ue_context ∧
      new_guti_m_tmsi s ue_context = INVALID_M_TMSI ∧
      r = { rc := RETURNerror,
            guti := { gummei := s.conf.gummei, m_tmsi := new_guti_m_tmsi s ue_context },
            tai_list := tai_list,
            state :=
              { s with mme_m_tmsi_generator :=
                  if s.run_mode_test then (s.mme_m_tmsi_generator + 1) % 2 ^ 32
                  else s.mme_m_tmsi_generator } }) ∨
    (∃ k ue_context v, mme_ue_context_exists_imsi s.mme_ue_contexts imsi = some k ∧
      s.mme_ue_contexts[k]? = some ue_context ∧
      new_guti_m_tmsi s ue_context ≠ INVALID_M_TMSI ∧
      new_guti_scan s.conf.tai_list.tai s.conf.gummei.plmn s.conf.tai_list.n_tais 0
          { j := 0, tac := INVALID_TAC_FFFE, consecutive_tacs := true, tai := tai_list.tai }
        = some v ∧
      r = { rc := RETURNok,
            guti := { gummei := s.conf.gummei, m_tmsi := new_guti_m_tmsi s ue_context },
            tai_list :=
              { list_type :=
                  if v.consecutive_tacs then
                    TRACKING_AREA_IDENTITY_LIST_ONE_PLMN_CONSECUTIVE_TACS
                  else TRACKING_AREA_IDENTITY_LIST_ONE_PLMN_NON_CONSECUTIVE_TACS,
                n_tais := v.j, tai := v.tai },
            state :=
              { s with
                  mme_m_tmsi_generator :=
                    if s.run_mode_test then (s.mme_m_tmsi_generator + 1) % 2 ^ 32
                    else s.mme_m_tmsi_generator,
                  mme_ue_contexts :=
                    (mme_api_notify_new_guti s.mme_ue_contexts ue_context.mme_ue_s1ap_id
                      { gummei := s.conf.gummei,
                        m_tmsi := new_guti_m_tmsi s ue_context }).2 } }) := by
  unfold mme_api_new_guti at h
  cases hk : mme_ue_context_exists_imsi s.mme_ue_contexts imsi with
  | none =>
    rw [hk] at h
    exact Or.inl ⟨rfl, (Option.some.inj h).symm⟩
  | some k =>
    rw [hk] at h
    obtain ⟨ue_context, hu, _⟩ := exists_imsi_some _ _ _ hk
    simp only [hu] at h
    by_cases hm : new_guti_m_tmsi s ue_context = INVALID_M_TMSI
    · have hm1 : (if s.run_mode_test then s.mme_m_tmsi_generator
          else ue_context.addr % 2 ^ 32) = INVALID_M_TMSI := hm
      rw [if_pos hm1] at h
      exact Or.inr (Or.inl ⟨k, ue_context, rfl, hu, hm, (Option.some.inj h).symm⟩)
    · have hm1 : ¬ (if s.run_mode_test then s.mme_m_tmsi_generator
          else ue_context.addr % 2 ^ 32) = INVALID_M_TMSI := hm
      rw [if_neg hm1] at h
      cases hv : new_guti_scan s.conf.tai_list.tai s.conf.gummei.plmn s.conf.tai_list.n_tais 0
          { j := 0, tac := INVALID_TAC_FFFE, consecutive_tacs := true,
            tai := tai_list.tai } with
      | none => rw [hv] at h; cases h
      | some v =>
        rw [hv] at h
        exact Or.inr (Or.inr ⟨k, ue_context, v, rfl, hu, hm, rfl, (Option.some.inj h).symm⟩)

/-- C12. `mme_api_new_guti` returns RETURNerror when the IMSI resolves to no UE
context and when the generated M-TMSI is INVALID_M_TMSI, it returns RETURNerror
in no other case, and a call that returns RETURNok never yields a GUTI whose
m_tmsi is the reserved value. -/
theorem new_guti_error_iff (s : mme_state) (imsi : Nat) (guti : guti_t)
    (tai_list : tai_list_t) :
    ((mme_ue_context_exists_imsi s.mme_ue_contexts imsi = none ∨
        ∃ k ue_context, mme_ue_context_exists_imsi s.mme_ue_contexts imsi = some k ∧
          s.mme_ue_contexts[k]? = some ue_context ∧
          new_guti_m_tmsi s ue_context = INVALID_M_TMSI) →
      ∃ r, mme_api_new_guti s imsi guti tai_list = some r ∧ r.rc = RETURNerror) ∧
    (∀ r, mme_api_new_guti s imsi guti tai_list = some r →
      (r.rc = RETURNerror ↔
        (mme_ue_context_exists_imsi s.mme_ue_contexts imsi = none ∨
          ∃ k ue_context, mme_ue_context_exists_imsi s.mme_ue_contexts imsi = some k ∧
            s.mme_ue_contexts[k]? = some ue_context ∧
            new_guti_m_tmsi s ue_context = INVALID_M_TMSI)) ∧
      (r.rc = RETURNok → r.guti.m_tmsi ≠ INVALID_M_TMSI)) := by
  have hne : RETURNok ≠ RETURNerror := by decide
  refine ⟨?_, ?_⟩
  · intro hc
    rcases hc with hnone | ⟨k, ue_context, hk, hu, hm⟩
    · refine ⟨{ rc := RETURNerror, guti := guti, tai_list := tai_list, state := s }, ?_, rfl⟩
      unfold mme_api_new_guti
      rw [hnone]
    · have hm1 : (if s.run_mode_test then s.mme_m_tmsi_generator
          else ue_context.addr % 2 ^ 32) = INVALID_M_TMSI := hm
      refine ⟨{ rc := RETURNerror,
                guti := { gummei := { plmn := s.conf.gummei.plmn,
                                      mme_gid := s.conf.gummei.mme_gid,
                                      mme_code := s.conf.gummei.mme_code },
                          m_tmsi := if s.run_mode_test then s.mme_m_tmsi_generator
                                    else ue_context.addr % 2 ^ 32 },
                tai_list := tai_list,
                state :=
                  { s with mme_m_tmsi_generator :=
                      if s.run_mode_test then (s.mme_m_tmsi_generator + 1) % 2 ^ 32
                      else s.mme_m_tmsi_generator } }, ?_, rfl⟩
      unfold mme_api_new_guti
      rw [hk]
      simp only [hu]
      rw [if_pos hm1]
  · intro r h
    rcases new_guti_cases s imsi guti tai_list r h with
      ⟨hnone, hr⟩ | ⟨k, ue_context, hk, hu, hm, hr⟩ | ⟨k, ue_context, v, hk, hu, hm, _, hr⟩
    · subst hr
      exact ⟨⟨fun _ => Or.inl hnone, fun _ => rfl⟩, fun hc => absurd hc.symm hne⟩
    · subst hr
      exact ⟨⟨fun _ => Or.inr ⟨k, ue_context, hk, hu, hm⟩, fun _ => rfl⟩,
        fun hc => absurd hc.symm hne⟩
    · subst hr
      refine ⟨⟨fun hc => absurd hc hne, ?_⟩, fun _ => hm⟩
      intro hc
      rcases hc with hnone | ⟨k2, ue2, hk2, hu2, hm2⟩
      · rw [hnone] at hk; cases hk
      · rw [hk2] at hk
        cases hk
        rw [hu2] at hu
        cases hu
        exact absurd hm2 hm

/-- C12 (instance). The generator stands at the reserved value: the call
returns RETURNerror. -/
theorem new_guti_error_iff_witness :
    ∃ r, mme_api_new_guti mme_at_sentinel 1 guti_zero tai_list_zero = some r ∧
      r.rc = RETURNerror :=
  (new_guti_error_iff mme_at_sentinel 1 guti_zero tai_list_zero).1
    (Or.inr ⟨0, { addr := 4096, mme_ue_s1ap_id := 7, imsi := 1, is_guti_set := false,
                  guti := guti_zero }, by decide, by decide, by decide⟩)

/-- In a store with unique ids the lookup by the id of a stored UE context
returns the position of that context. -/
theorem exists_id_of_unique (ues : List ue_context_t) (k : Nat) (ue_context : ue_context_t)
    (hu : ues[k]? = some ue_context) (huniq : store_ids_unique ues) :
    mme_ue_context_exists_mme_ue_s1ap_id ues ue_context.mme_ue_s1ap_id = some k := by
  unfold mme_ue_context_exists_mme_ue_s1ap_id
  obtain ⟨hk, hget⟩ := List.getElem?_eq_some.mp hu
  rw [List.findIdx?_eq_some_iff_getElem]
  refine ⟨hk, by simp [hget], ?_⟩
  intro j hj
  simp only [decide_eq_true_eq]
  intro hid
  unfold store_ids_unique at huniq
  have hjl : j < (ues.map (fun u => u.mme_ue_s1ap_id)).length := by
    rw [List.length_map]; omega
  have hkl : k < (ues.map (fun u => u.mme_ue_s1ap_id)).length := by
    rw [List.length_map]; exact hk
  have heq : (ues.map (fun u => u.mme_ue_s1ap_id))[j] =
      (ues.map (fun u => u.mme_ue_s1ap_id))[k] := by
    rw [List.getElem_map, List.getElem_map, hget]; exact hid
  have := (List.Nodup.getElem_inj_iff huniq).mp heq
  omega

/-- C13. For every call of `mme_api_new_guti` on a store with unique ids: if it
returns RETURNok, the UE context found for the IMSI has is_guti_set true and
holds exactly the GUTI returned to the caller; if it returns RETURNerror, every
UE context of the store, its GUTI and its is_guti_set flag, is as it was. -/
theorem new_guti_rekeys_found_context (s : mme_state) (imsi : Nat) (guti : guti_t)
    (tai_list : tai_list_t) (r : new_guti_result)
    (h : mme_api_new_guti s imsi guti tai_list = some r)
    (huniq : store_ids_unique s.mme_ue_contexts) :
    (r.rc = RETURNok →
      ∃ k ue_context ue1, mme_ue_context_exists_imsi s.mme_ue_contexts imsi = some k ∧
        s.mme_ue_contexts[k]? = some ue_context ∧
        r.state.mme_ue_contexts[k]? = some ue1 ∧
        ue1.is_guti_set = true ∧ ue1.guti = r.guti ∧
        ue1.imsi = ue_context.imsi ∧ ue1.mme_ue_s1ap_id = ue_context.mme_ue_s1ap_id) ∧
    (r.rc = RETURNerror → r.state.mme_ue_contexts = s.mme_ue_contexts) := by
  have hne : RETURNok ≠ RETURNerror := by decide
  rcases new_guti_cases s imsi guti tai_list r h with
    ⟨_, hr⟩ | ⟨k, ue_context, _, _, _, hr⟩ | ⟨k, ue_context, v, hk, hu, _, _, hr⟩
  · subst hr
    exact ⟨fun hc => absurd hc.symm hne, fun _ => rfl⟩
  · subst hr
    exact ⟨fun hc => absurd hc.symm hne, fun _ => rfl⟩
  · subst hr
    refine ⟨fun _ => ?_, fun hc => absurd hc hne⟩
    refine ⟨k, ue_context,
      mme_ue_context_update_coll_keys { ue_context with is_guti_set := true }
        { gummei := s.conf.gummei, m_tmsi := new_guti_m_tmsi s ue_context },
      hk, hu, ?_, rfl, rfl, rfl, rfl⟩
    show (mme_api_notify_new_guti s.mme_ue_contexts ue_context.mme_ue_s1ap_id _).2[k]? = _
    unfold mme_api_notify_new_guti
    rw [exists_id_of_unique _ _ _ hu huniq]
    simp only [hu]
    rw [List.getElem?_set_self (List.getElem?_eq_some.mp hu).1]

/-- C13 (instance). The first call on the example node: the context of IMSI 1
holds the issued GUTI afterwards. -/
theorem new_guti_rekeys_found_context_witness :
    mme_api_new_guti (mme_with_served served_run) 1 guti_zero tai_list_zero
      = some (new_guti_result_of served_run 1 [7, 8, 9]) ∧
    ((new_guti_result_of served_run 1 [7, 8, 9]).rc = RETURNok →
      ∃ k ue_context ue1,
        mme_ue_context_exists_imsi (mme_with_served served_run).mme_ue_contexts 1 = some k ∧
        (mme_with_served served_run).mme_ue_contexts[k]? = some ue_context ∧
        (new_guti_result_of served_run 1 [7, 8, 9]).state.mme_ue_contexts[k]? = some ue1 ∧
        ue1.is_guti_set = true ∧ ue1.guti = (new_guti_result_of served_run 1 [7, 8, 9]).guti ∧
        ue1.imsi = ue_context.imsi ∧ ue1.mme_ue_s1ap_id = ue_context.mme_ue_s1ap_id) ∧
    ((new_guti_result_of served_run 1 [7, 8, 9]).rc = RETURNerror →
      (new_guti_result_of served_run 1 [7, 8, 9]).state.mme_ue_contexts
        = (mme_with_served served_run).mme_ue_contexts) :=
  ⟨by decide,
   new_guti_rekeys_found_context (mme_with_served served_run) 1 guti_zero tai_list_zero
     (new_guti_result_of served_run 1 [7, 8, 9]) (by decide) (by decide)⟩

/-- C14. For every call of `mme_api_new_guti` that returns RETURNok, the MME
group id, the MME code and the six PLMN digits of the returned GUTI equal,
field by field, those of `_emm_data.conf.gummei`. -/
theorem new_guti_copies_gummei (s : mme_state) (imsi : Nat) (guti : guti_t)
    (tai_list : tai_list_t) (r : new_guti_result)
    (h : mme_api_new_guti s imsi guti tai_list = some r) (hok : r.rc = RETURNok) :
    r.guti.gummei.mme_gid = s.conf.gummei.mme_gid ∧
    r.guti.gummei.mme_code = s.conf.gummei.mme_code ∧
    r.guti.gummei.plmn.mcc_digit1 = s.conf.gummei.plmn.mcc_digit1 ∧
    r.guti.gummei.plmn.mcc_digit2 = s.conf.gummei.plmn.mcc_digit2 ∧
    r.guti.gummei.plmn.mcc_digit3 = s.conf.gummei.plmn.mcc_digit3 ∧
    r.guti.gummei.plmn.mnc_digit1 = s.conf.gummei.plmn.mnc_digit1 ∧
    r.guti.gummei.plmn.mnc_digit2 = s.conf.gummei.plmn.mnc_digit2 ∧
    r.guti.gummei.plmn.mnc_digit3 = s.conf.gummei.plmn.mnc_digit3 := by
  have hne : RETURNerror ≠ RETURNok := by decide
  rcases new_guti_cases s imsi guti tai_list r h with
    ⟨_, hr⟩ | ⟨_, _, _, _, _, hr⟩ | ⟨_, _, _, _, _, _, _, hr⟩
  · subst hr; exact absurd hok hne
  · subst hr; exact absurd hok hne
  · subst hr; exact ⟨rfl, rfl, rfl, rfl, rfl, rfl, rfl, rfl⟩

/-- C14 (instance). The first call on the example node returns the GUMMEI of
the node. -/
theorem new_guti_copies_gummei_witness :
    mme_api_new_guti (mme_with_served served_mixed) 1 guti_zero tai_list_zero
      = some (new_guti_result_of served_mixed 0 [10, 20]) ∧
    (new_guti_result_of served_mixed 0 [10, 20]).guti.gummei.mme_gid
      = (mme_with_served served_mixed).conf.gummei.mme_gid ∧
    (new_guti_result_of served_mixed 0 [10, 20]).guti.gummei.mme_code
      = (mme_with_served served_mixed).conf.gummei.mme_code ∧
    (new_guti_result_of served_mixed 0 [10, 20]).guti.gummei.plmn.mcc_digit1
      = (mme_with_served served_mixed).conf.gummei.plmn.mcc_digit1 ∧
    (new_guti_result_of served_mixed 0 [10, 20]).guti.gummei.plmn.mcc_digit2
      = (mme_with_served served_mixed).conf.gummei.plmn.mcc_digit2 ∧
    (new_guti_result_of served_mixed 0 [10, 20]).guti.gummei.plmn.mcc_digit3
      = (mme_with_served served_mixed).conf.gummei.plmn.mcc_digit3 ∧
    (new_guti_result_of served_mixed 0 [10, 20]).guti.gummei.plmn.mnc_digit1
      = (mme_with_served served_mixed).conf.gummei.plmn.mnc_digit1 ∧
    (new_guti_result_of served_mixed 0 [10, 20]).guti.gummei.plmn.mnc_digit2
      = (mme_with_served served_mixed).conf.gummei.plmn.mnc_digit2 ∧
    (new_guti_result_of served_mixed 0 [10, 20]).guti.gummei.plmn.mnc_digit3
      = (mme_with_served served_mixed).conf.gummei.plmn.mnc_digit3 :=
  ⟨by decide,
   new_guti_copies_gummei (mme_with_served served_mixed) 1 guti_zero tai_list_zero
     (new_guti_result_of served_mixed 0 [10, 20]) (by decide) (by decide)⟩

theorem set_same {α : Type} (l : List α) (k : Nat) (x : α) (h : l[k]? = some x) :
    l.set k x = l := by
  apply List.ext_getElem?
  intro i
  by_cases hik : k = i
  · subst hik
    rw [List.getElem?_set_self (List.getElem?_eq_some.mp h).1, h]
  · rw [List.getElem?_set_ne hik]

/-- The notification of a new GUTI leaves the IMSI of every UE context of the
store as it was. -/
theorem notify_new_guti_imsis (ues : List ue_context_t) (id : Nat) (guti : guti_t) :
    (mme_api_notify_new_guti ues id guti).2.map (fun u => u.imsi)
      = ues.map (fun u => u.imsi) := by
  unfold mme_api_notify_new_guti
  cases hk : mme_ue_context_exists_mme_ue_s1ap_id ues id with
  | none => rfl
  | some k =>
    simp only []
    cases hu : ues[k]? with
    | none => rfl
    | some ue_context =>
      simp only [List.map_set, mme_ue_context_update_coll_keys]
      apply set_same
      rw [List.getElem?_map, hu]
      rfl

/-- A call of `mme_api_new_guti` leaves the result of every lookup by IMSI as
it was. -/
theorem new_guti_keeps_lookup (s : mme_state) (imsi : Nat) (guti : guti_t)
    (tai_list : tai_list_t) (r : new_guti_result)
    (h : mme_api_new_guti s imsi guti tai_list = some r) (imsi1 : Nat) :
    mme_ue_context_exists_imsi r.state.mme_ue_contexts imsi1
      = mme_ue_context_exists_imsi s.mme_ue_contexts imsi1 := by
  have key : r.state.mme_ue_contexts.map (fun u => u.imsi)
      = s.mme_ue_contexts.map (fun u => u.imsi) := by
    rcases new_guti_cases s imsi guti tai_list r h with
      ⟨_, hr⟩ | ⟨_, _, _, _, _, hr⟩ | ⟨_, _, _, _, _, _, _, hr⟩
    · subst hr; rfl
    · subst hr; rfl
    · subst hr; exact notify_new_guti_imsis _ _ _
  have hmap : ∀ ues : List ue_context_t, mme_ue_context_exists_imsi ues imsi1
      = (ues.map (fun u => u.imsi)).findIdx? (fun i => decide (i = imsi1)) := by
    intro ues
    unfold mme_ue_context_exists_imsi
    rw [List.findIdx?_map]
    rfl
  rw [hmap, hmap, key]

/-- One call of `mme_api_new_guti` in test mode: a call that finds its UE
context hands out the current value of the generator and increments the
generator by one modulo 2^32, whether it then returns RETURNok or fails on the
reserved value; a call that does not find its UE context leaves the globals as
they were. -/
theorem new_guti_test_mode_step (s : mme_state) (imsi : Nat) (guti : guti_t)
    (tai_list : tai_list_t) (r : new_guti_result)
    (htest : s.run_mode_test = true)
    (h : mme_api_new_guti s imsi guti tai_list = some r) :
    r.state.run_mode_test = true ∧
    ((mme_ue_context_exists_imsi s.mme_ue_contexts imsi).isSome = true →
      r.guti.m_tmsi = s.mme_m_tmsi_generator ∧
      r.state.mme_m_tmsi_generator = (s.mme_m_tmsi_generator + 1) % 2 ^ 32 ∧
      (r.rc = RETURNok ↔ s.mme_m_tmsi_generator ≠ INVALID_M_TMSI)) ∧
    ((mme_ue_context_exists_imsi s.mme_ue_contexts imsi).isSome = false → r.state = s) := by
  have hne : RETURNerror ≠ RETURNok := by decide
  have hm : ∀ ue_context, new_guti_m_tmsi s ue_context = s.mme_m_tmsi_generator := by
    intro ue_context
    simp [new_guti_m_tmsi, htest]
  rcases new_guti_cases s imsi guti tai_list r h with
    ⟨hnone, hr⟩ | ⟨k, ue_context, hk, _, hinv, hr⟩ | ⟨k, ue_context, v, hk, _, hinv, _, hr⟩
  · subst hr
    refine ⟨htest, ?_, fun _ => rfl⟩
    intro hc
    rw [hnone] at hc
    cases hc
  · subst hr
    rw [hm] at hinv
    refine ⟨htest, ?_, ?_⟩
    · intro _
      refine ⟨hm _, by simp [htest], ?_⟩
      exact ⟨fun hc => absurd hc hne, fun hc => absurd hinv hc⟩
    · intro hc
      rw [hk] at hc
      cases hc
  · subst hr
    rw [hm] at hinv
    refine ⟨htest, ?_, ?_⟩
    · intro _
      exact ⟨hm _, by simp [htest], ⟨fun _ => hinv, fun _ => rfl⟩⟩
    · intro hc
      rw [hk] at hc
      cases hc

/-- Along a sequence of calls in test mode that starts with the generator at
`g`, the call number `j` (from 0) among those that find their UE context hands
out `g + j` modulo 2^32. -/
theorem new_guti_calls_m_tmsi (calls : List (Nat × guti_t × tai_list_t)) :
    ∀ (s : mme_state) (results : List new_guti_result) (g : Nat),
      s.run_mode_test = true → s.mme_m_tmsi_generator = g → g < 2 ^ 32 →
      new_guti_calls s calls = some results →
      ∀ j c r, (new_guti_calls_found s calls results)[j]? = some (c, r) →
        r.guti.m_tmsi = (g + j) % 2 ^ 32 ∧
        (r.rc = RETURNok ↔ (g + j) % 2 ^ 32 ≠ INVALID_M_TMSI) := by
  induction calls with
  | nil =>
    intro s results g _ _ _ hrun j c r hj
    simp [new_guti_calls_found] at hj
  | cons c0 cs ih =>
    intro s results g htest hgen hg hrun j c r hj
    unfold new_guti_calls at hrun
    cases h0 : mme_api_new_guti s c0.1 c0.2.1 c0.2.2 with
    | none => rw [h0] at hrun; cases hrun
    | some r0 =>
      rw [h0] at hrun
      cases hrs : new_guti_calls r0.state cs with
      | none => simp only [hrs] at hrun; cases hrun
      | some rs =>
        simp only [hrs, Option.some.injEq] at hrun
        subst hrun
        obtain ⟨ht1, hfound, hnot⟩ := new_guti_test_mode_step s c0.1 c0.2.1 c0.2.2 r0 htest h0
        have hsame : new_guti_calls_found s cs rs = new_guti_calls_found r0.state cs rs := by
          unfold new_guti_calls_found
          congr 1
          funext cr
          rw [new_guti_keeps_lookup s c0.1 c0.2.1 c0.2.2 r0 h0]
        unfold new_guti_calls_found at hj
        rw [List.zip_cons_cons, List.filter_cons] at hj
        by_cases hf : (mme_ue_context_exists_imsi s.mme_ue_contexts c0.1).isSome = true
        · obtain ⟨hm0, hg1, hrc0⟩ := hfound hf
          rw [if_pos hf] at hj
          cases j with
          | zero =>
            simp only [List.getElem?_cons_zero, Option.some.injEq, Prod.mk.injEq] at hj
            obtain ⟨_, hr⟩ := hj
            subst hr
            rw [Nat.add_zero, Nat.mod_eq_of_lt hg, hm0, hgen]
            rw [hgen] at hrc0
            exact ⟨rfl, hrc0⟩
          | succ j =>
            rw [List.getElem?_cons_succ] at hj
            have hj1 : (new_guti_calls_found r0.state cs rs)[j]? = some (c, r) := by
              rw [← hsame]; exact hj
            have hlt : (g + 1) % 2 ^ 32 < 2 ^ 32 := Nat.mod_lt _ (by decide)
            have := ih r0.state rs ((g + 1) % 2 ^ 32) ht1 (by rw [hg1, hgen]) hlt hrs j c r hj1
            have harith : ((g + 1) % 2 ^ 32 + j) % 2 ^ 32 = (g + (j + 1)) % 2 ^ 32 := by
              omega
            rw [harith] at this
            exact this
        · have hf1 : (mme_ue_context_exists_imsi s.mme_ue_contexts c0.1).isSome = false := by
            simpa using hf
          rw [if_neg hf] at hj
          have hst := hnot hf1
          have hj1 : (new_guti_calls_found r0.state cs rs)[j]? = some (c, r) := by
            rw [← hsame]; exact hj
          exact ih r0.state rs g ht1 (by rw [hst]; exact hgen) hg hrs j c r hj1

/-- C15. In test run mode, along any sequence of calls of `mme_api_new_guti`
that starts with the generator at its initial value 1, the k-th call that finds
its UE context generates m_tmsi = k and returns RETURNok, for every k from 1 to
2^32 - 2, so the M-TMSIs of two different such calls differ; and every call
that finds its UE context takes the current value of the generator and
increments it by one modulo 2^32, also when it fails on the reserved value. -/
theorem test_mode_m_tmsi_is_call_number (s : mme_state)
    (calls : List (Nat × guti_t × tai_list_t)) (results : List new_guti_result)
    (htest : s.run_mode_test = true)
    (hgen : s.mme_m_tmsi_generator = mme_m_tmsi_generator_init)
    (hrun : new_guti_calls s calls = some results) :
    (∀ k c r, 1 ≤ k → k ≤ 2 ^ 32 - 2 →
      (new_guti_calls_found s calls results)[k - 1]? = some (c, r) →
      r.guti.m_tmsi = k ∧ r.rc = RETURNok) ∧
    (∀ k1 k2 c1 c2 r1 r2, 1 ≤ k1 → k1 ≤ 2 ^ 32 - 2 → 1 ≤ k2 → k2 ≤ 2 ^ 32 - 2 → k1 ≠ k2 →
      (new_guti_calls_found s calls results)[k1 - 1]? = some (c1, r1) →
      (new_guti_calls_found s calls results)[k2 - 1]? = some (c2, r2) →
      r1.guti.m_tmsi ≠ r2.guti.m_tmsi) ∧
    (∀ (s1 : mme_state) (imsi : Nat) (guti : guti_t) (tai_list : tai_list_t)
        (r : new_guti_result), s1.run_mode_test = true →
      (mme_ue_context_exists_imsi s1.mme_ue_contexts imsi).isSome = true →
      mme_api_new_guti s1 imsi guti tai_list = some r →
      r.guti.m_tmsi = s1.mme_m_tmsi_generator ∧
      r.state.mme_m_tmsi_generator = (s1.mme_m_tmsi_generator + 1) % 2 ^ 32) := by
  have hfirst : ∀ k c r, 1 ≤ k → k ≤ 2 ^ 32 - 2 →
      (new_guti_calls_found s calls results)[k - 1]? = some (c, r) →
      r.guti.m_tmsi = k ∧ r.rc = RETURNok := by
    intro k c r hk1 hk2 hj
    have hg : mme_m_tmsi_generator_init < 2 ^ 32 := by decide
    obtain ⟨h1, h2⟩ := new_guti_calls_m_tmsi calls s results mme_m_tmsi_generator_init htest
      hgen hg hrun (k - 1) c r hj
    have harith : (mme_m_tmsi_generator_init + (k - 1)) % 2 ^ 32 = k := by
      unfold mme_m_tmsi_generator_init
      omega
    rw [harith] at h1 h2
    refine ⟨h1, h2.mpr ?_⟩
    unfold INVALID_M_TMSI
    omega
  refine ⟨hfirst, ?_, ?_⟩
  · intro k1 k2 c1 c2 r1 r2 ha1 ha2 hb1 hb2 hne h1 h2
    rw [(hfirst k1 c1 r1 ha1 ha2 h1).1, (hfirst k2 c2 r2 hb1 hb2 h2).1]
    exact hne
  · intro s1 imsi guti tai_list r ht hf hr
    obtain ⟨_, hfound, _⟩ := new_guti_test_mode_step s1 imsi guti tai_list r ht hr
    exact ⟨(hfound hf).1, (hfound hf).2.1⟩

/-- C15 (instance). Three calls on the example node, the second for an unknown
IMSI: the second call that finds its UE context, the third of the sequence, is
handed M-TMSI 2. -/
theorem test_mode_m_tmsi_is_call_number_witness :
    new_guti_calls (mme_with_served served_run) calls_three = some results_three ∧
    (new_guti_calls_found (mme_with_served served_run) calls_three results_three)[2 - 1]?
      = some ((1, guti_zero, tai_list_zero), new_guti_second_result) ∧
    new_guti_second_result.guti.m_tmsi = 2 ∧ new_guti_second_result.rc = RETURNok :=
  ⟨by decide, by decide,
   (test_mode_m_tmsi_is_call_number (mme_with_served served_run) calls_three results_three
      (by decide) (by decide) (by decide)).1 2 (1, guti_zero, tai_list_zero)
      new_guti_second_result (by decide) (by decide) (by decide)⟩

/-- The macro TAIS_ARE_EQUAL answers true exactly for equal TAIs. -/
theorem TAIS_ARE_EQUAL_iff (a b : tai_t) : TAIS_ARE_EQUAL a b = true ↔ a = b := by
  cases a; cases b
  simp [TAIS_ARE_EQUAL, plmn_digits_match_iff]

/-- The TAI list of a call of `mme_api_new_guti` that returns RETURNok: its
entries are the selected served TAIs, and its tag is the flag of the run over
the selected codes. -/
theorem new_guti_entries_selected (s : mme_state) (imsi : Nat) (guti : guti_t)
    (tai_list : tai_list_t) (r : new_guti_result)
    (h : mme_api_new_guti s imsi guti tai_list = some r) (hok : r.rc = RETURNok) :
    r.tai_list.n_tais ≤ TAI_LIST_MAX_SIZE ∧
    tai_list_entries r.tai_list = selected_tais s.conf ∧
    r.tai_list.list_type =
      (if ((selected_codes s.conf).foldl tac_run_step (INVALID_TAC_FFFE, true)).2
       then TRACKING_AREA_IDENTITY_LIST_ONE_PLMN_CONSECUTIVE_TACS
       else TRACKING_AREA_IDENTITY_LIST_ONE_PLMN_NON_CONSECUTIVE_TACS) := by
  obtain ⟨v, hv, _, hn, ht, hl⟩ := new_guti_ok_scan s imsi guti tai_list r h hok
  obtain ⟨b1, _, b3, b4⟩ := new_guti_scan_selected s.conf tai_list.tai v hv
  refine ⟨hn ▸ b1, ?_, ?_⟩
  · have hid : ∀ t ∈ selected_tais s.conf,
        ({ plmn := s.conf.gummei.plmn, tac := t.tac } : tai_t) = t := by
      intro t hmem
      have hp := (List.mem_filter.mp hmem).2
      have hp2 : t.plmn = s.conf.gummei.plmn := by simpa using hp
      cases t
      simp only at hp2
      rw [hp2]
    unfold tai_list_entries
    rw [List.take_take, hn, ht, Nat.min_eq_left b1, b3, List.map_congr_left hid]
    exact List.map_id _
  · have hc := congrArg Prod.snd b4
    simp only at hc
    rw [hl, hc]

/-- The served-list loop of `mme_api_check_tai_local_mme` stays in the array
when the iterations that are left end below its capacity, and then tells
whether the TAI is among the entries it visits. -/
theorem check_tai_local_scan_eq (served : List tai_t) (t : tai_t) :
    ∀ (k i : Nat), i + k ≤ TAI_LIST_MAX_SIZE → i + k ≤ served.length →
      check_tai_local_scan served t k i = some (decide (t ∈ (served.drop i).take k)) := by
  intro k
  induction k with
  | zero => intro i _ _; simp [check_tai_local_scan]
  | succ k ih =>
    intro i h1 h2
    have hi : i < served.length := by omega
    have hget : arr_get TAI_LIST_MAX_SIZE served i = some served[i] := by
      unfold arr_get
      rw [if_pos (by omega), List.getElem?_eq_getElem hi]
    have hdrop : served.drop i = served[i] :: served.drop (i + 1) :=
      List.drop_eq_getElem_cons hi
    unfold check_tai_local_scan
    rw [hget]
    simp only
    rw [hdrop, List.take_succ_cons]
    by_cases he : TAIS_ARE_EQUAL served[i] t = true
    · rw [if_pos he]
      have heq := (TAIS_ARE_EQUAL_iff _ _).mp he
      simp [heq]
    · rw [if_neg he, ih (i + 1) (by omega) (by omega)]
      have hne : ¬ t = served[i] := fun h => he ((TAIS_ARE_EQUAL_iff _ _).mpr h.symm)
      simp [List.mem_cons, hne]

/-- The function `mme_api_check_tai_local_mme` on a snapshot whose served count
is within the array: it returns, and it tells whether the PLMN is the node's
and the TAI is one of the served entries. -/
theorem check_tai_local_eq (conf : mme_api_emm_config_t) (t : tai_t)
    (hn : conf.tai_list.n_tais ≤ TAI_LIST_MAX_SIZE)
    (hl : conf.tai_list.tai.length = TAI_LIST_MAX_SIZE) :
    mme_api_check_tai_local_mme conf (some t) =
      some (decide (t.plmn = conf.gummei.plmn ∧ t ∈ tai_list_entries conf.tai_list)) := by
  have hent : tai_list_entries conf.tai_list = conf.tai_list.tai.take conf.tai_list.n_tais := by
    unfold tai_list_entries
    rw [List.take_take, Nat.min_eq_left hn]
  have hscan := check_tai_local_scan_eq conf.tai_list.tai t conf.tai_list.n_tais 0
    (by omega) (by omega)
  rw [List.drop_zero] at hscan
  unfold mme_api_check_tai_local_mme
  simp only
  by_cases hp : t.plmn = conf.gummei.plmn
  · have hc : (decide (t.plmn.mcc_digit2 = conf.gummei.plmn.mcc_digit2) &&
       decide (t.plmn.mcc_digit1 = conf.gummei.plmn.mcc_digit1) &&
       decide (t.plmn.mnc_digit3 = conf.gummei.plmn.mnc_digit3) &&
       decide (t.plmn.mcc_digit3 = conf.gummei.plmn.mcc_digit3) &&
       decide (t.plmn.mnc_digit2 = conf.gummei.plmn.mnc_digit2) &&
       decide (t.plmn.mnc_digit1 = conf.gummei.plmn.mnc_digit1)) = true := by
      rw [hp]; simp
    rw [if_pos hc, hscan, hent]
    simp [hp]
  · have hc : ¬ (decide (t.plmn.mcc_digit2 = conf.gummei.plmn.mcc_digit2) &&
       decide (t.plmn.mcc_digit1 = conf.gummei.plmn.mcc_digit1) &&
       decide (t.plmn.mnc_digit3 = conf.gummei.plmn.mnc_digit3) &&
       decide (t.plmn.mcc_digit3 = conf.gummei.plmn.mcc_digit3) &&
       decide (t.plmn.mnc_digit2 = conf.gummei.plmn.mnc_digit2) &&
       decide (t.plmn.mnc_digit1 = conf.gummei.plmn.mnc_digit1)) = true := by
      intro hall
      apply hp
      simp only [Bool.and_eq_true, decide_eq_true_eq] at hall
      obtain ⟨⟨⟨⟨⟨a1, a2⟩, a3⟩, a4⟩, a5⟩, a6⟩ := hall
      cases hx : t.plmn
      cases hy : conf.gummei.plmn
      rw [hx, hy] at a1 a2 a3 a4 a5 a6
      simp only at a1 a2 a3 a4 a5 a6
      simp [a1, a2, a3, a4, a5, a6]
    rw [if_neg hc]
    simp [hp]

/-- The neighbour loop tells whether the TAI is the tracking area of one of the
entries of the table. -/
theorem check_tai_ngh_scan_iff (t : tai_t) :
    ∀ (tbl : List nghMme_t),
      check_tai_ngh_scan tbl t = true ↔ ∃ e ∈ tbl, e.ngh_mme_tai = t := by
  intro tbl
  induction tbl with
  | nil => simp [check_tai_ngh_scan]
  | cons e rest ih =>
    unfold check_tai_ngh_scan
    by_cases he : TAIS_ARE_EQUAL e.ngh_mme_tai t = true
    · rw [if_pos he]
      have heq := (TAIS_ARE_EQUAL_iff _ _).mp he
      simp [heq]
    · rw [if_neg he, ih]
      have hne : ¬ e.ngh_mme_tai = t := fun h => he ((TAIS_ARE_EQUAL_iff _ _).mpr h)
      simp [hne]

/-- C21 (as amended). For every call of `mme_api_new_guti` that returns
RETURNok, the codes of the returned TAI list are the selected codes of the
snapshot, so the list satisfies the TAI-list invariant if and only if the
selected codes are pairwise distinct and none of them is the reserved code
INVALID_TAC_FFFE: the function copies the codes and checks neither. -/
theorem new_guti_invariant_iff_selection (s : mme_state) (imsi : Nat) (guti : guti_t)
    (tai_list : tai_list_t) (r : new_guti_result)
    (h : mme_api_new_guti s imsi guti tai_list = some r) (hok : r.rc = RETURNok) :
    tai_list_codes r.tai_list = selected_codes s.conf ∧
    (tai_list_invariant r.tai_list ↔
      (selected_codes s.conf).Nodup ∧ INVALID_TAC_FFFE ∉ selected_codes s.conf) := by
  obtain ⟨a1, a2, _⟩ := new_guti_entries_selected s imsi guti tai_list r h hok
  have hc : tai_list_codes r.tai_list = selected_codes s.conf := by
    unfold tai_list_codes selected_codes
    rw [a2]
  refine ⟨hc, ?_⟩
  unfold tai_list_invariant
  rw [hc]
  exact ⟨fun hinv => hinv.2, fun hsel => ⟨a1, hsel⟩⟩

/-- C21 (instance). Served areas 10 (own PLMN), 11 (another PLMN) and 20 (own
PLMN): the returned codes are 10 and 20, and the invariant holds. -/
theorem new_guti_invariant_iff_selection_witness :
    mme_api_new_guti (mme_with_served served_mixed) 1 guti_zero tai_list_zero
      = some (new_guti_result_of served_mixed 0 [10, 20]) ∧
    tai_list_codes (new_guti_result_of served_mixed 0 [10, 20]).tai_list
      = selected_codes (mme_with_served served_mixed).conf ∧
    (tai_list_invariant (new_guti_result_of served_mixed 0 [10, 20]).tai_list ↔
      (selected_codes (mme_with_served served_mixed).conf).Nodup ∧
        INVALID_TAC_FFFE ∉ selected_codes (mme_with_served served_mixed).conf) :=
  ⟨by decide,
   new_guti_invariant_iff_selection (mme_with_served served_mixed) 1 guti_zero tai_list_zero
     (new_guti_result_of served_mixed 0 [10, 20]) (by decide) (by decide)⟩

/-- C21 (counterexample). With the served code 10 twice under the node's PLMN
the call returns RETURNok with the codes 10 and 10, and with the served codes
0xFFFE and 5 it returns RETURNok with the reserved code in the list: both
returned lists break the TAI-list invariant. -/
theorem new_guti_returns_list_outside_invariant :
    (mme_api_new_guti (mme_with_served served_duplicate) 1 guti_zero tai_list_zero).map
        (fun r => (r.rc, tai_list_codes r.tai_list, decide (tai_list_invariant r.tai_list)))
      = some (RETURNok, [10, 10], false) ∧
    (mme_api_new_guti (mme_with_served served_reserved_first) 1 guti_zero tai_list_zero).map
        (fun r => (r.rc, tai_list_codes r.tai_list, decide (tai_list_invariant r.tai_list)))
      = some (RETURNok, [INVALID_TAC_FFFE, 5], false) := by
  constructor <;> decide

/-- C22 (as amended). On a snapshot whose served count is within the served
array, `mme_api_check_tai_local_mme` returns false for an absent TAI, returns
for every present TAI, and returns true if and only if the PLMN of the TAI is
that of `_emm_data.conf.gummei` and the TAI itself, PLMN and code, is one of
the first `n_tais` served entries. -/
theorem check_tai_local_true_iff_served (conf : mme_api_emm_config_t) (t : tai_t)
    (hn : conf.tai_list.n_tais ≤ TAI_LIST_MAX_SIZE)
    (hl : conf.tai_list.tai.length = TAI_LIST_MAX_SIZE) :
    mme_api_check_tai_local_mme conf none = some false ∧
    (∃ b, mme_api_check_tai_local_mme conf (some t) = some b) ∧
    (mme_api_check_tai_local_mme conf (some t) = some true ↔
      t.plmn = conf.gummei.plmn ∧ t ∈ tai_list_entries conf.tai_list) := by
  refine ⟨rfl, ⟨_, check_tai_local_eq conf t hn hl⟩, ?_⟩
  rw [check_tai_local_eq conf t hn hl]
  simp

/-- C22 (instance). Served areas 10 (own PLMN), 11 (another PLMN) and 20 (own
PLMN): the TAI of the node's PLMN with code 20 is local. -/
theorem check_tai_local_true_iff_served_witness :
    mme_api_check_tai_local_mme (mme_with_served served_mixed).conf none = some false ∧
    (∃ b, mme_api_check_tai_local_mme (mme_with_served served_mixed).conf
            (some { plmn := plmn_a, tac := 20 }) = some b) ∧
    (mme_api_check_tai_local_mme (mme_with_served served_mixed).conf
        (some { plmn := plmn_a, tac := 20 }) = some true ↔
      ({ plmn := plmn_a, tac := 20 } : tai_t).plmn = (mme_with_served served_mixed).conf.gummei.plmn ∧
        ({ plmn := plmn_a, tac := 20 } : tai_t) ∈
          tai_list_entries (mme_with_served served_mixed).conf.tai_list) :=
  check_tai_local_true_iff_served (mme_with_served served_mixed).conf { plmn := plmn_a, tac := 20 }
    (by decide) (by decide)

/-- C22 (counterexample). Served areas 10 (own PLMN), 11 (another PLMN) and 20
(own PLMN): for the TAI of the node's PLMN with code 11 all six PLMN digits
equal those of the GUMMEI and the code 11 is among the codes of the served
entries, yet the function returns false, because the served entry with code 11
has another PLMN. -/
theorem check_tai_local_code_under_other_plmn :
    mme_api_check_tai_local_mme (mme_with_served served_mixed).conf
        (some { plmn := plmn_a, tac := 11 }) = some false ∧
    plmn_digits_match plmn_a (mme_with_served served_mixed).conf.gummei.plmn = true ∧
    11 ∈ tai_list_codes (mme_with_served served_mixed).conf.tai_list := by
  refine ⟨by decide, by decide, by decide⟩

/-- C23 (as amended). The function `mme_api_check_tai_ngh_existing` returns true
if and only if the TAI is present and its PLMN and its code equal those of the
`ngh_mme_tai` of one of the entries of the neighbour table; for an absent TAI
it returns false. A present TAI is compared whatever it holds. -/
theorem check_tai_ngh_true_iff_configured (nghMme : List nghMme_t)
    (originating_tai : Option tai_t) :
    (mme_api_check_tai_ngh_existing nghMme originating_tai = true ↔
      ∃ t, originating_tai = some t ∧
        ∃ e ∈ nghMme, e.ngh_mme_tai.plmn = t.plmn ∧ e.ngh_mme_tai.tac = t.tac) ∧
    mme_api_check_tai_ngh_existing nghMme none = false := by
  refine ⟨?_, rfl⟩
  have hsplit : ∀ (a b : tai_t), a = b ↔ (a.plmn = b.plmn ∧ a.tac = b.tac) := by
    intro a b
    cases a; cases b
    simp
  cases originating_tai with
  | none => simp [mme_api_check_tai_ngh_existing]
  | some t =>
    unfold mme_api_check_tai_ngh_existing
    simp only
    rw [check_tai_ngh_scan_iff]
    constructor
    · rintro ⟨e, he, heq⟩
      exact ⟨t, rfl, e, he, (hsplit _ _).mp heq⟩
    · rintro ⟨t1, ht1, e, he, heq⟩
      cases ht1
      exact ⟨e, he, (hsplit _ _).mpr heq⟩

/-- C23 (counterexample). A neighbour table of four entries of which two are
configured: the zeroed TAI is present and empty, yet the function returns true
for it, because it equals the `ngh_mme_tai` of the entries that are not
configured. -/
theorem check_tai_ngh_zeroed_tai_matches :
    mme_api_check_tai_ngh_existing ngh_table (some tai_zeroed) = true ∧
    tai_zeroed.tac = 0 ∧
    tai_zeroed.plmn = { mcc_digit1 := 0, mcc_digit2 := 0, mcc_digit3 := 0,
                        mnc_digit1 := 0, mnc_digit2 := 0, mnc_digit3 := 0 } := by
  refine ⟨by decide, rfl, rfl⟩

/-- C24. With node PLMN `A`: a call of `mme_api_new_guti` that returns RETURNok
on the served areas (A,10), (A,11), (A,20) yields the codes 10, 11, 20 with the
tag NON_CONSECUTIVE_TACS, and on the served areas (A,5), (A,6), (A,7) it yields
the codes 5, 6, 7 with the tag CONSECUTIVE_TACS. -/
theorem new_guti_scenarios (s : mme_state) (imsi : Nat) (guti : guti_t)
    (tai_list : tai_list_t) (r : new_guti_result) (A : plmn_t)
    (h : mme_api_new_guti s imsi guti tai_list = some r) (hok : r.rc = RETURNok)
    (hA : s.conf.gummei.plmn = A) (hn : s.conf.tai_list.n_tais = 3) :
    (s.conf.tai_list.tai.take 3 =
        [{ plmn := A, tac := 10 }, { plmn := A, tac := 11 }, { plmn := A, tac := 20 }] →
      tai_list_entries r.tai_list =
        [{ plmn := A, tac := 10 }, { plmn := A, tac := 11 }, { plmn := A, tac := 20 }] ∧
      tai_list_codes r.tai_list = [10, 11, 20] ∧
      r.tai_list.list_type = TRACKING_AREA_IDENTITY_LIST_ONE_PLMN_NON_CONSECUTIVE_TACS) ∧
    (s.conf.tai_list.tai.take 3 =
        [{ plmn := A, tac := 5 }, { plmn := A, tac := 6 }, { plmn := A, tac := 7 }] →
      tai_list_entries r.tai_list =
        [{ plmn := A, tac := 5 }, { plmn := A, tac := 6 }, { plmn := A, tac := 7 }] ∧
      tai_list_codes r.tai_list = [5, 6, 7] ∧
      r.tai_list.list_type = TRACKING_AREA_IDENTITY_LIST_ONE_PLMN_CONSECUTIVE_TACS) := by
  obtain ⟨_, a2, a3⟩ := new_guti_entries_selected s imsi guti tai_list r h hok
  constructor
  · intro hs
    have hsel : selected_tais s.conf =
        [{ plmn := A, tac := 10 }, { plmn := A, tac := 11 }, { plmn := A, tac := 20 }] := by
      unfold selected_tais
      rw [hn, hs, hA]
      simp
    have hcodes : selected_codes s.conf = [10, 11, 20] := by
      unfold selected_codes
      rw [hsel]
      rfl
    refine ⟨a2.trans hsel, ?_, ?_⟩
    · unfold tai_list_codes
      rw [a2, hsel]
      rfl
    · rw [a3, hcodes]
      decide
  · intro hs
    have hsel : selected_tais s.conf =
        [{ plmn := A, tac := 5 }, { plmn := A, tac := 6 }, { plmn := A, tac := 7 }] := by
      unfold selected_tais
      rw [hn, hs, hA]
      simp
    have hcodes : selected_codes s.conf = [5, 6, 7] := by
      unfold selected_codes
      rw [hsel]
      rfl
    refine ⟨a2.trans hsel, ?_, ?_⟩
    · unfold tai_list_codes
      rw [a2, hsel]
      rfl
    · rw [a3, hcodes]
      decide

/-- C24 (instance). The two scenarios on the example node, whose PLMN is
`plmn_a`: the calls return RETURNok with the codes and tags of the
specification. -/
theorem new_guti_scenarios_witness :
    (mme_api_new_guti (mme_with_served served_scenario_gap) 1 guti_zero tai_list_zero
        = some (new_guti_result_of served_scenario_gap 0 [10, 11, 20]) ∧
      tai_list_entries (new_guti_result_of served_scenario_gap 0 [10, 11, 20]).tai_list =
        [{ plmn := plmn_a, tac := 10 }, { plmn := plmn_a, tac := 11 },
         { plmn := plmn_a, tac := 20 }] ∧
      tai_list_codes (new_guti_result_of served_scenario_gap 0 [10, 11, 20]).tai_list
        = [10, 11, 20] ∧
      (new_guti_result_of served_scenario_gap 0 [10, 11, 20]).tai_list.list_type
        = TRACKING_AREA_IDENTITY_LIST_ONE_PLMN_NON_CONSECUTIVE_TACS) ∧
    (mme_api_new_guti (mme_with_served served_scenario_run) 1 guti_zero tai_list_zero
        = some (new_guti_result_of served_scenario_run 1 [5, 6, 7]) ∧
      tai_list_entries (new_guti_result_of served_scenario_run 1 [5, 6, 7]).tai_list =
        [{ plmn := plmn_a, tac := 5 }, { plmn := plmn_a, tac := 6 },
         { plmn := plmn_a, tac := 7 }] ∧
      tai_list_codes (new_guti_result_of served_scenario_run 1 [5, 6, 7]).tai_list
        = [5, 6, 7] ∧
      (new_guti_result_of served_scenario_run 1 [5, 6, 7]).tai_list.list_type
        = TRACKING_AREA_IDENTITY_LIST_ONE_PLMN_CONSECUTIVE_TACS) :=
  ⟨⟨by decide,
    (new_guti_scenarios (mme_with_served served_scenario_gap) 1 guti_zero tai_list_zero
      (new_guti_result_of served_scenario_gap 0 [10, 11, 20]) plmn_a
      (by decide) (by decide) (by decide) (by decide)).1 (by decide)⟩,
   ⟨by decide,
    (new_guti_scenarios (mme_with_served served_scenario_run) 1 guti_zero tai_list_zero
      (new_guti_result_of served_scenario_run 1 [5, 6, 7]) plmn_a
      (by decide) (by decide) (by decide) (by decide)).2 (by decide)⟩⟩

/-- C27. On a snapshot whose served count is within the served array,
`mme_api_check_tai_local_mme` returns for every present TAI, and it returns
true if and only if the TAI, with its PLMN and its code, is an entry of the
TAI list that a call of `mme_api_new_guti` returning RETURNok builds from the
same snapshot. -/
theorem check_tai_local_agrees_with_new_guti (s : mme_state) (imsi : Nat) (guti : guti_t)
    (tai_list : tai_list_t) (r : new_guti_result) (t : tai_t)
    (hn : s.conf.tai_list.n_tais ≤ TAI_LIST_MAX_SIZE)
    (hl : s.conf.tai_list.tai.length = TAI_LIST_MAX_SIZE)
    (h : mme_api_new_guti s imsi guti tai_list = some r) (hok : r.rc = RETURNok) :
    (∃ b, mme_api_check_tai_local_mme s.conf (some t) = some b) ∧
    (mme_api_check_tai_local_mme s.conf (some t) = some true ↔
      t ∈ tai_list_entries r.tai_list) := by
  obtain ⟨_, a2, _⟩ := new_guti_entries_selected s imsi guti tai_list r h hok
  refine ⟨⟨_, check_tai_local_eq s.conf t hn hl⟩, ?_⟩
  have hent : tai_list_entries s.conf.tai_list =
      s.conf.tai_list.tai.take s.conf.tai_list.n_tais := by
    unfold tai_list_entries
    rw [List.take_take, Nat.min_eq_left hn]
  rw [check_tai_local_eq s.conf t hn hl, a2, hent]
  unfold selected_tais
  simp only [Option.some.injEq, decide_eq_true_eq, List.mem_filter]
  exact And.comm

/-- C27 (instance). Served areas 10 (own PLMN), 11 (another PLMN) and 20 (own
PLMN): the TAI of the node's PLMN with code 20 is local and is an entry of the
list of the call. -/
theorem check_tai_local_agrees_with_new_guti_witness :
    mme_api_new_guti (mme_with_served served_mixed) 1 guti_zero tai_list_zero
      = some (new_guti_result_of served_mixed 0 [10, 20]) ∧
    mme_api_check_tai_local_mme (mme_with_served served_mixed).conf
      (some { plmn := plmn_a, tac := 20 }) = some true ∧
    (∃ b, mme_api_check_tai_local_mme (mme_with_served served_mixed).conf
            (some { plmn := plmn_a, tac := 20 }) = some b) ∧
    (mme_api_check_tai_local_mme (mme_with_served served_mixed).conf
        (some { plmn := plmn_a, tac := 20 }) = some true ↔
      ({ plmn := plmn_a, tac := 20 } : tai_t) ∈
        tai_list_entries (new_guti_result_of served_mixed 0 [10, 20]).tai_list) :=
  ⟨by decide, by decide,
   check_tai_local_agrees_with_new_guti (mme_with_served served_mixed) 1 guti_zero
     tai_list_zero (new_guti_result_of served_mixed 0 [10, 20]) { plmn := plmn_a, tac := 20 }
     (by decide) (by decide) (by decide) (by decide)⟩

end MmeApi

end OpenairCN
